import Mathlib

/-! Ultrasonic round-robin scheduler (wpilibc/Athena/src/Ultrasonic.cpp), with
the error record of `ErrorBase`, the reading of `AnalogPotentiometer` and the
dispatch loop of `SampleRobot`.

A shallow embedding of the `Ultrasonic` class: the intrusive singly linked
list of sensors hanging off the static `m_firstSensor`, the static
automatic-mode flag, the static poller task, and the operations that
construct, destroy, ping and poll sensors.

Objects live in a heap indexed by address (`Nat`); a pointer is an
`Option Nat` with `none` for `nullptr`.  Loops that walk the list take an
explicit iteration budget and report `Fault.outOfFuel` when it is used up;
dereferencing `nullptr` reports `Fault.nullDeref`.  Values of type `double`
are rationals.
-/

namespace WPILib

/-- The enum `Ultrasonic::DistanceUnit`. -/
inductive DistanceUnit
  | kInches
  | kMilliMeters
  deriving DecidableEq, Repr

/-- Modelled from the spec: the class `Counter` (Counter.h is not part of the
sources).  The period counter primitive offers `SetMaxPeriod(seconds)`,
`SetSemiPeriodMode(bool)`, `Reset()`, `Get() -> edgeCount` and
`GetPeriod() -> seconds`; the record keeps what these read and write. -/
structure Counter where
  count : Nat
  period : Rat
  maxPeriod : Rat
  semiPeriodMode : Bool
  deriving DecidableEq, Repr

/-- Modelled from the spec: `Counter::Reset()` clears the accumulated edge
count. -/
def Counter.Reset (c : Counter) : Counter := { c with count := 0 }

/-- Modelled from the spec: `Counter::SetMaxPeriod(seconds)`. -/
def Counter.SetMaxPeriod (c : Counter) (p : Rat) : Counter := { c with maxPeriod := p }

/-- Modelled from the spec: `Counter::SetSemiPeriodMode(bool)`. -/
def Counter.SetSemiPeriodMode (c : Counter) (b : Bool) : Counter :=
  { c with semiPeriodMode := b }

/-- Modelled from the spec: `Counter::Get()`, the accumulated edge count. -/
def Counter.Get (c : Counter) : Nat := c.count

/-- Modelled from the spec: `Counter::GetPeriod()`, the measured period in
seconds. -/
def Counter.GetPeriod (c : Counter) : Rat := c.period

/-- Modelled from the spec: a counter as built by `m_counter(m_echoChannel)`,
before any edge has been seen. -/
def Counter.fresh : Counter :=
  { count := 0, period := 0, maxPeriod := 0, semiPeriodMode := false }

/-- Modelled from the spec: the constant `Ultrasonic::kPingTime` of
Ultrasonic.h (not part of the sources), the width of the trigger pulse:
10 microseconds. -/
def kPingTime : Rat := 1 / 100000

/-- What the hardware and the scheduler see: trigger pulses on a digital
output channel and calls of `Wait`. -/
inductive Event
  | pulse (channel : Nat) (duration : Rat)
  | wait (seconds : Rat)
  deriving DecidableEq, Repr

/-- Ways in which a run of the model stops without a result. -/
inductive Fault
  | outOfFuel
  | nullDeref
  deriving DecidableEq, Repr

/-- The places where Ultrasonic.cpp calls `wpi_assert`. -/
inductive AssertSite
  | dtorFirstSensorNotNull
  | dtorHeadHasNext
  | taskNotRunning
  | pingNotAutomatic
  | pidSourceDisplacement
  deriving DecidableEq, Repr

/-- The instance fields of an `Ultrasonic` object. -/
structure Ultrasonic where
  m_pingChannel : Option Nat
  m_echoChannel : Option Nat
  m_enabled : Bool
  m_counter : Counter
  m_nextSensor : Option Nat
  m_units : DistanceUnit
  deriving DecidableEq, Repr

/-- The static members of `Ultrasonic` together with the object heap, the
trace of emitted events and the log of failed assertions.

`m_task` is `some u` while the thread behind the static task handle is
running `UltrasonicChecker` with local variable `u`, and `none` when that
thread is not running.  `detached` counts poller threads that were still
running when the handle was overwritten by a new task. -/
structure State where
  heap : Nat → Ultrasonic
  m_firstSensor : Option Nat
  m_automaticEnabled : Bool
  m_task : Option (Option Nat)
  detached : Nat
  instances : Nat
  events : List Event
  failedAsserts : List AssertSite

/-- The state at program start: no sensor, automatic mode off, no task. -/
def State.initial (h : Nat → Ultrasonic) : State :=
  { heap := h, m_firstSensor := none, m_automaticEnabled := false, m_task := none,
    detached := 0, instances := 0, events := [], failedAsserts := [] }

/-- Number of poller threads that are running. -/
def State.aliveTasks (s : State) : Nat :=
  (if s.m_task.isSome then 1 else 0) + s.detached

/-- Append an event to the trace. -/
def State.emit (s : State) (e : Event) : State := { s with events := s.events ++ [e] }

/-- Overwrite the object at address `p`. -/
def State.store (s : State) (p : Nat) (u : Ultrasonic) : State :=
  { s with heap := Function.update s.heap p u }

/-- The call `u->m_counter.Reset()`. -/
def State.resetCounter (s : State) (u : Nat) : State :=
  s.store u { s.heap u with m_counter := (s.heap u).m_counter.Reset }

/-- Modelled from the spec: `wpi_assert(condition)`.  Utility.h only declares
`bool wpi_assert_impl(bool conditionValue, ...)`; its body is not part of the
sources.  A failed assertion is recorded and control returns to the caller,
which in Ultrasonic.cpp ignores the returned value. -/
def wpi_assert (condition : Bool) (site : AssertSite) (s : State) : State :=
  if condition then s else { s with failedAsserts := s.failedAsserts ++ [site] }

/-- Modelled from the spec: `Task::Verify()`, whether the task behind the
handle is still running. -/
def Task.Verify (s : State) : Bool := s.m_task.isSome

/-- Modelled from the spec: `m_task = Task("UltrasonicChecker",
&Ultrasonic::UltrasonicChecker)`.  A new thread starts at the top of
`UltrasonicChecker` with `u = nullptr`; a thread the handle referred to and
that is still running keeps running unreferenced. -/
def Task.start (s : State) : State :=
  { s with m_task := some none,
           detached := s.detached + (if s.m_task.isSome then 1 else 0) }

/-- The call `DigitalOutput::Pulse` through the shared pointer
`m_pingChannel` of the object at `u`. -/
def pulsePing (u : Nat) (s : State) : Except Fault State :=
  match (s.heap u).m_pingChannel with
  | none => .error .nullDeref
  | some ch => .ok (s.emit (.pulse ch kPingTime))

/-- One turn of the loop of `Ultrasonic::UltrasonicChecker` in the poller
thread: the test of `m_automaticEnabled`, then the loop body up to and
including `Wait(0.1)`.  The thread ends when the flag is false or when the
list is empty. -/
def checkerIter (s : State) : Except Fault State :=
  match s.m_task with
  | none => .ok s
  | some u =>
    if s.m_automaticEnabled then
      let u1 := if u = none then s.m_firstSensor else u
      match u1 with
      | none => .ok { s with m_task := none }
      | some p =>
        match (if (s.heap p).m_enabled then pulsePing p s else .ok s) with
        | .error e => .error e
        | .ok s1 =>
          .ok ({ s1 with m_task := some (s1.heap p).m_nextSensor }.emit (.wait (1 / 10)))
    else .ok { s with m_task := none }

/-- The function `Ultrasonic::UltrasonicChecker` run for at most `iters`
turns of its loop. -/
def UltrasonicChecker : Nat → State → Except Fault State
  | 0, s => .ok s
  | iters + 1, s =>
    match checkerIter s with
    | .error e => .error e
    | .ok s1 => UltrasonicChecker iters s1

/-- The loops `for (Ultrasonic *u = m_firstSensor; u != nullptr;
u = u->m_nextSensor) u->m_counter.Reset();` of `SetAutomaticMode`, started
at pointer `u`. -/
def resetCounters : Nat → Option Nat → State → Except Fault State
  | 0, _, _ => .error .outOfFuel
  | _ + 1, none, s => .ok s
  | fuel + 1, some u, s => resetCounters fuel (s.heap u).m_nextSensor (s.resetCounter u)

/-- The loop `while (m_task.Verify()) Wait(0.15);` of `SetAutomaticMode`.
While the caller sleeps, the poller thread takes its next turn. -/
def waitForTask : Nat → State → Except Fault State
  | 0, _ => .error .outOfFuel
  | fuel + 1, s =>
    if Task.Verify s then
      match checkerIter (s.emit (.wait (3 / 20))) with
      | .error e => .error e
      | .ok s1 => waitForTask fuel s1
    else .ok s

/-- Modelled from the spec: `Task::join()`, block until the task has
terminated. -/
def Task.join : Nat → State → Except Fault State
  | 0, _ => .error .outOfFuel
  | fuel + 1, s =>
    if Task.Verify s then
      match checkerIter s with
      | .error e => .error e
      | .ok s1 => Task.join fuel s1
    else .ok s

/-- The function `Ultrasonic::SetAutomaticMode(bool enabling)`. -/
def Ultrasonic.SetAutomaticMode (fuel : Nat) (enabling : Bool) (s : State) :
    Except Fault State :=
  if enabling = s.m_automaticEnabled then .ok s
  else
    let s0 := { s with m_automaticEnabled := enabling }
    if enabling then
      match resetCounters fuel s0.m_firstSensor s0 with
      | .error e => .error e
      | .ok s1 => .ok (Task.start (wpi_assert (Task.Verify s1 == false) .taskNotRunning s1))
    else
      match waitForTask fuel s0 with
      | .error e => .error e
      | .ok s1 =>
        match resetCounters fuel s1.m_firstSensor s1 with
        | .error e => .error e
        | .ok s2 => Task.join fuel { s2 with m_automaticEnabled := false }

/-- The function `Ultrasonic::Initialize()` on the object at `this`.
`HALReport` and the LiveWindow registration only show here through the
dereference of `m_echoChannel`. -/
def Ultrasonic.Initialize (fuel : Nat) (this : Nat) (s : State) : Except Fault State :=
  let originalMode := s.m_automaticEnabled
  match Ultrasonic.SetAutomaticMode fuel false s with
  | .error e => .error e
  | .ok s1 =>
    let s2 := s1.store this { s1.heap this with m_nextSensor := s1.m_firstSensor }
    let s3 := { s2 with m_firstSensor := some this }
    let s4 := s3.store this
      { s3.heap this with
        m_counter := (((s3.heap this).m_counter.SetMaxPeriod 1).SetSemiPeriodMode true).Reset }
    let s5 := s4.store this { s4.heap this with m_enabled := true }
    match Ultrasonic.SetAutomaticMode fuel originalMode s5 with
    | .error e => .error e
    | .ok s6 =>
      let s7 := { s6 with instances := s6.instances + 1 }
      match (s7.heap this).m_echoChannel with
      | none => .error .nullDeref
      | some _ => .ok s7

/-- The member initialisers and the assignment `m_units = units` that every
constructor of `Ultrasonic` runs on the object at `this` before it calls
`Initialize`. -/
def State.memberInit (s : State) (this : Nat) (pingChannel echoChannel : Option Nat)
    (units : DistanceUnit) : State :=
  let s1 := s.store this
    { s.heap this with
      m_pingChannel := pingChannel, m_echoChannel := echoChannel,
      m_counter := Counter.fresh }
  s1.store this { s1.heap this with m_units := units }

/-- The constructor `Ultrasonic::Ultrasonic(uint32_t pingChannel,
uint32_t echoChannel, DistanceUnit units)` building the object at `this`. -/
def Ultrasonic.construct (fuel : Nat) (this : Nat) (pingChannel echoChannel : Nat)
    (units : DistanceUnit) (s : State) : Except Fault State :=
  Ultrasonic.Initialize fuel this
    (s.memberInit this (some pingChannel) (some echoChannel) units)

/-- The scan `for (Ultrasonic *s = m_firstSensor; s != nullptr;
s = s->m_nextSensor)` of the destructor, started at pointer `p`: the first
node whose successor is `this` is linked to the successor of `this`. -/
def removeScan : Nat → Nat → Option Nat → State → Except Fault State
  | 0, _, _, _ => .error .outOfFuel
  | _ + 1, _, none, st => .ok st
  | fuel + 1, this, some p, st =>
    if (st.heap p).m_nextSensor = some this then
      .ok (st.store p { st.heap p with m_nextSensor := (st.heap this).m_nextSensor })
    else removeScan fuel this (st.heap p).m_nextSensor st

/-- The block of the destructor that runs under the `lock_guard`: unlink
`this` from the list, as head or by the scan. -/
def unlinkLocked (fuel : Nat) (this : Nat) (s1 : State) : Except Fault State :=
  if s1.m_firstSensor = some this then
    let s2 := { s1 with m_firstSensor := (s1.heap this).m_nextSensor }
    if s2.m_firstSensor = none then Ultrasonic.SetAutomaticMode fuel false s2
    else .ok s2
  else
    match s1.m_firstSensor with
    | none => .error .nullDeref
    | some f =>
      removeScan fuel this s1.m_firstSensor
        (wpi_assert ((s1.heap f).m_nextSensor != none) .dtorHeadHasNext s1)

/-- The destructor `Ultrasonic::~Ultrasonic()` of the object at `this`. -/
def Ultrasonic.destroy (fuel : Nat) (this : Nat) (s : State) : Except Fault State :=
  let wasAutomaticMode := s.m_automaticEnabled
  match Ultrasonic.SetAutomaticMode fuel false s with
  | .error e => .error e
  | .ok s0 =>
    match unlinkLocked fuel this
        (wpi_assert (s0.m_firstSensor != none) .dtorFirstSensorNotNull s0) with
    | .error e => .error e
    | .ok s3 =>
      if s3.m_firstSensor != none && wasAutomaticMode then
        Ultrasonic.SetAutomaticMode fuel true s3
      else .ok s3

/-- The function `Ultrasonic::Ping()` on the object at `this`. -/
def Ultrasonic.Ping (this : Nat) (s : State) : Except Fault State :=
  let s1 := wpi_assert (!s.m_automaticEnabled) .pingNotAutomatic s
  pulsePing this (s1.resetCounter this)

/-- The function `Ultrasonic::IsRangeValid()` on the object at `this`. -/
def Ultrasonic.IsRangeValid (this : Nat) (s : State) : Bool :=
  decide ((s.heap this).m_counter.Get > 1)

/-- The list of addresses met when following `m_nextSensor` from pointer `p`
until `nullptr`. -/
def ListFrom (h : Nat → Ultrasonic) : Option Nat → List Nat → Prop
  | p, [] => p = none
  | p, a :: l => p = some a ∧ ListFrom h (h a).m_nextSensor l

/-- The registry of state `s` is the list `l`: the sensors reachable from
`m_firstSensor`, in order. -/
def Registry (s : State) (l : List Nat) : Prop := ListFrom s.heap s.m_firstSensor l

/-- The state after `u->m_counter.Reset()` has been called on every sensor of
the list `l`. -/
def State.resetAll (s : State) (l : List Nat) : State :=
  { s with heap := fun i =>
      if i ∈ l then { s.heap i with m_counter := (s.heap i).m_counter.Reset } else s.heap i }

/-- The state after the caller has slept until the poller thread, whose flag
is already cleared, has ended. -/
def State.stopPoller (s : State) : State :=
  match s.m_task with
  | none => s
  | some _ => { s with m_task := none, events := s.events ++ [Event.wait (3 / 20)] }

/-- The state after the list has been relinked with `this` in front and the
counter and enabled flag of `this` have been set up, as in the middle of
`Initialize`. -/
def State.linkFirst (s : State) (this : Nat) : State :=
  { s with
    heap := Function.update s.heap this
      { s.heap this with
        m_nextSensor := s.m_firstSensor
        m_counter := (((s.heap this).m_counter.SetMaxPeriod 1).SetSemiPeriodMode true).Reset
        m_enabled := true }
    m_firstSensor := some this }

/-- The bookkeeping `instances++` at the end of `Initialize`. -/
def State.countInstance (s : State) : State := { s with instances := s.instances + 1 }

/-- The state in which `SetAutomaticMode(false)` leaves a running system whose
list is `l`. -/
def State.stopped (s : State) (l : List Nat) : State :=
  (({ s with m_automaticEnabled := false } : State).stopPoller).resetAll l

/-- The state in which `SetAutomaticMode(true)` leaves a stopped system whose
list is `l` and whose task handle is idle. -/
def State.started (s : State) (l : List Nat) : State :=
  Task.start (({ s with m_automaticEnabled := true } : State).resetAll l)

/-- The state `t` is the state `s` with the object at `this` unlinked: either
the head pointer or one `m_nextSensor` field has been set to the successor of
`this`, and nothing else has changed. -/
def Unlinked (s t : State) (this : Nat) : Prop :=
  t = { s with m_firstSensor := (s.heap this).m_nextSensor } ∨
  ∃ q, q ≠ this ∧ t = s.store q { s.heap q with m_nextSensor := (s.heap this).m_nextSensor }

/-- A sensor object on ping channel `ch` and echo channel `ch + 1` whose
successor in the list is `next`. -/
def demoSensor (next : Option Nat) (ch : Nat) : Ultrasonic :=
  { m_pingChannel := some ch, m_echoChannel := some (ch + 1), m_enabled := true,
    m_counter := { count := 2, period := 1 / 100, maxPeriod := 1, semiPeriodMode := true },
    m_nextSensor := next, m_units := DistanceUnit.kInches }

/-- A heap with linked sensors at addresses 1, 2 and 3 (3 points to 2, 2 to 1)
and unlinked objects elsewhere. -/
def demoHeap : Nat → Ultrasonic := fun i =>
  if i = 3 then demoSensor (some 2) 30
  else if i = 2 then demoSensor (some 1) 20
  else if i = 1 then demoSensor none 10
  else demoSensor none 0

/-- A stopped system whose list is 3, 2, 1. -/
def demoStopped : State :=
  { heap := demoHeap, m_firstSensor := some 3, m_automaticEnabled := false, m_task := none,
    detached := 0, instances := 3, events := [], failedAsserts := [] }

/-- A running system whose list is 3, 2, 1 and whose poller is about to visit
sensor 2. -/
def demoRunning : State :=
  { heap := demoHeap, m_firstSensor := some 3, m_automaticEnabled := true,
    m_task := some (some 2), detached := 0, instances := 3, events := [],
    failedAsserts := [] }

/-- The states that sequential client code can reach from program start,
together with the list of live sensors (constructed and not yet destroyed,
most recent first).  A step is a sensor construction on a fresh object, the
destruction of a live sensor, a call of `SetAutomaticMode`, a call of `Ping`
on a live sensor, or one turn of the poller thread. -/
inductive Reach : List Nat → State → Prop
  | init (h : Nat → Ultrasonic) : Reach [] (State.initial h)
  | construct {live : List Nat} {s s1 : State} (fuel n pingChannel echoChannel : Nat)
      (units : DistanceUnit) :
      Reach live s → n ∉ live →
      Ultrasonic.construct fuel n pingChannel echoChannel units s = .ok s1 →
      Reach (n :: live) s1
  | destroy {live : List Nat} {s s1 : State} (fuel n : Nat) :
      Reach live s → n ∈ live → Ultrasonic.destroy fuel n s = .ok s1 →
      Reach (live.erase n) s1
  | setAutomaticMode {live : List Nat} {s s1 : State} (fuel : Nat) (enabling : Bool) :
      Reach live s → Ultrasonic.SetAutomaticMode fuel enabling s = .ok s1 → Reach live s1
  | ping {live : List Nat} {s s1 : State} (n : Nat) :
      Reach live s → n ∈ live → Ultrasonic.Ping n s = .ok s1 → Reach live s1
  | poll {live : List Nat} {s s1 : State} :
      Reach live s → checkerIter s = .ok s1 → Reach live s1

/-- What every reachable state satisfies: the registry is the list of live
sensors, no poller thread runs unreferenced, a cleared flag means that no
poller thread runs, and the only assertion that has ever failed is the one
of `Ping`. -/
structure Inv (live : List Nat) (s : State) : Prop where
  registry : Registry s live
  detached : s.detached = 0
  stopped : s.m_automaticEnabled = false → s.m_task = none
  asserts : ∀ a ∈ s.failedAsserts, a = AssertSite.pingNotAutomatic

/-- The state after the constructor has built sensor 1, on channels 10 and
11, at program start. -/
def demoBuilt : State :=
  (((State.initial demoHeap).memberInit 1 (some 10) (some 11)
    DistanceUnit.kInches).linkFirst 1).countInstance

/-- The state after `SetAutomaticMode(true)` has been called in `demoBuilt`. -/
def demoAuto : State := demoBuilt.started [1]

/-- The function `Ultrasonic::GetRangeInches()` on the object at `this`.  The
constant `kSpeedOfSoundInchesPerSec` of Ultrasonic.h is not part of the
sources and is a parameter; values of type `double` are rationals here. -/
def Ultrasonic.GetRangeInches (kSpeedOfSoundInchesPerSec : Rat) (this : Nat) (s : State) :
    Rat :=
  if Ultrasonic.IsRangeValid this s then
    (s.heap this).m_counter.GetPeriod * kSpeedOfSoundInchesPerSec / 2
  else 0

/-- The function `Ultrasonic::GetRangeMM()` on the object at `this`. -/
def Ultrasonic.GetRangeMM (kSpeedOfSoundInchesPerSec : Rat) (this : Nat) (s : State) : Rat :=
  Ultrasonic.GetRangeInches kSpeedOfSoundInchesPerSec this s * 25.4

/-- Whether a trace consists of poll turns only, each turn being at most one
trigger pulse of `kPingTime` followed by one `Wait(0.1)`. -/
def pollTurns : List Event → Bool
  | [] => true
  | Event.wait w :: rest => decide (w = 1 / 10) && pollTurns rest
  | Event.pulse _ d :: Event.wait w :: rest =>
    decide (d = kPingTime) && decide (w = 1 / 10) && pollTurns rest
  | _ => false

/-- The sensor that the next turn of the poll loop handles: the value of `u`
after `if (u == nullptr) u = m_firstSensor;`.  It is `none` when no poller
thread runs or when the thread is about to leave the loop. -/
def checkerVisit (s : State) : Option Nat :=
  match s.m_task with
  | none => none
  | some u =>
    if s.m_automaticEnabled then (if u = none then s.m_firstSensor else u) else none

/-- The sensor handled by turn number `k` (counted from 0) of the poll loop
started in state `s`. -/
def visitAt (k : Nat) (s : State) : Option Nat :=
  match UltrasonicChecker k s with
  | .ok sk => checkerVisit sk
  | .error _ => none

/-- The events of one turn of the poll loop on the sensor object `u`. -/
def turnEvents (u : Ultrasonic) : List Event :=
  (match u.m_enabled, u.m_pingChannel with
    | true, some ch => [Event.pulse ch kPingTime]
    | _, _ => []) ++ [Event.wait (1 / 10)]

/-- A running system whose list is 3, 2, 1 and whose poller task has just
been started. -/
def demoFresh : State :=
  { heap := demoHeap, m_firstSensor := some 3, m_automaticEnabled := true,
    m_task := some none, detached := 0, instances := 3, events := [],
    failedAsserts := [] }

/-- The member initialisers `m_pingChannel(...)`, `m_echoChannel(...)` and
`m_counter(m_echoChannel)` that every constructor of `Ultrasonic` runs on the
object at `this`. -/
def State.initList (s : State) (this : Nat) (pingChannel echoChannel : Option Nat) : State :=
  s.store this
    { s.heap this with
      m_pingChannel := pingChannel, m_echoChannel := echoChannel,
      m_counter := Counter.fresh }

/-- The constructor `Ultrasonic::Ultrasonic(DigitalOutput *pingChannel,
DigitalInput *echoChannel, DistanceUnit units)` building the object at
`this`; a null pointer is `none`.  With a null pointer the constructor
reports `NullParameter` and returns before `m_units = units` and
`Initialize()`; the report goes to the error state of the object, which is
not part of `State`. -/
def Ultrasonic.constructPtr (fuel : Nat) (this : Nat) (pingChannel echoChannel : Option Nat)
    (units : DistanceUnit) (s : State) : Except Fault State :=
  let s1 := s.initList this pingChannel echoChannel
  if pingChannel = none ∨ echoChannel = none then .ok s1
  else Ultrasonic.Initialize fuel this (s1.store this { s1.heap this with m_units := units })

/-- The constructor `Ultrasonic::Ultrasonic(DigitalOutput &pingChannel,
DigitalInput &echoChannel, DistanceUnit units)` building the object at
`this`. -/
def Ultrasonic.constructRef (fuel : Nat) (this : Nat) (pingChannel echoChannel : Nat)
    (units : DistanceUnit) (s : State) : Except Fault State :=
  Ultrasonic.Initialize fuel this
    (s.memberInit this (some pingChannel) (some echoChannel) units)

/-- The constructor `Ultrasonic::Ultrasonic(std::shared_ptr<DigitalOutput>
pingChannel, std::shared_ptr<DigitalInput> echoChannel, DistanceUnit units)`
building the object at `this`; an empty shared pointer is `none`. -/
def Ultrasonic.constructShared (fuel : Nat) (this : Nat)
    (pingChannel echoChannel : Option Nat) (units : DistanceUnit) (s : State) :
    Except Fault State :=
  Ultrasonic.Initialize fuel this (s.memberInit this pingChannel echoChannel units)

/-- The sensor at `x` can be reached from `m_firstSensor` by following
`m_nextSensor`. -/
def Linked (s : State) (x : Nat) : Prop := ∃ l, Registry s l ∧ x ∈ l

/-- The states that sequential client code can reach from program start when
it may use each of the four constructors, with the list `regs` of live
sensors whose constructor ran `Initialize` and the list `unregs` of live
sensors whose constructor returned before it.  The steps are constructions
on a fresh object, destructions of live sensors of either kind, calls of
`SetAutomaticMode`, calls of `Ping` on a live sensor and turns of the poller
thread. -/
inductive ReachAll : List Nat → List Nat → State → Prop
  | init (h : Nat → Ultrasonic) : ReachAll [] [] (State.initial h)
  | construct {regs unregs : List Nat} {s s1 : State}
      (fuel n pingChannel echoChannel : Nat) (units : DistanceUnit) :
      ReachAll regs unregs s → n ∉ regs → n ∉ unregs →
      Ultrasonic.construct fuel n pingChannel echoChannel units s = .ok s1 →
      ReachAll (n :: regs) unregs s1
  | constructPtr {regs unregs : List Nat} {s s1 : State}
      (fuel n pingChannel echoChannel : Nat) (units : DistanceUnit) :
      ReachAll regs unregs s → n ∉ regs → n ∉ unregs →
      Ultrasonic.constructPtr fuel n (some pingChannel) (some echoChannel) units s = .ok s1 →
      ReachAll (n :: regs) unregs s1
  | constructPtrNull {regs unregs : List Nat} {s s1 : State}
      (fuel n : Nat) (pingChannel echoChannel : Option Nat) (units : DistanceUnit) :
      ReachAll regs unregs s → n ∉ regs → n ∉ unregs →
      pingChannel = none ∨ echoChannel = none →
      Ultrasonic.constructPtr fuel n pingChannel echoChannel units s = .ok s1 →
      ReachAll regs (n :: unregs) s1
  | constructRef {regs unregs : List Nat} {s s1 : State}
      (fuel n pingChannel echoChannel : Nat) (units : DistanceUnit) :
      ReachAll regs unregs s → n ∉ regs → n ∉ unregs →
      Ultrasonic.constructRef fuel n pingChannel echoChannel units s = .ok s1 →
      ReachAll (n :: regs) unregs s1
  | constructShared {regs unregs : List Nat} {s s1 : State}
      (fuel n : Nat) (pingChannel echoChannel : Option Nat) (units : DistanceUnit) :
      ReachAll regs unregs s → n ∉ regs → n ∉ unregs →
      Ultrasonic.constructShared fuel n pingChannel echoChannel units s = .ok s1 →
      ReachAll (n :: regs) unregs s1
  | destroy {regs unregs : List Nat} {s s1 : State} (fuel n : Nat) :
      ReachAll regs unregs s → n ∈ regs → Ultrasonic.destroy fuel n s = .ok s1 →
      ReachAll (regs.erase n) unregs s1
  | destroyUnregistered {regs unregs : List Nat} {s s1 : State} (fuel n : Nat) :
      ReachAll regs unregs s → n ∈ unregs → Ultrasonic.destroy fuel n s = .ok s1 →
      ReachAll regs (unregs.erase n) s1
  | setAutomaticMode {regs unregs : List Nat} {s s1 : State} (fuel : Nat) (enabling : Bool) :
      ReachAll regs unregs s → Ultrasonic.SetAutomaticMode fuel enabling s = .ok s1 →
      ReachAll regs unregs s1
  | ping {regs unregs : List Nat} {s s1 : State} (n : Nat) :
      ReachAll regs unregs s → n ∈ regs ∨ n ∈ unregs → Ultrasonic.Ping n s = .ok s1 →
      ReachAll regs unregs s1
  | poll {regs unregs : List Nat} {s s1 : State} :
      ReachAll regs unregs s → checkerIter s = .ok s1 → ReachAll regs unregs s1

/-- The part of `Inv` that does not speak of the assertion log. -/
structure InvCore (regs : List Nat) (s : State) : Prop where
  registry : Registry s regs
  detached : s.detached = 0
  stopped : s.m_automaticEnabled = false → s.m_task = none

/-- The state after the raw-pointer constructor has been called at program
start for the object 1 with a null ping channel. -/
def demoNull : State := (State.initial demoHeap).initList 1 none (some 11)

/-- The state after the raw-pointer constructor has been called in
`demoBuilt` for the object 2 with a null ping channel. -/
def demoMixed : State := demoBuilt.initList 2 none (some 21)

/-- Modelled from the spec: the class `Error` (Error.h and Error.cpp are not
part of the sources).  ErrorBase.cpp uses it through `Set`, `Clone`, `Clear`
and `GetCode`; the record keeps the error code, the message, the source
location and the originating object that `Set` is given. -/
structure Error where
  m_code : Int
  m_message : String
  m_filename : String
  m_function : String
  m_lineNumber : Nat
  m_originatingObject : Option Nat
  deriving DecidableEq, Repr

/-- Modelled from the spec: `Error::GetCode()`. -/
def Error.GetCode (e : Error) : Int := e.m_code

/-- Modelled from the spec: `Error::Set(code, contextMessage, filename,
function, lineNumber, originatingObject)` stores its arguments. -/
def Error.Set (_e : Error) (code : Int) (contextMessage filename function : String)
    (lineNumber : Nat) (originatingObject : Option Nat) : Error :=
  { m_code := code, m_message := contextMessage, m_filename := filename,
    m_function := function, m_lineNumber := lineNumber,
    m_originatingObject := originatingObject }

/-- Modelled from the spec: `Error::Clone(rhs)` makes the error a copy of
`rhs`. -/
def Error.Clone (_e : Error) (rhs : Error) : Error := rhs

/-- Modelled from the spec: `Error::Clear()` leaves no error (code 0). -/
def Error.Clear (_e : Error) : Error :=
  { m_code := 0, m_message := "", m_filename := "", m_function := "", m_lineNumber := 0,
    m_originatingObject := none }

/-- The error state of the program as ErrorBase.cpp sees it: the member
`m_error` of every `ErrorBase` object, by address, and the static
`_globalError`. -/
structure ErrorState where
  m_error : Nat → Error
  _globalError : Error

/-- The function `ErrorBase::SetErrnoError` on the object at `this`.  The
value of `errno` is the parameter `errNo`, and the text that `snprintf`
builds from `strerror(errNo)`, `errNo` and the context message is the
parameter `describe`. -/
def ErrorBase.SetErrnoError (errNo : Int) (describe : Int → String → String) (this : Nat)
    (contextMessage filename function : String) (lineNumber : Nat) (st : ErrorState) :
    ErrorState :=
  let err := if errNo = 0 then "OK: " ++ contextMessage else describe errNo contextMessage
  let st1 := { st with
    m_error := Function.update st.m_error this
      ((st.m_error this).Set (-1) err filename function lineNumber (some this)) }
  if st1._globalError.GetCode = 0 then
    { st1 with _globalError := st1._globalError.Clone (st1.m_error this) }
  else st1

/-- The function `ErrorBase::SetImaqError` on the object at `this`. -/
def ErrorBase.SetImaqError (this : Nat) (success : Int)
    (contextMessage filename function : String) (lineNumber : Nat) (st : ErrorState) :
    ErrorState :=
  if success ≤ 0 then
    let err := toString success ++ ": " ++ contextMessage
    let st1 := { st with
      m_error := Function.update st.m_error this
        ((st.m_error this).Set success err filename function lineNumber (some this)) }
    if st1._globalError.GetCode = 0 then
      { st1 with _globalError := st1._globalError.Clone (st1.m_error this) }
    else st1
  else st

/-- The function `ErrorBase::SetError` on the object at `this`. -/
def ErrorBase.SetError (this : Nat) (code : Int) (contextMessage filename function : String)
    (lineNumber : Nat) (st : ErrorState) : ErrorState :=
  if code ≠ 0 then
    let st1 := { st with
      m_error := Function.update st.m_error this
        ((st.m_error this).Set code contextMessage filename function lineNumber (some this)) }
    if st1._globalError.GetCode = 0 then
      { st1 with _globalError := st1._globalError.Clone (st1.m_error this) }
    else st1
  else st

/-- The function `ErrorBase::SetWPIError` on the object at `this`. -/
def ErrorBase.SetWPIError (this : Nat) (errorMessage : String) (code : Int)
    (contextMessage filename function : String) (lineNumber : Nat) (st : ErrorState) :
    ErrorState :=
  let err := errorMessage ++ ": " ++ contextMessage
  let st1 := { st with
    m_error := Function.update st.m_error this
      ((st.m_error this).Set code err filename function lineNumber (some this)) }
  if st1._globalError.GetCode = 0 then
    { st1 with _globalError := st1._globalError.Clone (st1.m_error this) }
  else st1

/-- An error state in which no error has been recorded. -/
def demoNoError : ErrorState :=
  { m_error := fun _ => Error.Clear
      { m_code := 0, m_message := "", m_filename := "", m_function := "", m_lineNumber := 0,
        m_originatingObject := none },
    _globalError := Error.Clear
      { m_code := 0, m_message := "", m_filename := "", m_function := "", m_lineNumber := 0,
        m_originatingObject := none } }

/-- The function `Ultrasonic::PIDGet()` on the object at `this`.  The enum
has the two values `kInches` and `kMilliMeters`, so the `default` branch of
the `switch` has no case here. -/
def Ultrasonic.PIDGet (kSpeedOfSoundInchesPerSec : Rat) (this : Nat) (s : State) : Rat :=
  match (s.heap this).m_units with
  | DistanceUnit.kInches => Ultrasonic.GetRangeInches kSpeedOfSoundInchesPerSec this s
  | DistanceUnit.kMilliMeters => Ultrasonic.GetRangeMM kSpeedOfSoundInchesPerSec this s

/-- The function `Ultrasonic::SetDistanceUnits(DistanceUnit units)` on the
object at `this`. -/
def Ultrasonic.SetDistanceUnits (this : Nat) (units : DistanceUnit) (s : State) : State :=
  s.store this { s.heap this with m_units := units }

/-- The function `Ultrasonic::GetDistanceUnits()` on the object at `this`. -/
def Ultrasonic.GetDistanceUnits (this : Nat) (s : State) : DistanceUnit :=
  (s.heap this).m_units

/-- The function `ErrorBase::StatusIsFatal()` on the object at `this`. -/
def ErrorBase.StatusIsFatal (this : Nat) (st : ErrorState) : Bool :=
  decide ((st.m_error this).GetCode < 0)

/-- The fields `m_fullRange` and `m_offset` of an `AnalogPotentiometer`. -/
structure AnalogPotentiometer where
  m_fullRange : Rat
  m_offset : Rat
  deriving DecidableEq, Repr

/-- The quotient `a / b` of two values of type `double`.  With a zero
divisor the quotient is a NaN (for `0 / 0`) or an infinity (for a nonzero
dividend), which is not a number: that is `none`.  Otherwise values of type
`double` are rationals here. -/
def divDouble (a b : Rat) : Option Rat :=
  if b = 0 then none else some (a / b)

/-- The function `AnalogPotentiometer::Get()`.  The hardware readings
`m_analog_input->GetVoltage()` and `ControllerPower::GetVoltage5V()` are the
parameters `voltage` and `voltage5V`.  The result is `none` when it is a NaN
or an infinity: multiplying such a quotient by `m_fullRange` and adding
`m_offset` never gives a number again. -/
def AnalogPotentiometer.Get (voltage voltage5V : Rat) (p : AnalogPotentiometer) :
    Option Rat :=
  (divDouble voltage voltage5V).map (fun q => q * p.m_fullRange + p.m_offset)

/-- The function `AnalogPotentiometer::PIDGet()`. -/
def AnalogPotentiometer.PIDGet (voltage voltage5V : Rat) (p : AnalogPotentiometer) :
    Option Rat :=
  AnalogPotentiometer.Get voltage voltage5V p

/-- Modelled from the spec: what the driver station answers to the mode
queries that `RobotBase::IsEnabled`, `IsDisabled`, `IsAutonomous`,
`IsOperatorControl` and `IsTest` forward to `m_ds` (DriverStation.h is not
part of the sources).  One record is the content of one control packet. -/
structure DSData where
  IsEnabled : Bool
  IsDisabled : Bool
  IsAutonomous : Bool
  IsOperatorControl : Bool
  IsTest : Bool
  deriving DecidableEq, Repr

/-- The calls that `SampleRobot::StartCompetition` makes on the robot object,
on the driver station `m_ds` and on the LiveWindow `lw`. -/
inductive Call
  | RobotMain
  | RobotInit
  | Disabled
  | Autonomous
  | Test
  | OperatorControl
  | InDisabled (entering : Bool)
  | InAutonomous (entering : Bool)
  | InTest (entering : Bool)
  | InOperatorControl (entering : Bool)
  | lwSetEnabled (enabled : Bool)
  | WaitForData
  deriving DecidableEq, Repr

/-- The field `m_robotMainOverridden` of a `SampleRobot`. -/
structure SampleRobot where
  m_robotMainOverridden : Bool
  deriving DecidableEq, Repr

/-- The constructor `SampleRobot::SampleRobot()`. -/
def SampleRobot.new : SampleRobot := { m_robotMainOverridden := true }

/-- The default `SampleRobot::RobotMain()`. -/
def SampleRobot.RobotMain (r : SampleRobot) : SampleRobot :=
  { r with m_robotMainOverridden := false }

/-- The loops `while (cond) m_ds.WaitForData();` of `StartCompetition`, run
with the current packet and the packets still to come.  Each `WaitForData`
returns with the next packet; when none is left the call does not return and
the run ends there (`none`).  The result is the calls made and, when the
loop is left, the current packet and the packets still to come. -/
def waitWhile (cond : DSData → Bool) :
    DSData → List DSData → List Call × Option (DSData × List DSData)
  | cur, [] => if cond cur then ([Call.WaitForData], none) else ([], some (cur, []))
  | cur, d :: rest =>
    if cond cur then
      let r := waitWhile cond d rest
      (Call.WaitForData :: r.1, r.2)
    else ([], some (cur, d :: rest))

/-- One pass through the body of `while (true)` in `StartCompetition`.  The
mode handlers are user code; the driver station data changes only in
`WaitForData`. -/
def loopBody (cur : DSData) (future : List DSData) :
    List Call × Option (DSData × List DSData) :=
  if cur.IsDisabled then
    let w := waitWhile (fun d => d.IsDisabled) cur future
    ([Call.InDisabled true, Call.Disabled, Call.InDisabled false] ++ w.1, w.2)
  else if cur.IsAutonomous then
    let w := waitWhile (fun d => d.IsAutonomous && d.IsEnabled) cur future
    ([Call.InAutonomous true, Call.Autonomous, Call.InAutonomous false] ++ w.1, w.2)
  else if cur.IsTest then
    let w := waitWhile (fun d => d.IsTest && d.IsEnabled) cur future
    ([Call.lwSetEnabled true, Call.InTest true, Call.Test, Call.InTest false] ++ w.1 ++
      (match w.2 with
        | none => []
        | some _ => [Call.lwSetEnabled false]), w.2)
  else
    let w := waitWhile (fun d => d.IsOperatorControl && d.IsEnabled) cur future
    ([Call.InOperatorControl true, Call.OperatorControl, Call.InOperatorControl false] ++ w.1,
      w.2)

/-- The loop `while (true)` of `StartCompetition`, for at most `fuel`
passes. -/
def dispatchLoop : Nat → DSData → List DSData → List Call
  | 0, _, _ => []
  | fuel + 1, cur, future =>
    (loopBody cur future).1 ++
      (match (loopBody cur future).2 with
        | none => []
        | some next => dispatchLoop fuel next.1 next.2)

/-- The function `SampleRobot::StartCompetition()`, as the list of calls it
makes.  `userRobotMain` tells whether the subclass overrides `RobotMain`
(by a function that leaves `m_robotMainOverridden` alone); usage reporting
and the dashboard and network table set-up are left out. -/
def SampleRobot.StartCompetition (userRobotMain : Bool) (fuel : Nat) (r : SampleRobot)
    (cur : DSData) (future : List DSData) : List Call :=
  let r1 := if userRobotMain then r else r.RobotMain
  Call.RobotMain ::
    (if !r1.m_robotMainOverridden then
      [Call.lwSetEnabled false, Call.RobotInit] ++ dispatchLoop fuel cur future
    else [])

/-- Whether a call is one of the four mode handlers. -/
def Call.isHandler : Call → Bool
  | Call.Disabled => true
  | Call.Autonomous => true
  | Call.Test => true
  | Call.OperatorControl => true
  | _ => false

/-- The calls with which a pass of the dispatch loop has to start according
to the fixed priority Disabled, Autonomous, Test, OperatorControl: the
handler between the matching `In<Mode>(true)` and `In<Mode>(false)`. -/
def bracketedHandler (cur : DSData) : List Call :=
  if cur.IsDisabled then [Call.InDisabled true, Call.Disabled, Call.InDisabled false]
  else if cur.IsAutonomous then
    [Call.InAutonomous true, Call.Autonomous, Call.InAutonomous false]
  else if cur.IsTest then [Call.InTest true, Call.Test, Call.InTest false]
  else [Call.InOperatorControl true, Call.OperatorControl, Call.InOperatorControl false]

/-- A control packet of a disabled robot. -/
def dsDisabled : DSData :=
  { IsEnabled := false, IsDisabled := true, IsAutonomous := false,
    IsOperatorControl := true, IsTest := false }

/-- A control packet of a robot enabled in operator control. -/
def dsTeleop : DSData :=
  { IsEnabled := true, IsDisabled := false, IsAutonomous := false,
    IsOperatorControl := true, IsTest := false }

/-- The events of one turn of the poll loop that runs the loop body: at most
one trigger pulse of `kPingTime`, then one `Wait(0.1)`. -/
def IsTurn (b : List Event) : Prop :=
  b = [Event.wait (1 / 10)] ∨ ∃ ch, b = [Event.pulse ch kPingTime, Event.wait (1 / 10)]

/-- What the instrumented `Initialize` and destructor record, in program
order: every call of `SetAutomaticMode` with its argument, and every write
to `m_firstSensor` or to an `m_nextSensor` field together with the value of
`m_automaticEnabled` and the number of running poller threads at the moment
of the write. -/
inductive LinkEvent
  | setAutomaticMode (enabling : Bool)
  | linkWrite (automaticEnabled : Bool) (aliveTasks : Nat)
  deriving DecidableEq, Repr

/-- The record of a link write made in state `s`. -/
def State.linkWrite (s : State) : LinkEvent :=
  LinkEvent.linkWrite s.m_automaticEnabled s.aliveTasks

/-- The function `Ultrasonic::Initialize()` on the object at `this`, with the
calls of `SetAutomaticMode` and the writes `m_nextSensor = m_firstSensor;`
and `m_firstSensor = this;` recorded in the order of the source. -/
def Ultrasonic.InitializeLogged (fuel : Nat) (this : Nat) (s : State) :
    Except Fault (State × List LinkEvent) :=
  let originalMode := s.m_automaticEnabled
  match Ultrasonic.SetAutomaticMode fuel false s with
  | .error e => .error e
  | .ok s1 =>
    let log1 := [LinkEvent.setAutomaticMode false]
    let s2 := s1.store this { s1.heap this with m_nextSensor := s1.m_firstSensor }
    let log2 := log1 ++ [s1.linkWrite]
    let s3 := { s2 with m_firstSensor := some this }
    let log3 := log2 ++ [s2.linkWrite]
    let s4 := s3.store this
      { s3.heap this with
        m_counter := (((s3.heap this).m_counter.SetMaxPeriod 1).SetSemiPeriodMode true).Reset }
    let s5 := s4.store this { s4.heap this with m_enabled := true }
    match Ultrasonic.SetAutomaticMode fuel originalMode s5 with
    | .error e => .error e
    | .ok s6 =>
      let log6 := log3 ++ [LinkEvent.setAutomaticMode originalMode]
      let s7 := { s6 with instances := s6.instances + 1 }
      match (s7.heap this).m_echoChannel with
      | none => .error .nullDeref
      | some _ => .ok (s7, log6)

/-- The scan of the destructor, started at pointer `p`, with the write
`s->m_nextSensor = m_nextSensor;` recorded. -/
def removeScanLogged : Nat → Nat → Option Nat → State → Except Fault (State × List LinkEvent)
  | 0, _, _, _ => .error .outOfFuel
  | _ + 1, _, none, st => .ok (st, [])
  | fuel + 1, this, some p, st =>
    if (st.heap p).m_nextSensor = some this then
      .ok (st.store p { st.heap p with m_nextSensor := (st.heap this).m_nextSensor },
        [st.linkWrite])
    else removeScanLogged fuel this (st.heap p).m_nextSensor st

/-- The block of the destructor that runs under the `lock_guard`, with the
write `m_firstSensor = m_nextSensor;`, the call `SetAutomaticMode(false)`
and the write of the scan recorded. -/
def unlinkLockedLogged (fuel : Nat) (this : Nat) (s1 : State) :
    Except Fault (State × List LinkEvent) :=
  if s1.m_firstSensor = some this then
    let s2 := { s1 with m_firstSensor := (s1.heap this).m_nextSensor }
    if s2.m_firstSensor = none then
      match Ultrasonic.SetAutomaticMode fuel false s2 with
      | .error e => .error e
      | .ok s3 => .ok (s3, [s1.linkWrite, LinkEvent.setAutomaticMode false])
    else .ok (s2, [s1.linkWrite])
  else
    match s1.m_firstSensor with
    | none => .error .nullDeref
    | some f =>
      removeScanLogged fuel this s1.m_firstSensor
        (wpi_assert ((s1.heap f).m_nextSensor != none) .dtorHeadHasNext s1)

/-- The destructor `Ultrasonic::~Ultrasonic()` of the object at `this`, with
the calls of `SetAutomaticMode` and the link writes recorded in the order of
the source. -/
def Ultrasonic.destroyLogged (fuel : Nat) (this : Nat) (s : State) :
    Except Fault (State × List LinkEvent) :=
  let wasAutomaticMode := s.m_automaticEnabled
  match Ultrasonic.SetAutomaticMode fuel false s with
  | .error e => .error e
  | .ok s0 =>
    match unlinkLockedLogged fuel this
        (wpi_assert (s0.m_firstSensor != none) .dtorFirstSensorNotNull s0) with
    | .error e => .error e
    | .ok (s3, log) =>
      if s3.m_firstSensor != none && wasAutomaticMode then
        match Ultrasonic.SetAutomaticMode fuel true s3 with
        | .error e => .error e
        | .ok s4 =>
          .ok (s4, [LinkEvent.setAutomaticMode false] ++ log ++ [LinkEvent.setAutomaticMode true])
      else .ok (s3, [LinkEvent.setAutomaticMode false] ++ log)

/-- Whether a log shows that the links were changed only while the poller was
stopped: every link write is recorded with the flag false and no poller
thread running, and no link write comes after a call
`SetAutomaticMode(true)`. -/
def stoppedWrites : List LinkEvent → Bool
  | [] => true
  | LinkEvent.linkWrite f a :: rest => !f && decide (a = 0) && stoppedWrites rest
  | LinkEvent.setAutomaticMode false :: rest => stoppedWrites rest
  | LinkEvent.setAutomaticMode true :: rest =>
    rest.all (fun g => match g with
      | LinkEvent.linkWrite _ _ => false
      | LinkEvent.setAutomaticMode _ => true)

/-! ## Walking the list -/

theorem listFrom_congr (h h2 : Nat → Ultrasonic) :
    ∀ (l : List Nat) (p : Option Nat),
      (∀ a ∈ l, (h2 a).m_nextSensor = (h a).m_nextSensor) → ListFrom h p l → ListFrom h2 p l
  | [], _, _, hl => hl
  | a :: l, p, hagree, hl => by
    obtain ⟨hp, hrest⟩ := hl
    refine ⟨hp, ?_⟩
    rw [hagree a (List.mem_cons_self a l)]
    exact listFrom_congr h h2 l _ (fun b hb => hagree b (List.mem_cons_of_mem a hb)) hrest

theorem listFrom_unique (h : Nat → Ultrasonic) :
    ∀ (l l2 : List Nat) (p : Option Nat), ListFrom h p l → ListFrom h p l2 → l = l2
  | [], [], _, _, _ => rfl
  | [], b :: l2, p, h1, h2 => by
    have e1 : p = none := h1
    have e2 : p = some b := h2.1
    rw [e1] at e2
    cases e2
  | a :: l, [], p, h1, h2 => by
    have e1 : p = some a := h1.1
    have e2 : p = none := h2
    rw [e1] at e2
    cases e2
  | a :: l, b :: l2, p, h1, h2 => by
    have e1 : p = some a := h1.1
    have e2 : p = some b := h2.1
    rw [e1] at e2
    cases e2
    rw [listFrom_unique h l l2 _ h1.2 h2.2]

theorem listFrom_append (h : Nat → Ultrasonic) :
    ∀ (l1 l2 : List Nat) (p : Option Nat) (a : Nat),
      ListFrom h p (l1 ++ a :: l2) → ListFrom h (some a) (a :: l2)
  | [], _, _, _, hl => ⟨rfl, hl.2⟩
  | _ :: l1, l2, _, a, hl => listFrom_append h l1 l2 _ a hl.2

theorem listFrom_nodup (h : Nat → Ultrasonic) :
    ∀ (l : List Nat) (p : Option Nat), ListFrom h p l → l.Nodup
  | [], _, _ => List.nodup_nil
  | a :: l, p, hl => by
    refine List.nodup_cons.mpr ⟨?_, listFrom_nodup h l _ hl.2⟩
    intro hmem
    obtain ⟨l1, l2, rfl⟩ := List.append_of_mem hmem
    have h3 := (listFrom_append h l1 l2 _ a hl.2).2
    have h4 := listFrom_unique h _ _ _ hl.2 h3
    have h5 := congrArg List.length h4
    simp at h5
    omega


/-! ## Counter resets -/

theorem resetAll_nil (s : State) : s.resetAll [] = s := by
  cases s
  simp [State.resetAll]

theorem resetAll_next (s : State) (l : List Nat) (i : Nat) :
    ((s.resetAll l).heap i).m_nextSensor = (s.heap i).m_nextSensor := by
  simp only [State.resetAll]
  split <;> rfl

theorem resetCounter_next (s : State) (u i : Nat) :
    ((s.resetCounter u).heap i).m_nextSensor = (s.heap i).m_nextSensor := by
  simp only [State.resetCounter, State.store]
  by_cases h : i = u
  · subst h; simp
  · simp [Function.update_noteq h]

theorem resetCounter_resetAll (s : State) (a : Nat) (l : List Nat) :
    (s.resetCounter a).resetAll l = s.resetAll (a :: l) := by
  cases s
  simp only [State.resetAll, State.resetCounter, State.store]
  congr 1
  funext i
  by_cases h : i = a
  · subst h
    by_cases h2 : i ∈ l <;> simp [h2, Counter.Reset]
  · by_cases h2 : i ∈ l <;> simp [h, h2, Function.update_noteq h]

theorem resetCounters_eq :
    ∀ (l : List Nat) (fuel : Nat) (p : Option Nat) (s : State),
      ListFrom s.heap p l → l.length < fuel → resetCounters fuel p s = .ok (s.resetAll l)
  | [], 0, _, _, _, hf => by simp at hf
  | [], fuel + 1, p, s, hl, _ => by
    have hp : p = none := hl
    subst hp
    simp [resetCounters, resetAll_nil]
  | a :: l, 0, _, _, _, hf => by simp at hf
  | a :: l, fuel + 1, p, s, hl, hf => by
    have hp : p = some a := hl.1
    subst hp
    have hrest : ListFrom (s.resetCounter a).heap (s.heap a).m_nextSensor l :=
      listFrom_congr s.heap _ l _ (fun b _ => resetCounter_next s a b) hl.2
    have hf2 : l.length < fuel := by simpa using hf
    simp only [resetCounters]
    rw [resetCounters_eq l fuel _ _ hrest hf2, resetCounter_resetAll]


/-! ## SetAutomaticMode in closed form -/

theorem waitForTask_stopped (fuel : Nat) (s : State) (hflag : s.m_automaticEnabled = false)
    (hf : 2 ≤ fuel) : waitForTask fuel s = .ok s.stopPoller := by
  obtain ⟨f, rfl⟩ : ∃ f, fuel = f + 2 := ⟨fuel - 2, by omega⟩
  cases s with
  | mk heap first flag task det inst ev fa =>
    simp only at hflag
    subst hflag
    cases task with
    | none => simp [waitForTask, Task.Verify, State.stopPoller]
    | some u => simp [waitForTask, Task.Verify, State.stopPoller, checkerIter, State.emit]

theorem join_not_running (fuel : Nat) (s : State) (htask : s.m_task = none) (hf : 1 ≤ fuel) :
    Task.join fuel s = .ok s := by
  obtain ⟨f, rfl⟩ : ∃ f, fuel = f + 1 := ⟨fuel - 1, by omega⟩
  simp [Task.join, Task.Verify, htask]

theorem stopPoller_task (s : State) : s.stopPoller.m_task = none := by
  unfold State.stopPoller
  split
  · assumption
  · rfl

theorem stopPoller_heap (s : State) : s.stopPoller.heap = s.heap := by
  unfold State.stopPoller
  split <;> rfl

theorem stopPoller_first (s : State) : s.stopPoller.m_firstSensor = s.m_firstSensor := by
  unfold State.stopPoller
  split <;> rfl

theorem stopPoller_flag (s : State) :
    s.stopPoller.m_automaticEnabled = s.m_automaticEnabled := by
  unfold State.stopPoller
  split <;> rfl

theorem SetAutomaticMode_same (fuel : Nat) (b : Bool) (s : State)
    (h : s.m_automaticEnabled = b) : Ultrasonic.SetAutomaticMode fuel b s = .ok s := by
  simp [Ultrasonic.SetAutomaticMode, h]

theorem SetAutomaticMode_enable (fuel : Nat) (s : State) (l : List Nat)
    (hflag : s.m_automaticEnabled = false) (hreg : Registry s l) (hf : l.length < fuel) :
    Ultrasonic.SetAutomaticMode fuel true s =
      .ok (Task.start (wpi_assert (Task.Verify s == false) .taskNotRunning
        (({ s with m_automaticEnabled := true } : State).resetAll l))) := by
  have h1 : resetCounters fuel s.m_firstSensor { s with m_automaticEnabled := true }
      = .ok (({ s with m_automaticEnabled := true } : State).resetAll l) :=
    resetCounters_eq l fuel _ _ hreg hf
  simp only [Ultrasonic.SetAutomaticMode, hflag]
  simp only [h1]
  rfl

theorem setFlag_false_eq (X : State) (h : X.m_automaticEnabled = false) :
    ({ X with m_automaticEnabled := false } : State) = X := by
  cases X
  simp only at h
  subst h
  rfl

theorem SetAutomaticMode_disable (fuel : Nat) (s : State) (l : List Nat)
    (hflag : s.m_automaticEnabled = true) (hreg : Registry s l) (hf : l.length + 2 ≤ fuel) :
    Ultrasonic.SetAutomaticMode fuel false s =
      .ok ((({ s with m_automaticEnabled := false } : State).stopPoller).resetAll l) := by
  have h0 : waitForTask fuel { s with m_automaticEnabled := false }
      = .ok ({ s with m_automaticEnabled := false } : State).stopPoller :=
    waitForTask_stopped fuel _ rfl (by omega)
  have hreg2 : ListFrom ({ s with m_automaticEnabled := false } : State).stopPoller.heap
      ({ s with m_automaticEnabled := false } : State).stopPoller.m_firstSensor l := by
    rw [stopPoller_heap, stopPoller_first]; exact hreg
  have h1 := resetCounters_eq l fuel _ _ hreg2 (by omega)
  have h2 : ((({ s with m_automaticEnabled := false } : State).stopPoller).resetAll
      l).m_automaticEnabled = false := by
    show (({ s with m_automaticEnabled := false } : State).stopPoller).m_automaticEnabled = false
    rw [stopPoller_flag]
  have h3 : ((({ s with m_automaticEnabled := false } : State).stopPoller).resetAll
      l).m_task = none := by
    show (({ s with m_automaticEnabled := false } : State).stopPoller).m_task = none
    exact stopPoller_task _
  simp only [Ultrasonic.SetAutomaticMode, hflag]
  simp only [h0, h1, Bool.false_eq_true, if_false]
  rw [setFlag_false_eq _ h2]
  exact join_not_running _ _ h3 (by omega)

/-! ## Initialize in closed form -/

@[simp] theorem resetAll_first (s : State) (l : List Nat) :
    (s.resetAll l).m_firstSensor = s.m_firstSensor := rfl
@[simp] theorem resetAll_flag (s : State) (l : List Nat) :
    (s.resetAll l).m_automaticEnabled = s.m_automaticEnabled := rfl
@[simp] theorem resetAll_task (s : State) (l : List Nat) :
    (s.resetAll l).m_task = s.m_task := rfl
@[simp] theorem resetAll_detached (s : State) (l : List Nat) :
    (s.resetAll l).detached = s.detached := rfl
@[simp] theorem resetAll_instances (s : State) (l : List Nat) :
    (s.resetAll l).instances = s.instances := rfl
@[simp] theorem resetAll_events (s : State) (l : List Nat) :
    (s.resetAll l).events = s.events := rfl
@[simp] theorem resetAll_failedAsserts (s : State) (l : List Nat) :
    (s.resetAll l).failedAsserts = s.failedAsserts := rfl

theorem registry_resetAll (s : State) (l l2 : List Nat) (h : Registry s l2) :
    Registry (s.resetAll l) l2 :=
  listFrom_congr s.heap _ l2 _ (fun a _ => resetAll_next s l a) h

theorem registry_stopPoller (s : State) (l : List Nat) (h : Registry s l) :
    Registry s.stopPoller l := by
  unfold Registry
  rw [stopPoller_heap, stopPoller_first]
  exact h

theorem registry_linkFirst (s : State) (l : List Nat) (n : Nat) (h : Registry s l)
    (hn : n ∉ l) : Registry (s.linkFirst n) (n :: l) := by
  refine ⟨rfl, ?_⟩
  have h1 : ((s.linkFirst n).heap n).m_nextSensor = s.m_firstSensor := by
    simp [State.linkFirst]
  rw [h1]
  refine listFrom_congr s.heap _ l _ (fun a ha => ?_) h
  have hne : a ≠ n := fun e => hn (e ▸ ha)
  simp [State.linkFirst, Function.update_noteq hne]

theorem linkFirst_eq (s1 : State) (this : Nat) :
    (let s2 := s1.store this { s1.heap this with m_nextSensor := s1.m_firstSensor }
     let s3 := { s2 with m_firstSensor := some this }
     let s4 := s3.store this
       { s3.heap this with
         m_counter := (((s3.heap this).m_counter.SetMaxPeriod 1).SetSemiPeriodMode true).Reset }
     s4.store this { s4.heap this with m_enabled := true }) = s1.linkFirst this := by
  cases s1
  simp [State.store, State.linkFirst]

theorem Initialize_eq (fuel : Nat) (n : Nat) (s : State) :
    Ultrasonic.Initialize fuel n s =
      match Ultrasonic.SetAutomaticMode fuel false s with
      | .error e => .error e
      | .ok s1 =>
        match Ultrasonic.SetAutomaticMode fuel s.m_automaticEnabled (s1.linkFirst n) with
        | .error e => .error e
        | .ok s6 =>
          match (s6.heap n).m_echoChannel with
          | none => .error .nullDeref
          | some _ => .ok { s6 with instances := s6.instances + 1 } := by
  unfold Ultrasonic.Initialize
  cases Ultrasonic.SetAutomaticMode fuel false s with
  | error e => rfl
  | ok s1 =>
    simp only []
    rw [linkFirst_eq s1 n]

theorem Initialize_off (fuel : Nat) (n : Nat) (s : State) (e : Nat)
    (hflag : s.m_automaticEnabled = false) (hecho : (s.heap n).m_echoChannel = some e) :
    Ultrasonic.Initialize fuel n s =
      .ok (s.linkFirst n).countInstance := by
  have h1 := SetAutomaticMode_same fuel false s hflag
  have h2 := SetAutomaticMode_same fuel false (s.linkFirst n) hflag
  have h3 : ((s.linkFirst n).heap n).m_echoChannel = some e := by
    simp [State.linkFirst, hecho]
  rw [Initialize_eq, h1]
  simp only [hflag, h2, h3]
  rfl

theorem resetAll_echo (s : State) (l : List Nat) (i : Nat) :
    ((s.resetAll l).heap i).m_echoChannel = (s.heap i).m_echoChannel := by
  simp only [State.resetAll]
  split <;> rfl

theorem resetAll_ping (s : State) (l : List Nat) (i : Nat) :
    ((s.resetAll l).heap i).m_pingChannel = (s.heap i).m_pingChannel := by
  simp only [State.resetAll]
  split <;> rfl

theorem resetAll_enabled (s : State) (l : List Nat) (i : Nat) :
    ((s.resetAll l).heap i).m_enabled = (s.heap i).m_enabled := by
  simp only [State.resetAll]
  split <;> rfl

theorem resetAll_units (s : State) (l : List Nat) (i : Nat) :
    ((s.resetAll l).heap i).m_units = (s.heap i).m_units := by
  simp only [State.resetAll]
  split <;> rfl

theorem resetAll_count_mem (s : State) (l : List Nat) (i : Nat) (hi : i ∈ l) :
    ((s.resetAll l).heap i).m_counter.count = 0 := by
  simp [State.resetAll, hi, Counter.Reset]

theorem resetAll_heap_not_mem (s : State) (l : List Nat) (i : Nat) (hi : i ∉ l) :
    (s.resetAll l).heap i = s.heap i := by
  simp [State.resetAll, hi]

theorem stopped_task (s : State) (l : List Nat) : (s.stopped l).m_task = none :=
  stopPoller_task _

theorem stopped_flag (s : State) (l : List Nat) : (s.stopped l).m_automaticEnabled = false := by
  show (({ s with m_automaticEnabled := false } : State).stopPoller).m_automaticEnabled = false
  rw [stopPoller_flag]

theorem registry_stopped (s : State) (l l2 : List Nat) (h : Registry s l2) :
    Registry (s.stopped l) l2 :=
  registry_resetAll _ _ _ (registry_stopPoller _ _ h)

theorem registry_started (s : State) (l l2 : List Nat) (h : Registry s l2) :
    Registry (s.started l) l2 :=
  registry_resetAll ({ s with m_automaticEnabled := true } : State) _ _ h

theorem SetAutomaticMode_stop (fuel : Nat) (s : State) (l : List Nat)
    (hflag : s.m_automaticEnabled = true) (hreg : Registry s l) (hf : l.length + 2 ≤ fuel) :
    Ultrasonic.SetAutomaticMode fuel false s = .ok (s.stopped l) :=
  SetAutomaticMode_disable fuel s l hflag hreg hf

theorem SetAutomaticMode_start (fuel : Nat) (s : State) (l : List Nat)
    (hflag : s.m_automaticEnabled = false) (htask : s.m_task = none) (hreg : Registry s l)
    (hf : l.length < fuel) :
    Ultrasonic.SetAutomaticMode fuel true s = .ok (s.started l) := by
  rw [SetAutomaticMode_enable fuel s l hflag hreg hf]
  simp [Task.Verify, htask, wpi_assert, State.started]

theorem Initialize_on (fuel : Nat) (n : Nat) (s : State) (l : List Nat) (e : Nat)
    (hflag : s.m_automaticEnabled = true) (hreg : Registry s l) (hn : n ∉ l)
    (hf : l.length + 2 ≤ fuel) (hecho : (s.heap n).m_echoChannel = some e) :
    Ultrasonic.Initialize fuel n s =
      .ok (((s.stopped l).linkFirst n).started (n :: l)).countInstance := by
  have h1 := SetAutomaticMode_stop fuel s l hflag hreg hf
  have hreg2 : Registry ((s.stopped l).linkFirst n) (n :: l) :=
    registry_linkFirst _ _ _ (registry_stopped s l l hreg) hn
  have h2 := SetAutomaticMode_start fuel ((s.stopped l).linkFirst n) (n :: l)
    (stopped_flag s l) (stopped_task s l) hreg2 (by simp; omega)
  have h3 : ((((s.stopped l).linkFirst n).started (n :: l)).heap n).m_echoChannel = some e := by
    show (((({ (s.stopped l).linkFirst n with m_automaticEnabled := true } : State).resetAll
      (n :: l))).heap n).m_echoChannel = some e
    rw [resetAll_echo]
    show (((s.stopped l).linkFirst n).heap n).m_echoChannel = some e
    simp only [State.linkFirst, Function.update_same]
    show (((({ s with m_automaticEnabled := false } : State).stopPoller).resetAll l).heap
      n).m_echoChannel = some e
    rw [resetAll_echo, stopPoller_heap]
    exact hecho
  rw [Initialize_eq, h1]
  simp only [hflag, h2, h3]
  rfl

/-! ## The destructor -/

theorem removeScan_spec (this : Nat) :
    ∀ (rest : List Nat) (a fuel : Nat) (st : State),
      ListFrom st.heap (some a) (a :: rest) → this ∈ rest → rest.length + 1 < fuel →
      ∃ q, q ∈ a :: rest ∧ q ≠ this ∧
        removeScan fuel this (some a) st =
          .ok (st.store q { st.heap q with m_nextSensor := (st.heap this).m_nextSensor }) ∧
        ListFrom (st.store q
            { st.heap q with m_nextSensor := (st.heap this).m_nextSensor }).heap
          (some a) (a :: rest.erase this)
  | [], _, _, _, _, hmem, _ => by simp at hmem
  | b :: rest, a, fuel, st, hl, hmem, hf => by
    obtain ⟨f, rfl⟩ : ∃ f, fuel = f + 1 := ⟨fuel - 1, by simp at hf; omega⟩
    have hnd : (a :: b :: rest).Nodup := listFrom_nodup st.heap _ _ hl
    have ha_b : a ≠ b := by
      intro e; subst e; simp at hnd
    have ha_rest : a ∉ rest := by
      intro e; simp [e] at hnd
    have hb_rest : b ∉ rest := by
      intro e; simp [e] at hnd
    have hnext : (st.heap a).m_nextSensor = some b := hl.2.1
    by_cases hb : b = this
    · subst hb
      refine ⟨a, List.mem_cons_self _ _, ha_b, ?_, ?_⟩
      · simp [removeScan, hnext]
      · refine ⟨rfl, ?_⟩
        simp only [State.store, Function.update_same, List.erase_cons_head]
        refine listFrom_congr st.heap _ rest _ (fun c hc => ?_) hl.2.2
        have hca : c ≠ a := fun e => ha_rest (e ▸ hc)
        simp [Function.update_noteq hca]
    · have hmem2 : this ∈ rest := by
        rcases List.mem_cons.mp hmem with e | e
        · exact absurd e.symm hb
        · exact e
      have hf2 : rest.length + 1 < f := by simp at hf; omega
      have hl2 : ListFrom st.heap (some b) (b :: rest) := ⟨rfl, hl.2.2⟩
      obtain ⟨q, hq, hqn, hrun, hlist⟩ := removeScan_spec this rest b f st hl2 hmem2 hf2
      have hqa : a ≠ q := by
        intro e
        subst e
        rcases List.mem_cons.mp hq with e | e
        · exact ha_b e
        · exact ha_rest e
      refine ⟨q, List.mem_cons_of_mem _ hq, hqn, ?_, ?_⟩
      · have hne : ¬ (some b = some this) := fun e => hb (Option.some.inj e)
        simp only [removeScan, hnext, hne, if_false]
        exact hrun
      · refine ⟨rfl, ?_⟩
        have h1 : ((st.store q
            { st.heap q with m_nextSensor := (st.heap this).m_nextSensor }).heap a).m_nextSensor
            = some b := by
          simp [State.store, Function.update_noteq hqa, hnext]
        rw [h1]
        have h2 : (b :: rest).erase this = b :: rest.erase this := by
          simp [List.erase_cons, hb]
        rw [h2]
        exact hlist

theorem registry_nil_iff (s : State) (l : List Nat) (h : Registry s l) :
    s.m_firstSensor = none ↔ l = [] := by
  cases l with
  | nil => exact ⟨fun _ => rfl, fun _ => h⟩
  | cons a l =>
    have h1 : s.m_firstSensor = some a := h.1
    simp [h1]

theorem Unlinked.flag {s t : State} {n : Nat} (h : Unlinked s t n) :
    t.m_automaticEnabled = s.m_automaticEnabled := by
  rcases h with rfl | ⟨q, _, rfl⟩ <;> rfl

theorem Unlinked.task {s t : State} {n : Nat} (h : Unlinked s t n) : t.m_task = s.m_task := by
  rcases h with rfl | ⟨q, _, rfl⟩ <;> rfl

theorem Unlinked.detached {s t : State} {n : Nat} (h : Unlinked s t n) :
    t.detached = s.detached := by
  rcases h with rfl | ⟨q, _, rfl⟩ <;> rfl

theorem Unlinked.events {s t : State} {n : Nat} (h : Unlinked s t n) :
    t.events = s.events := by
  rcases h with rfl | ⟨q, _, rfl⟩ <;> rfl

theorem Unlinked.failedAsserts {s t : State} {n : Nat} (h : Unlinked s t n) :
    t.failedAsserts = s.failedAsserts := by
  rcases h with rfl | ⟨q, _, rfl⟩ <;> rfl

theorem Unlinked.instances {s t : State} {n : Nat} (h : Unlinked s t n) :
    t.instances = s.instances := by
  rcases h with rfl | ⟨q, _, rfl⟩ <;> rfl

theorem unlinkLocked_spec (fuel n : Nat) (s1 : State) (l : List Nat)
    (hreg : Registry s1 l) (hn : n ∈ l) (hflag : s1.m_automaticEnabled = false)
    (hf : l.length + 2 ≤ fuel) :
    ∃ t, unlinkLocked fuel n s1 = .ok t ∧ Unlinked s1 t n ∧ Registry t (l.erase n) := by
  cases l with
  | nil => simp at hn
  | cons a rest =>
    have hfirst : s1.m_firstSensor = some a := hreg.1
    by_cases ha : a = n
    · subst ha
      refine ⟨{ s1 with m_firstSensor := (s1.heap a).m_nextSensor }, ?_, Or.inl rfl, ?_⟩
      · unfold unlinkLocked
        simp only [hfirst, if_true]
        split
        · exact SetAutomaticMode_same _ _ _ hflag
        · rfl
      · rw [List.erase_cons_head]
        exact hreg.2
    · have hmem : n ∈ rest := by
        rcases List.mem_cons.mp hn with e | e
        · exact absurd e.symm ha
        · exact e
      have hl : ListFrom s1.heap (some a) (a :: rest) := ⟨rfl, hreg.2⟩
      obtain ⟨q, _, hqn, hrun, hlist⟩ :=
        removeScan_spec n rest a fuel s1 hl hmem (by simp at hf; omega)
      refine ⟨_, ?_, Or.inr ⟨q, hqn, rfl⟩, ?_⟩
      · have hne : ¬ (some a = some n) := fun e => ha (Option.some.inj e)
        have hnext : (s1.heap a).m_nextSensor ≠ none := by
          cases rest with
          | nil => simp at hmem
          | cons b r =>
            have : (s1.heap a).m_nextSensor = some b := hreg.2.1
            simp [this]
        unfold unlinkLocked
        simp only [hfirst, hne, if_false]
        simp only [wpi_assert, bne_iff_ne, ne_eq, hnext, not_false_eq_true, if_true]
        exact hrun
      · have h2 : (a :: rest).erase n = a :: rest.erase n := by
          simp [List.erase_cons, ha]
        rw [h2]
        unfold Registry
        show ListFrom _ s1.m_firstSensor _
        rw [hfirst]
        exact hlist

theorem wpi_assert_true (site : AssertSite) (s : State) : wpi_assert true site s = s := rfl

theorem destroy_off (fuel n : Nat) (s : State) (l : List Nat)
    (hreg : Registry s l) (hn : n ∈ l) (hflag : s.m_automaticEnabled = false)
    (hf : l.length + 2 ≤ fuel) :
    ∃ t, Ultrasonic.destroy fuel n s = .ok t ∧ Unlinked s t n ∧ Registry t (l.erase n) := by
  obtain ⟨t, hrun, hun, hregt⟩ := unlinkLocked_spec fuel n s l hreg hn hflag hf
  refine ⟨t, ?_, hun, hregt⟩
  have hne : s.m_firstSensor ≠ none := by
    rw [Ne, registry_nil_iff s l hreg]
    intro e; subst e; simp at hn
  have hassert : (s.m_firstSensor != none) = true := by simpa using hne
  unfold Ultrasonic.destroy
  simp only [SetAutomaticMode_same fuel false s hflag, hassert, wpi_assert_true, hrun, hflag,
    Bool.and_false, Bool.false_eq_true, if_false]

theorem destroy_on (fuel n : Nat) (s : State) (l : List Nat)
    (hreg : Registry s l) (hn : n ∈ l) (hflag : s.m_automaticEnabled = true)
    (hf : l.length + 2 ≤ fuel) :
    ∃ t, Unlinked (s.stopped l) t n ∧ Registry t (l.erase n) ∧
      Ultrasonic.destroy fuel n s =
        .ok (if l.erase n = [] then t else t.started (l.erase n)) := by
  have hreg0 : Registry (s.stopped l) l := registry_stopped s l l hreg
  obtain ⟨t, hrun, hun, hregt⟩ :=
    unlinkLocked_spec fuel n (s.stopped l) l hreg0 hn (stopped_flag s l) hf
  refine ⟨t, hun, hregt, ?_⟩
  have hne : (s.stopped l).m_firstSensor ≠ none := by
    rw [Ne, registry_nil_iff _ l hreg0]
    intro e; subst e; simp at hn
  have hassert : ((s.stopped l).m_firstSensor != none) = true := by simpa using hne
  have hlen : (l.erase n).length < fuel := by
    have := List.length_erase_of_mem hn
    omega
  unfold Ultrasonic.destroy
  simp only [SetAutomaticMode_stop fuel s l hflag hreg hf, hassert, wpi_assert_true, hrun,
    hflag, Bool.and_true]
  by_cases hnil : l.erase n = []
  · have h1 : t.m_firstSensor = none := (registry_nil_iff t _ hregt).mpr hnil
    simp [h1, hnil]
  · have h1 : t.m_firstSensor ≠ none := fun e => hnil ((registry_nil_iff t _ hregt).mp e)
    have h2 : (t.m_firstSensor != none) = true := by simpa using h1
    simp only [h2, if_true, hnil, if_false]
    exact SetAutomaticMode_start fuel t _ (hun.flag.trans (stopped_flag s l))
      (hun.task.trans (stopped_task s l)) hregt hlen

/-! ## Claims on construction and destruction -/

theorem demoStopped_registry : Registry demoStopped [3, 2, 1] := by
  simp [Registry, ListFrom, demoStopped, demoHeap, demoSensor]

theorem demoRunning_registry : Registry demoRunning [3, 2, 1] := by
  simp [Registry, ListFrom, demoRunning, demoHeap, demoSensor]

/-- C1: for every state whose registry is the list `l` and every object `n`
outside it (a newly constructed sensor, with a valid echo channel),
`Initialize` returns, and the registry afterwards is `n` followed by `l`:
insertion is at the head and the previous sensors keep their order. -/
theorem initialize_inserts_at_head (fuel n : Nat) (s : State) (l : List Nat) (e : Nat)
    (hreg : Registry s l) (hn : n ∉ l) (hecho : (s.heap n).m_echoChannel = some e)
    (hf : l.length + 2 ≤ fuel) :
    ∃ s1, Ultrasonic.Initialize fuel n s = .ok s1 ∧ Registry s1 (n :: l) := by
  cases hflag : s.m_automaticEnabled with
  | false =>
    refine ⟨_, Initialize_off fuel n s e hflag hecho, ?_⟩
    exact registry_linkFirst s l n hreg hn
  | true =>
    refine ⟨_, Initialize_on fuel n s l e hflag hreg hn hf hecho, ?_⟩
    exact registry_started _ _ _ (registry_linkFirst _ l n (registry_stopped s l l hreg) hn)

theorem initialize_inserts_at_head_witness :
    Registry demoRunning [3, 2, 1] ∧ 7 ∉ [3, 2, 1] ∧
      (demoRunning.heap 7).m_echoChannel = some 1 ∧ [3, 2, 1].length + 2 ≤ 5 ∧
      ∃ s1, Ultrasonic.Initialize 5 7 demoRunning = .ok s1 ∧ Registry s1 [7, 3, 2, 1] :=
  ⟨demoRunning_registry, by decide, by rfl, by decide,
    initialize_inserts_at_head 5 7 demoRunning [3, 2, 1] 1 demoRunning_registry (by decide)
      (by rfl) (by decide)⟩

theorem started_flag (s : State) (l : List Nat) : (s.started l).m_automaticEnabled = true := rfl

theorem started_task (s : State) (l : List Nat) : (s.started l).m_task = some none := rfl

theorem erase_facts (l : List Nat) (n : Nat) (hnd : l.Nodup) (hn : n ∈ l) :
    n ∉ l.erase n ∧ (l.erase n).Sublist l ∧ (l.erase n).length + 1 = l.length := by
  refine ⟨?_, List.erase_sublist n l, ?_⟩
  · exact fun h => (List.Nodup.mem_erase_iff hnd).mp h |>.1 rfl
  · have h1 := List.length_erase_of_mem hn
    have h2 : 0 < l.length := List.length_pos_of_mem hn
    omega

/-- C2: for every state whose registry is the list `l` and every sensor `n`
in `l`, at the head, in the middle or at the tail, the destructor of `n`
returns and leaves a registry `l1` that is `l` without `n`: `n` is gone, `l1`
is a sublist of `l` (the other sensors keep their relative order) and is
exactly one element shorter. -/
theorem destroy_removes_exactly_that_sensor (fuel n : Nat) (s : State) (l : List Nat)
    (hreg : Registry s l) (hn : n ∈ l) (hf : l.length + 2 ≤ fuel) :
    ∃ s1, Ultrasonic.destroy fuel n s = .ok s1 ∧ Registry s1 (l.erase n) ∧
      n ∉ l.erase n ∧ (l.erase n).Sublist l ∧ (l.erase n).length + 1 = l.length ∧
      ∀ x, x ∈ l → x ≠ n → x ∈ l.erase n := by
  have hnd : l.Nodup := listFrom_nodup s.heap l _ hreg
  obtain ⟨h1, h2, h3⟩ := erase_facts l n hnd hn
  have h4 : ∀ x, x ∈ l → x ≠ n → x ∈ l.erase n :=
    fun x hx hxn => (List.mem_erase_of_ne hxn).mpr hx
  cases hflag : s.m_automaticEnabled with
  | false =>
    obtain ⟨t, hrun, _, hregt⟩ := destroy_off fuel n s l hreg hn hflag hf
    exact ⟨t, hrun, hregt, h1, h2, h3, h4⟩
  | true =>
    obtain ⟨t, _, hregt, hrun⟩ := destroy_on fuel n s l hreg hn hflag hf
    refine ⟨_, hrun, ?_, h1, h2, h3, h4⟩
    split
    · exact hregt
    · exact registry_started _ _ _ hregt

theorem destroy_removes_exactly_that_sensor_witness :
    Registry demoRunning [3, 2, 1] ∧ 2 ∈ [3, 2, 1] ∧ [3, 2, 1].length + 2 ≤ 5 ∧
      ∃ s1, Ultrasonic.destroy 5 2 demoRunning = .ok s1 ∧ Registry s1 ([3, 2, 1].erase 2) ∧
        2 ∉ [3, 2, 1].erase 2 ∧ ([3, 2, 1].erase 2).Sublist [3, 2, 1] ∧
        ([3, 2, 1].erase 2).length + 1 = [3, 2, 1].length ∧
        ∀ x, x ∈ [3, 2, 1] → x ≠ 2 → x ∈ [3, 2, 1].erase 2 :=
  ⟨demoRunning_registry, by decide, by decide,
    destroy_removes_exactly_that_sensor 5 2 demoRunning [3, 2, 1] demoRunning_registry
      (by decide) (by decide)⟩

/-- C3: for every state whose registry `l` contains `n`, in either mode (in
the stopped mode no task is alive), the destructor of `n` returns; afterwards
the automatic-mode flag is true exactly when it was true before and the
registry left after the removal is not empty, and then a poller task has
been started anew; in every other case the flag is false and no task is
alive. -/
theorem destroy_restores_mode (fuel n : Nat) (s : State) (l : List Nat)
    (hreg : Registry s l) (hn : n ∈ l) (hf : l.length + 2 ≤ fuel)
    (hstopped : s.m_automaticEnabled = false → s.m_task = none) :
    ∃ s1, Ultrasonic.destroy fuel n s = .ok s1 ∧ Registry s1 (l.erase n) ∧
      (s1.m_automaticEnabled = true ↔ (s.m_automaticEnabled = true ∧ l.erase n ≠ [])) ∧
      (s1.m_automaticEnabled = true → s1.m_task = some none) ∧
      (s1.m_automaticEnabled = false → s1.m_task = none) := by
  cases hflag : s.m_automaticEnabled with
  | false =>
    obtain ⟨t, hrun, hun, hregt⟩ := destroy_off fuel n s l hreg hn hflag hf
    have hf1 : t.m_automaticEnabled = false := hun.flag.trans hflag
    have ht1 : t.m_task = none := hun.task.trans (hstopped hflag)
    refine ⟨t, hrun, hregt, ?_, ?_, fun _ => ht1⟩
    · simp [hf1]
    · simp [hf1]
  | true =>
    obtain ⟨t, hun, hregt, hrun⟩ := destroy_on fuel n s l hreg hn hflag hf
    have hf1 : t.m_automaticEnabled = false := hun.flag.trans (stopped_flag s l)
    have ht1 : t.m_task = none := hun.task.trans (stopped_task s l)
    refine ⟨_, hrun, ?_, ?_, ?_, ?_⟩
    · split
      · exact hregt
      · exact registry_started _ _ _ hregt
    · by_cases hnil : l.erase n = []
      · simp [hnil, hf1]
      · simp [hnil, started_flag]
    · by_cases hnil : l.erase n = []
      · simp [hnil, hf1]
      · simp [hnil, started_task]
    · by_cases hnil : l.erase n = []
      · simp [hnil, ht1]
      · simp [hnil, started_flag]

theorem destroy_restores_mode_witness :
    Registry demoRunning [3, 2, 1] ∧ 3 ∈ [3, 2, 1] ∧ [3, 2, 1].length + 2 ≤ 5 ∧
      (demoRunning.m_automaticEnabled = false → demoRunning.m_task = none) ∧
      ∃ s1, Ultrasonic.destroy 5 3 demoRunning = .ok s1 ∧ Registry s1 ([3, 2, 1].erase 3) ∧
        (s1.m_automaticEnabled = true ↔
          (demoRunning.m_automaticEnabled = true ∧ [3, 2, 1].erase 3 ≠ [])) ∧
        (s1.m_automaticEnabled = true → s1.m_task = some none) ∧
        (s1.m_automaticEnabled = false → s1.m_task = none) :=
  ⟨demoRunning_registry, by decide, by decide, by simp [demoRunning],
    destroy_restores_mode 5 3 demoRunning [3, 2, 1] demoRunning_registry
      (by decide) (by decide) (by simp [demoRunning])⟩

/-- C4: for every state whose registry is `l` and every new object `n` with a
valid echo channel, `Initialize` returns with the automatic-mode flag equal
to its value before the call; if the flag was true a poller task is running
afterwards, and if it was false the task handle is as it was before. -/
theorem initialize_keeps_mode (fuel n : Nat) (s : State) (l : List Nat) (e : Nat)
    (hreg : Registry s l) (hn : n ∉ l) (hecho : (s.heap n).m_echoChannel = some e)
    (hf : l.length + 2 ≤ fuel) :
    ∃ s1, Ultrasonic.Initialize fuel n s = .ok s1 ∧
      s1.m_automaticEnabled = s.m_automaticEnabled ∧
      (s.m_automaticEnabled = true → Task.Verify s1 = true) ∧
      (s.m_automaticEnabled = false → s1.m_task = s.m_task) := by
  cases hflag : s.m_automaticEnabled with
  | false =>
    exact ⟨_, Initialize_off fuel n s e hflag hecho, hflag, by simp, fun _ => rfl⟩
  | true =>
    exact ⟨_, Initialize_on fuel n s l e hflag hreg hn hf hecho, rfl, fun _ => rfl, by simp⟩

theorem initialize_keeps_mode_witness :
    Registry demoRunning [3, 2, 1] ∧ 7 ∉ [3, 2, 1] ∧
      (demoRunning.heap 7).m_echoChannel = some 1 ∧ [3, 2, 1].length + 2 ≤ 5 ∧
      ∃ s1, Ultrasonic.Initialize 5 7 demoRunning = .ok s1 ∧
        s1.m_automaticEnabled = demoRunning.m_automaticEnabled ∧
        (demoRunning.m_automaticEnabled = true → Task.Verify s1 = true) ∧
        (demoRunning.m_automaticEnabled = false → s1.m_task = demoRunning.m_task) :=
  ⟨demoRunning_registry, by decide, by rfl, by decide,
    initialize_keeps_mode 5 7 demoRunning [3, 2, 1] 1 demoRunning_registry (by decide)
      (by rfl) (by decide)⟩

/-! ## The iteration budget only has to be large enough -/

theorem resetCounters_mono :
    ∀ (f f2 : Nat) (p : Option Nat) (s s1 : State),
      f ≤ f2 → resetCounters f p s = .ok s1 → resetCounters f2 p s = .ok s1
  | 0, _, _, _, _, _, h => by simp [resetCounters] at h
  | _ + 1, 0, _, _, _, hle, _ => by omega
  | _ + 1, _ + 1, none, _, _, _, h => by simpa [resetCounters] using h
  | f + 1, f2 + 1, some u, s, s1, hle, h => by
    simp only [resetCounters] at h ⊢
    exact resetCounters_mono f f2 _ _ _ (by omega) h

theorem waitForTask_mono :
    ∀ (f f2 : Nat) (s s1 : State),
      f ≤ f2 → waitForTask f s = .ok s1 → waitForTask f2 s = .ok s1
  | 0, _, _, _, _, h => by simp [waitForTask] at h
  | _ + 1, 0, _, _, hle, _ => by omega
  | f + 1, f2 + 1, s, s1, hle, h => by
    simp only [waitForTask] at h ⊢
    by_cases hv : Task.Verify s = true
    · simp only [hv, if_true] at h ⊢
      cases hc : checkerIter (s.emit (Event.wait (3 / 20))) with
      | error e => rw [hc] at h; cases h
      | ok s2 =>
        rw [hc] at h
        exact waitForTask_mono f f2 _ _ (by omega) h
    · simp only [hv, if_false] at h ⊢
      exact h

theorem join_mono :
    ∀ (f f2 : Nat) (s s1 : State),
      f ≤ f2 → Task.join f s = .ok s1 → Task.join f2 s = .ok s1
  | 0, _, _, _, _, h => by simp [Task.join] at h
  | _ + 1, 0, _, _, hle, _ => by omega
  | f + 1, f2 + 1, s, s1, hle, h => by
    simp only [Task.join] at h ⊢
    by_cases hv : Task.Verify s = true
    · simp only [hv, if_true] at h ⊢
      cases hc : checkerIter s with
      | error e => rw [hc] at h; cases h
      | ok s2 =>
        rw [hc] at h
        exact join_mono f f2 _ _ (by omega) h
    · simp only [hv, if_false] at h ⊢
      exact h

theorem removeScan_mono (this : Nat) :
    ∀ (f f2 : Nat) (p : Option Nat) (s s1 : State),
      f ≤ f2 → removeScan f this p s = .ok s1 → removeScan f2 this p s = .ok s1
  | 0, _, _, _, _, _, h => by simp [removeScan] at h
  | _ + 1, 0, _, _, _, hle, _ => by omega
  | _ + 1, _ + 1, none, _, _, _, h => by simpa [removeScan] using h
  | f + 1, f2 + 1, some u, s, s1, hle, h => by
    simp only [removeScan] at h ⊢
    by_cases hc : (s.heap u).m_nextSensor = some this
    · simp only [hc, if_true] at h ⊢
      exact h
    · simp only [hc, if_false] at h ⊢
      exact removeScan_mono this f f2 _ _ _ (by omega) h

theorem SetAutomaticMode_mono (f f2 : Nat) (b : Bool) (s s1 : State) (hle : f ≤ f2)
    (h : Ultrasonic.SetAutomaticMode f b s = .ok s1) :
    Ultrasonic.SetAutomaticMode f2 b s = .ok s1 := by
  unfold Ultrasonic.SetAutomaticMode at h ⊢
  by_cases hb : b = s.m_automaticEnabled
  · simp only [hb, if_true] at h ⊢
    exact h
  · simp only [hb, if_false] at h ⊢
    cases b with
    | true =>
      simp only [if_true] at h ⊢
      cases hr : resetCounters f s.m_firstSensor { s with m_automaticEnabled := true } with
      | error e => rw [hr] at h; cases h
      | ok s2 =>
        rw [hr] at h
        rw [resetCounters_mono _ _ _ _ _ hle hr]
        exact h
    | false =>
      simp only [Bool.false_eq_true, if_false] at h ⊢
      cases hw : waitForTask f { s with m_automaticEnabled := false } with
      | error e => rw [hw] at h; cases h
      | ok s2 =>
        rw [hw] at h
        rw [waitForTask_mono _ _ _ _ hle hw]
        simp only at h ⊢
        cases hr : resetCounters f s2.m_firstSensor s2 with
        | error e => rw [hr] at h; cases h
        | ok s3 =>
          rw [hr] at h
          rw [resetCounters_mono _ _ _ _ _ hle hr]
          exact join_mono _ _ _ _ hle h

theorem Initialize_mono (f f2 n : Nat) (s s1 : State) (hle : f ≤ f2)
    (h : Ultrasonic.Initialize f n s = .ok s1) : Ultrasonic.Initialize f2 n s = .ok s1 := by
  rw [Initialize_eq] at h ⊢
  cases h1 : Ultrasonic.SetAutomaticMode f false s with
  | error e => rw [h1] at h; cases h
  | ok s2 =>
    rw [h1] at h
    rw [SetAutomaticMode_mono _ _ _ _ _ hle h1]
    simp only at h ⊢
    cases h2 : Ultrasonic.SetAutomaticMode f s.m_automaticEnabled (s2.linkFirst n) with
    | error e => rw [h2] at h; cases h
    | ok s3 =>
      rw [h2] at h
      rw [SetAutomaticMode_mono _ _ _ _ _ hle h2]
      exact h

theorem unlinkLocked_mono (f f2 n : Nat) (s s1 : State) (hle : f ≤ f2)
    (h : unlinkLocked f n s = .ok s1) : unlinkLocked f2 n s = .ok s1 := by
  unfold unlinkLocked at h ⊢
  by_cases hh : s.m_firstSensor = some n
  · simp only [hh, if_true] at h ⊢
    by_cases hnil : (s.heap n).m_nextSensor = none
    · simp only [hnil, if_true] at h ⊢
      exact SetAutomaticMode_mono _ _ _ _ _ hle h
    · simp only [hnil, if_false] at h ⊢
      exact h
  · simp only [hh, if_false] at h ⊢
    cases hfirst : s.m_firstSensor with
    | none => rw [hfirst] at h; cases h
    | some a =>
      rw [hfirst] at h
      exact removeScan_mono _ _ _ _ _ _ hle h

theorem destroy_mono (f f2 n : Nat) (s s1 : State) (hle : f ≤ f2)
    (h : Ultrasonic.destroy f n s = .ok s1) : Ultrasonic.destroy f2 n s = .ok s1 := by
  unfold Ultrasonic.destroy at h ⊢
  cases h1 : Ultrasonic.SetAutomaticMode f false s with
  | error e => rw [h1] at h; cases h
  | ok s2 =>
    rw [h1] at h
    rw [SetAutomaticMode_mono _ _ _ _ _ hle h1]
    simp only at h ⊢
    cases h2 : unlinkLocked f n
        (wpi_assert (s2.m_firstSensor != none) AssertSite.dtorFirstSensorNotNull s2) with
    | error e => rw [h2] at h; cases h
    | ok s3 =>
      rw [h2] at h
      rw [unlinkLocked_mono _ _ _ _ _ hle h2]
      simp only at h ⊢
      split at h
      · rename_i hc
        rw [if_pos hc]
        exact SetAutomaticMode_mono _ _ _ _ _ hle h
      · rename_i hc
        rw [if_neg hc]
        exact h

/-! ## Reachable states -/

theorem stopPoller_detached (s : State) : s.stopPoller.detached = s.detached := by
  unfold State.stopPoller
  split <;> rfl

theorem stopPoller_failedAsserts (s : State) :
    s.stopPoller.failedAsserts = s.failedAsserts := by
  unfold State.stopPoller
  split <;> rfl

theorem stopped_detached (s : State) (l : List Nat) : (s.stopped l).detached = s.detached :=
  stopPoller_detached _

theorem stopped_failedAsserts (s : State) (l : List Nat) :
    (s.stopped l).failedAsserts = s.failedAsserts :=
  stopPoller_failedAsserts _

theorem started_detached (s : State) (l : List Nat) (h : s.m_task = none) :
    (s.started l).detached = s.detached := by
  simp [State.started, Task.start, h]

theorem started_failedAsserts (s : State) (l : List Nat) :
    (s.started l).failedAsserts = s.failedAsserts := rfl

theorem inv_stopped {live : List Nat} {s : State} (l : List Nat) (h : Inv live s) :
    Inv live (s.stopped l) :=
  { registry := registry_stopped s l live h.registry
    detached := (stopped_detached s l).trans h.detached
    stopped := fun _ => stopped_task s l
    asserts := by rw [stopped_failedAsserts]; exact h.asserts }

theorem inv_started {live : List Nat} {s : State} (l : List Nat) (h : Inv live s)
    (htask : s.m_task = none) : Inv live (s.started l) :=
  { registry := registry_started s l live h.registry
    detached := (started_detached s l htask).trans h.detached
    stopped := fun hf => by simp [started_flag] at hf
    asserts := h.asserts }

theorem inv_setAutomaticMode {live : List Nat} {s s1 : State} (fuel : Nat) (b : Bool)
    (h : Inv live s) (hrun : Ultrasonic.SetAutomaticMode fuel b s = .ok s1) : Inv live s1 := by
  have hbig := SetAutomaticMode_mono fuel (max fuel (live.length + 2)) b s s1
    (le_max_left _ _) hrun
  by_cases hb : s.m_automaticEnabled = b
  · rw [SetAutomaticMode_same _ _ _ hb] at hbig
    cases hbig
    exact h
  · cases b with
    | true =>
      have hflag : s.m_automaticEnabled = false := by simpa using hb
      rw [SetAutomaticMode_start _ s live hflag (h.stopped hflag) h.registry
        (by have := le_max_right fuel (live.length + 2); omega)] at hbig
      cases hbig
      exact inv_started live h (h.stopped hflag)
    | false =>
      have hflag : s.m_automaticEnabled = true := by simpa using hb
      rw [SetAutomaticMode_stop _ s live hflag h.registry (le_max_right _ _)] at hbig
      cases hbig
      exact inv_stopped live h

theorem memberInit_next (s : State) (n : Nat) (p e : Option Nat) (u : DistanceUnit) (i : Nat) :
    ((s.memberInit n p e u).heap i).m_nextSensor = (s.heap i).m_nextSensor := by
  by_cases h : i = n
  · subst h; simp [State.memberInit, State.store]
  · simp [State.memberInit, State.store, Function.update_noteq h]

theorem memberInit_echo (s : State) (n : Nat) (p e : Option Nat) (u : DistanceUnit) :
    ((s.memberInit n p e u).heap n).m_echoChannel = e := by
  simp [State.memberInit, State.store]

theorem inv_memberInit {live : List Nat} {s : State} (n : Nat) (p e : Option Nat)
    (u : DistanceUnit) (h : Inv live s) : Inv live (s.memberInit n p e u) :=
  { registry := listFrom_congr s.heap _ live _ (fun a _ => memberInit_next s n p e u a)
      h.registry
    detached := h.detached
    stopped := h.stopped
    asserts := h.asserts }

theorem inv_linkFirst {live : List Nat} {s : State} (n : Nat) (h : Inv live s)
    (hn : n ∉ live) : Inv (n :: live) (s.linkFirst n) :=
  { registry := registry_linkFirst s live n h.registry hn
    detached := h.detached
    stopped := h.stopped
    asserts := h.asserts }

theorem inv_countInstance {live : List Nat} {s : State} (h : Inv live s) :
    Inv live s.countInstance :=
  { registry := h.registry
    detached := h.detached
    stopped := h.stopped
    asserts := h.asserts }

theorem inv_initialize {live : List Nat} {s s1 : State} (fuel n e : Nat) (h : Inv live s)
    (hn : n ∉ live) (hecho : (s.heap n).m_echoChannel = some e)
    (hrun : Ultrasonic.Initialize fuel n s = .ok s1) : Inv (n :: live) s1 := by
  have hbig := Initialize_mono fuel (max fuel (live.length + 2)) n s s1 (le_max_left _ _) hrun
  cases hflag : s.m_automaticEnabled with
  | false =>
    rw [Initialize_off _ n s e hflag hecho] at hbig
    cases hbig
    exact inv_countInstance (inv_linkFirst n h hn)
  | true =>
    rw [Initialize_on _ n s live e hflag h.registry hn (le_max_right _ _) hecho] at hbig
    cases hbig
    exact inv_countInstance
      (inv_started (n :: live) (inv_linkFirst n (inv_stopped live h) hn) (stopped_task s live))

theorem inv_construct {live : List Nat} {s s1 : State} (fuel n p e : Nat) (u : DistanceUnit)
    (h : Inv live s) (hn : n ∉ live)
    (hrun : Ultrasonic.construct fuel n p e u s = .ok s1) : Inv (n :: live) s1 :=
  inv_initialize fuel n e (inv_memberInit n (some p) (some e) u h) hn
    (memberInit_echo s n (some p) (some e) u) hrun

theorem inv_unlinked {live l : List Nat} {s t : State} {n : Nat} (h : Inv live s)
    (hun : Unlinked s t n) (hreg : Registry t l) : Inv l t :=
  { registry := hreg
    detached := hun.detached.trans h.detached
    stopped := fun hf => hun.task.trans (h.stopped (hun.flag.symm.trans hf))
    asserts := by rw [hun.failedAsserts]; exact h.asserts }

theorem inv_destroy {live : List Nat} {s s1 : State} (fuel n : Nat) (h : Inv live s)
    (hn : n ∈ live) (hrun : Ultrasonic.destroy fuel n s = .ok s1) :
    Inv (live.erase n) s1 := by
  have hbig := destroy_mono fuel (max fuel (live.length + 2)) n s s1 (le_max_left _ _) hrun
  cases hflag : s.m_automaticEnabled with
  | false =>
    obtain ⟨t, ht, hun, hreg⟩ :=
      destroy_off (max fuel (live.length + 2)) n s live h.registry hn hflag (le_max_right _ _)
    rw [ht] at hbig
    cases hbig
    exact inv_unlinked h hun hreg
  | true =>
    obtain ⟨t, hun, hreg, ht⟩ :=
      destroy_on (max fuel (live.length + 2)) n s live h.registry hn hflag (le_max_right _ _)
    rw [ht] at hbig
    cases hbig
    have hinv : Inv (live.erase n) t := inv_unlinked (inv_stopped live h) hun hreg
    split
    · exact hinv
    · exact inv_started _ hinv (hun.task.trans (stopped_task s live))

theorem Ping_eq (n c : Nat) (s : State) (hping : (s.heap n).m_pingChannel = some c) :
    Ultrasonic.Ping n s =
      .ok (((wpi_assert (!s.m_automaticEnabled) AssertSite.pingNotAutomatic s).resetCounter
        n).emit (Event.pulse c kPingTime)) := by
  have h1 : (((wpi_assert (!s.m_automaticEnabled) AssertSite.pingNotAutomatic s).resetCounter
      n).heap n).m_pingChannel = some c := by
    cases hflag : s.m_automaticEnabled <;>
      simp [wpi_assert, State.resetCounter, State.store, hping]
  unfold Ultrasonic.Ping pulsePing
  simp only [h1]

theorem Ping_null (n : Nat) (s : State) (hping : (s.heap n).m_pingChannel = none) :
    Ultrasonic.Ping n s = .error Fault.nullDeref := by
  have h1 : (((wpi_assert (!s.m_automaticEnabled) AssertSite.pingNotAutomatic s).resetCounter
      n).heap n).m_pingChannel = none := by
    cases hflag : s.m_automaticEnabled <;>
      simp [wpi_assert, State.resetCounter, State.store, hping]
  unfold Ultrasonic.Ping pulsePing
  simp only [h1]

theorem inv_ping {live : List Nat} {s s1 : State} (n : Nat) (h : Inv live s)
    (hrun : Ultrasonic.Ping n s = .ok s1) : Inv live s1 := by
  cases hping : (s.heap n).m_pingChannel with
  | none => rw [Ping_null n s hping] at hrun; cases hrun
  | some c =>
    rw [Ping_eq n c s hping] at hrun
    cases hrun
    refine ⟨?_, ?_, ?_, ?_⟩
    · refine listFrom_congr s.heap _ live _ (fun a _ => ?_) ?_
      · cases hflag : s.m_automaticEnabled <;>
          exact resetCounter_next _ n a
      · cases hflag : s.m_automaticEnabled <;> exact h.registry
    · cases hflag : s.m_automaticEnabled <;> exact h.detached
    · cases hflag : s.m_automaticEnabled
      · intro _; exact h.stopped hflag
      · intro hf
        have : s.m_automaticEnabled = false := hf
        rw [hflag] at this
        cases this
    · cases hflag : s.m_automaticEnabled
      · exact h.asserts
      · intro a ha
        have ha2 : a ∈ s.failedAsserts ++ [AssertSite.pingNotAutomatic] := ha
        rcases List.mem_append.mp ha2 with h1 | h1
        · exact h.asserts a h1
        · simpa using h1

theorem pulsePing_frame (p : Nat) (s s1 : State) (h : pulsePing p s = .ok s1) :
    s1.heap = s.heap ∧ s1.m_firstSensor = s.m_firstSensor ∧
      s1.m_automaticEnabled = s.m_automaticEnabled ∧ s1.detached = s.detached ∧
      s1.failedAsserts = s.failedAsserts ∧ s1.instances = s.instances ∧
      s1.m_task = s.m_task := by
  unfold pulsePing at h
  split at h
  · cases h
  · cases h
    exact ⟨rfl, rfl, rfl, rfl, rfl, rfl, rfl⟩

theorem checkerIter_frame (s s1 : State) (h : checkerIter s = .ok s1) :
    s1.heap = s.heap ∧ s1.m_firstSensor = s.m_firstSensor ∧
      s1.m_automaticEnabled = s.m_automaticEnabled ∧ s1.detached = s.detached ∧
      s1.failedAsserts = s.failedAsserts ∧ s1.instances = s.instances ∧
      (s.m_automaticEnabled = false → s.m_task = none → s1.m_task = none) := by
  unfold checkerIter at h
  cases htask : s.m_task with
  | none =>
    rw [htask] at h
    cases h
    exact ⟨rfl, rfl, rfl, rfl, rfl, rfl, fun _ _ => htask⟩
  | some u =>
    rw [htask] at h
    simp only at h
    cases hflag : s.m_automaticEnabled with
    | false =>
      rw [hflag] at h
      cases h
      exact ⟨rfl, rfl, rfl, rfl, rfl, rfl, fun _ _ => rfl⟩
    | true =>
      rw [hflag] at h
      simp only [if_true] at h
      split at h
      · cases h
        exact ⟨rfl, rfl, rfl, rfl, rfl, rfl, fun hf => by cases hf⟩
      · rename_i p _
        split at h
        · cases h
        · rename_i s2 hs2
          cases h
          have hfr : s2.heap = s.heap ∧ s2.m_firstSensor = s.m_firstSensor ∧
              s2.m_automaticEnabled = s.m_automaticEnabled ∧ s2.detached = s.detached ∧
              s2.failedAsserts = s.failedAsserts ∧ s2.instances = s.instances ∧
              s2.m_task = s.m_task := by
            by_cases hen : (s.heap p).m_enabled = true
            · rw [if_pos hen] at hs2
              exact pulsePing_frame p s s2 hs2
            · rw [if_neg hen] at hs2
              cases hs2
              exact ⟨rfl, rfl, rfl, rfl, rfl, rfl, rfl⟩
          obtain ⟨h1, h2, h3, h4, h5, h6, _⟩ := hfr
          exact ⟨h1, h2, h3.trans hflag, h4, h5, h6, fun hf => by cases hf⟩

theorem inv_poll {live : List Nat} {s s1 : State} (h : Inv live s)
    (hrun : checkerIter s = .ok s1) : Inv live s1 := by
  obtain ⟨h1, h2, h3, h4, h5, _, h7⟩ := checkerIter_frame s s1 hrun
  refine ⟨?_, h4.trans h.detached, ?_, ?_⟩
  · unfold Registry
    rw [h1, h2]
    exact h.registry
  · intro hf
    have hf2 : s.m_automaticEnabled = false := h3.symm.trans hf
    exact h7 hf2 (h.stopped hf2)
  · rw [h5]
    exact h.asserts

theorem inv_initial (h : Nat → Ultrasonic) : Inv [] (State.initial h) :=
  { registry := rfl
    detached := rfl
    stopped := fun _ => rfl
    asserts := fun a ha => by simp [State.initial] at ha }

theorem reach_inv {live : List Nat} {s : State} (h : Reach live s) : Inv live s := by
  induction h with
  | init h => exact inv_initial h
  | construct fuel n p e u _ hn hrun ih => exact inv_construct fuel n p e u ih hn hrun
  | destroy fuel n _ hn hrun ih => exact inv_destroy fuel n ih hn hrun
  | setAutomaticMode fuel b _ hrun ih => exact inv_setAutomaticMode fuel b ih hrun
  | ping n _ _ hrun ih => exact inv_ping n ih hrun
  | poll _ hrun ih => exact inv_poll ih hrun

theorem reach_live_nodup {live : List Nat} {s : State} (h : Reach live s) : live.Nodup :=
  listFrom_nodup s.heap live _ (reach_inv h).registry

/-! ## Claims on reachable states and on mode changes -/

theorem demoBuilt_reach : Reach [1] demoBuilt :=
  Reach.construct 2 1 10 11 DistanceUnit.kInches (Reach.init demoHeap) (by decide)
    (Initialize_off 2 1 _ 11 rfl (by rfl))

theorem demoAuto_reach : Reach [1] demoAuto :=
  Reach.setAutomaticMode 2 true demoBuilt_reach
    (SetAutomaticMode_start 2 demoBuilt [1] rfl rfl (reach_inv demoBuilt_reach).registry
      (by decide))

/-- C5: in every state reached from program start by constructions through
`Initialize`, destructions of live sensors, `SetAutomaticMode` calls, pings
and poller turns, the registry is a list without duplicates in which every
live sensor occurs exactly once and whose length is the number of live
sensors. -/
theorem live_sensors_registered_once (live : List Nat) (s : State) (h : Reach live s) :
    ∃ l, Registry s l ∧ l.Nodup ∧ live.Nodup ∧ l.length = live.length ∧
      (∀ n, n ∈ live → l.count n = 1) ∧ ∀ n, n ∈ l → n ∈ live := by
  have hnd := reach_live_nodup h
  exact ⟨live, (reach_inv h).registry, hnd, hnd, rfl,
    fun n hn => List.count_eq_one_of_mem hnd hn, fun _ hn => hn⟩

theorem live_sensors_registered_once_witness :
    Reach [1] demoBuilt ∧
      ∃ l, Registry demoBuilt l ∧ l.Nodup ∧ [1].Nodup ∧ l.length = [1].length ∧
        (∀ n, n ∈ [1] → l.count n = 1) ∧ ∀ n, n ∈ l → n ∈ [1] :=
  ⟨demoBuilt_reach, live_sensors_registered_once [1] demoBuilt demoBuilt_reach⟩

/-- C7: in every state reached from program start by constructions,
destructions of live sensors, `SetAutomaticMode` calls, pings and poller
turns, at most one poller task is alive, the assertion
`m_task.Verify() == false` of `SetAutomaticMode(true)` has never failed, and
whenever the flag is false (the only case in which `SetAutomaticMode(true)`
gets to that assertion) the task handle is idle. -/
theorem at_most_one_poller_task (live : List Nat) (s : State) (h : Reach live s) :
    s.aliveTasks ≤ 1 ∧ AssertSite.taskNotRunning ∉ s.failedAsserts ∧
      (s.m_automaticEnabled = false → Task.Verify s = false) := by
  have hinv := reach_inv h
  refine ⟨?_, ?_, ?_⟩
  · unfold State.aliveTasks
    rw [hinv.detached]
    split <;> simp
  · intro hmem
    have := hinv.asserts _ hmem
    cases this
  · intro hf
    simp [Task.Verify, hinv.stopped hf]

theorem at_most_one_poller_task_witness :
    Reach [1] demoAuto ∧ demoAuto.aliveTasks ≤ 1 ∧
      AssertSite.taskNotRunning ∉ demoAuto.failedAsserts ∧
      (demoAuto.m_automaticEnabled = false → Task.Verify demoAuto = false) :=
  ⟨demoAuto_reach, at_most_one_poller_task [1] demoAuto demoAuto_reach⟩

theorem wpi_assert_flag (c : Bool) (site : AssertSite) (s : State) :
    (wpi_assert c site s).m_automaticEnabled = s.m_automaticEnabled := by
  cases c <;> rfl

theorem resetCounters_flag :
    ∀ (f : Nat) (p : Option Nat) (s s1 : State),
      resetCounters f p s = .ok s1 → s1.m_automaticEnabled = s.m_automaticEnabled
  | 0, _, _, _, h => by simp [resetCounters] at h
  | _ + 1, none, _, _, h => by
    simp only [resetCounters] at h
    cases h
    rfl
  | f + 1, some u, s, s1, h => by
    simp only [resetCounters] at h
    exact resetCounters_flag f _ (s.resetCounter u) s1 h

theorem join_flag :
    ∀ (f : Nat) (s s1 : State),
      Task.join f s = .ok s1 → s1.m_automaticEnabled = s.m_automaticEnabled
  | 0, _, _, h => by simp [Task.join] at h
  | f + 1, s, s1, h => by
    simp only [Task.join] at h
    by_cases hv : Task.Verify s = true
    · simp only [hv, if_true] at h
      cases hc : checkerIter s with
      | error e => rw [hc] at h; cases h
      | ok s2 =>
        rw [hc] at h
        exact (join_flag f _ _ h).trans (checkerIter_frame s s2 hc).2.2.1
    · simp only [hv, if_false] at h
      cases h
      rfl

theorem SetAutomaticMode_flag (f : Nat) (b : Bool) (s s1 : State)
    (h : Ultrasonic.SetAutomaticMode f b s = .ok s1) : s1.m_automaticEnabled = b := by
  unfold Ultrasonic.SetAutomaticMode at h
  by_cases hb : b = s.m_automaticEnabled
  · simp only [hb, if_true] at h
    cases h
    exact hb.symm
  · simp only [hb, if_false] at h
    cases b with
    | true =>
      simp only [if_true] at h
      cases hr : resetCounters f s.m_firstSensor { s with m_automaticEnabled := true } with
      | error e => rw [hr] at h; cases h
      | ok s2 =>
        rw [hr] at h
        cases h
        show (wpi_assert _ _ s2).m_automaticEnabled = true
        rw [wpi_assert_flag]
        exact resetCounters_flag _ _ _ _ hr
    | false =>
      simp only [Bool.false_eq_true, if_false] at h
      cases hw : waitForTask f { s with m_automaticEnabled := false } with
      | error e => rw [hw] at h; cases h
      | ok s2 =>
        rw [hw] at h
        simp only at h
        cases hr : resetCounters f s2.m_firstSensor s2 with
        | error e => rw [hr] at h; cases h
        | ok s3 =>
          rw [hr] at h
          exact join_flag _ _ _ h

/-- C6: for every state and every boolean `b`, `SetAutomaticMode(b)` called
when the flag already equals `b` returns the state it was given, whatever
the iteration budget; and for every state, a second `SetAutomaticMode(b)`
right after a first one that has returned gives back the state the first
one returned. -/
theorem setAutomaticMode_idempotent (fuel fuel2 : Nat) (b : Bool) (s : State) :
    (s.m_automaticEnabled = b → Ultrasonic.SetAutomaticMode fuel b s = .ok s) ∧
      (∀ s1, Ultrasonic.SetAutomaticMode fuel b s = .ok s1 →
        Ultrasonic.SetAutomaticMode fuel2 b s1 = .ok s1) ∧
      (Ultrasonic.SetAutomaticMode fuel b s >>= Ultrasonic.SetAutomaticMode fuel b) =
        Ultrasonic.SetAutomaticMode fuel b s := by
  refine ⟨SetAutomaticMode_same fuel b s, ?_, ?_⟩
  · intro s1 h
    exact SetAutomaticMode_same fuel2 b s1 (SetAutomaticMode_flag fuel b s s1 h)
  · cases h : Ultrasonic.SetAutomaticMode fuel b s with
    | error e => rfl
    | ok s1 =>
      show Ultrasonic.SetAutomaticMode fuel b s1 = .ok s1
      exact SetAutomaticMode_same fuel b s1 (SetAutomaticMode_flag fuel b s s1 h)

theorem setAutomaticMode_idempotent_witness :
    (demoStopped.m_automaticEnabled = false →
        Ultrasonic.SetAutomaticMode 0 false demoStopped = .ok demoStopped) ∧
      (∀ s1, Ultrasonic.SetAutomaticMode 0 false demoStopped = .ok s1 →
        Ultrasonic.SetAutomaticMode 4 false s1 = .ok s1) ∧
      (Ultrasonic.SetAutomaticMode 0 false demoStopped >>= Ultrasonic.SetAutomaticMode 0 false) =
        Ultrasonic.SetAutomaticMode 0 false demoStopped :=
  setAutomaticMode_idempotent 0 4 false demoStopped

/-! ## Claims on starting, stopping and pinging -/

theorem isRangeValid_of_count_zero (n : Nat) (s : State)
    (h : (s.heap n).m_counter.count = 0) : Ultrasonic.IsRangeValid n s = false := by
  simp [Ultrasonic.IsRangeValid, Counter.Get, h]

theorem stopped_heap (s : State) (l : List Nat) :
    (s.stopped l).heap = (s.resetAll l).heap := by
  show ((({ s with m_automaticEnabled := false } : State).stopPoller).resetAll l).heap = _
  simp only [State.resetAll, stopPoller_heap]

/-- C8: for every state with the flag false whose registry is `l`,
`SetAutomaticMode(true)` returns with the flag true, the counter of every
sensor of `l` reset (so `IsRangeValid()` is false for each), and one more
poller task alive than before, the new one at the entry of
`UltrasonicChecker`; the registry is still `l`, no pulse or wait has been
emitted, and no sensor has changed its links, channels, enabled flag or
units. -/
theorem setAutomaticMode_true_starts_poller (fuel : Nat) (s : State) (l : List Nat)
    (hflag : s.m_automaticEnabled = false) (hreg : Registry s l) (hf : l.length < fuel) :
    ∃ s1, Ultrasonic.SetAutomaticMode fuel true s = .ok s1 ∧
      s1.m_automaticEnabled = true ∧
      (∀ n, n ∈ l → Ultrasonic.IsRangeValid n s1 = false) ∧
      s1.m_task = some none ∧ s1.aliveTasks = s.aliveTasks + 1 ∧
      Registry s1 l ∧ s1.m_firstSensor = s.m_firstSensor ∧ s1.events = s.events ∧
      (∀ i, (s1.heap i).m_enabled = (s.heap i).m_enabled ∧
        (s1.heap i).m_units = (s.heap i).m_units ∧
        (s1.heap i).m_nextSensor = (s.heap i).m_nextSensor ∧
        (s1.heap i).m_pingChannel = (s.heap i).m_pingChannel ∧
        (s1.heap i).m_echoChannel = (s.heap i).m_echoChannel) := by
  refine ⟨_, SetAutomaticMode_enable fuel s l hflag hreg hf, ?_⟩
  cases htask : s.m_task with
  | none =>
    simp only [Task.Verify, htask, Option.isSome_none, beq_self_eq_true, wpi_assert_true]
    refine ⟨rfl, ?_, rfl, ?_, ?_, rfl, rfl, ?_⟩
    · intro n hn
      exact isRangeValid_of_count_zero n _ (resetAll_count_mem _ l n hn)
    · simp [State.aliveTasks, Task.start, htask]
      omega
    · exact registry_resetAll ({ s with m_automaticEnabled := true } : State) l l hreg
    · intro i
      exact ⟨resetAll_enabled _ l i, resetAll_units _ l i, resetAll_next _ l i,
        resetAll_ping _ l i, resetAll_echo _ l i⟩
  | some u =>
    simp only [Task.Verify, htask, Option.isSome_some, wpi_assert]
    refine ⟨rfl, ?_, rfl, ?_, ?_, rfl, rfl, ?_⟩
    · intro n hn
      exact isRangeValid_of_count_zero n _ (resetAll_count_mem _ l n hn)
    · simp [State.aliveTasks, Task.start, htask]
      omega
    · exact registry_resetAll ({ s with m_automaticEnabled := true } : State) l l hreg
    · intro i
      exact ⟨resetAll_enabled _ l i, resetAll_units _ l i, resetAll_next _ l i,
        resetAll_ping _ l i, resetAll_echo _ l i⟩

theorem setAutomaticMode_true_starts_poller_witness :
    demoStopped.m_automaticEnabled = false ∧ Registry demoStopped [3, 2, 1] ∧
      [3, 2, 1].length < 4 ∧
      ∃ s1, Ultrasonic.SetAutomaticMode 4 true demoStopped = .ok s1 ∧
        s1.m_automaticEnabled = true ∧
        (∀ n, n ∈ [3, 2, 1] → Ultrasonic.IsRangeValid n s1 = false) ∧
        s1.m_task = some none ∧ s1.aliveTasks = demoStopped.aliveTasks + 1 ∧
        Registry s1 [3, 2, 1] ∧ s1.m_firstSensor = demoStopped.m_firstSensor ∧
        s1.events = demoStopped.events ∧
        (∀ i, (s1.heap i).m_enabled = (demoStopped.heap i).m_enabled ∧
          (s1.heap i).m_units = (demoStopped.heap i).m_units ∧
          (s1.heap i).m_nextSensor = (demoStopped.heap i).m_nextSensor ∧
          (s1.heap i).m_pingChannel = (demoStopped.heap i).m_pingChannel ∧
          (s1.heap i).m_echoChannel = (demoStopped.heap i).m_echoChannel) :=
  ⟨rfl, demoStopped_registry, by decide,
    setAutomaticMode_true_starts_poller 4 demoStopped [3, 2, 1] rfl demoStopped_registry
      (by decide)⟩

/-- C9: for every state with the flag true whose registry is `l` and in which
no poller thread runs unreferenced, `SetAutomaticMode(false)` returns, always
with the same state, and in that state the flag is false, no poller task is alive, the
counter of every sensor of `l` has been reset (`IsRangeValid()` false for
each) and the registry is still `l`, with the head pointer and every sensor
link, channel, enabled flag and units unchanged. -/
theorem setAutomaticMode_false_stops_poller (fuel : Nat) (s : State) (l : List Nat)
    (hflag : s.m_automaticEnabled = true) (hreg : Registry s l) (hf : l.length + 2 ≤ fuel)
    (hdet : s.detached = 0) :
    ∃ s1, Ultrasonic.SetAutomaticMode fuel false s = .ok s1 ∧
      s1.m_automaticEnabled = false ∧ Task.Verify s1 = false ∧ s1.aliveTasks = 0 ∧
      (∀ n, n ∈ l → Ultrasonic.IsRangeValid n s1 = false) ∧
      Registry s1 l ∧ s1.m_firstSensor = s.m_firstSensor ∧
      (∀ i, (s1.heap i).m_enabled = (s.heap i).m_enabled ∧
        (s1.heap i).m_units = (s.heap i).m_units ∧
        (s1.heap i).m_nextSensor = (s.heap i).m_nextSensor ∧
        (s1.heap i).m_pingChannel = (s.heap i).m_pingChannel ∧
        (s1.heap i).m_echoChannel = (s.heap i).m_echoChannel) ∧
      ∀ fuel2 s2, Ultrasonic.SetAutomaticMode fuel2 false s = .ok s2 → s2 = s1 := by
  refine ⟨_, SetAutomaticMode_stop fuel s l hflag hreg hf, stopped_flag s l, ?_, ?_, ?_,
    registry_stopped s l l hreg, ?_, ?_, ?_⟩
  · simp [Task.Verify, stopped_task]
  · simp [State.aliveTasks, stopped_task, stopped_detached, hdet]
  · intro n hn
    apply isRangeValid_of_count_zero
    rw [stopped_heap]
    exact resetAll_count_mem s l n hn
  · exact stopPoller_first _
  · intro i
    rw [stopped_heap]
    exact ⟨resetAll_enabled _ l i, resetAll_units _ l i, resetAll_next _ l i,
      resetAll_ping _ l i, resetAll_echo _ l i⟩
  · intro fuel2 s2 h2
    have hbig := SetAutomaticMode_mono fuel2 (max fuel2 (l.length + 2)) false s s2
      (le_max_left _ _) h2
    rw [SetAutomaticMode_stop _ s l hflag hreg (le_max_right _ _)] at hbig
    cases hbig
    rfl

theorem setAutomaticMode_false_stops_poller_witness :
    demoRunning.m_automaticEnabled = true ∧ Registry demoRunning [3, 2, 1] ∧
      [3, 2, 1].length + 2 ≤ 5 ∧ demoRunning.detached = 0 ∧
      ∃ s1, Ultrasonic.SetAutomaticMode 5 false demoRunning = .ok s1 ∧
        s1.m_automaticEnabled = false ∧ Task.Verify s1 = false ∧ s1.aliveTasks = 0 ∧
        (∀ n, n ∈ [3, 2, 1] → Ultrasonic.IsRangeValid n s1 = false) ∧
        Registry s1 [3, 2, 1] ∧ s1.m_firstSensor = demoRunning.m_firstSensor ∧
        (∀ i, (s1.heap i).m_enabled = (demoRunning.heap i).m_enabled ∧
          (s1.heap i).m_units = (demoRunning.heap i).m_units ∧
          (s1.heap i).m_nextSensor = (demoRunning.heap i).m_nextSensor ∧
          (s1.heap i).m_pingChannel = (demoRunning.heap i).m_pingChannel ∧
          (s1.heap i).m_echoChannel = (demoRunning.heap i).m_echoChannel) ∧
        ∀ fuel2 s2, Ultrasonic.SetAutomaticMode fuel2 false demoRunning = .ok s2 → s2 = s1 :=
  ⟨rfl, demoRunning_registry, by decide, rfl,
    setAutomaticMode_false_stops_poller 5 demoRunning [3, 2, 1] rfl demoRunning_registry
      (by decide) rfl⟩

/-- C10: for every sensor `n` with a valid ping channel `c`, `Ping()` called
while the flag is false returns with the counter of `n` reset
(`IsRangeValid()` false) and with exactly one event added to the trace, a
pulse of duration `kPingTime` on channel `c`; every other object is
unchanged, `n` keeps its links, channels, enabled flag and units, and the
head pointer, the registry, the flag, the task and the assertion log are as
before. -/
theorem ping_resets_and_pulses_once (n c : Nat) (s : State)
    (hflag : s.m_automaticEnabled = false) (hping : (s.heap n).m_pingChannel = some c) :
    ∃ s1, Ultrasonic.Ping n s = .ok s1 ∧ Ultrasonic.IsRangeValid n s1 = false ∧
      s1.events = s.events ++ [Event.pulse c kPingTime] ∧
      (∀ i, i ≠ n → s1.heap i = s.heap i) ∧
      ((s1.heap n).m_nextSensor = (s.heap n).m_nextSensor ∧
        (s1.heap n).m_enabled = (s.heap n).m_enabled ∧
        (s1.heap n).m_units = (s.heap n).m_units ∧
        (s1.heap n).m_pingChannel = (s.heap n).m_pingChannel ∧
        (s1.heap n).m_echoChannel = (s.heap n).m_echoChannel) ∧
      s1.m_firstSensor = s.m_firstSensor ∧ (∀ l, Registry s l → Registry s1 l) ∧
      s1.m_automaticEnabled = s.m_automaticEnabled ∧ s1.m_task = s.m_task ∧
      s1.detached = s.detached ∧ s1.failedAsserts = s.failedAsserts := by
  refine ⟨_, Ping_eq n c s hping, ?_⟩
  simp only [hflag, Bool.not_false, wpi_assert_true]
  refine ⟨?_, rfl, ?_, ?_, rfl, ?_, hflag, rfl, rfl, rfl⟩
  · apply isRangeValid_of_count_zero
    simp [State.emit, State.resetCounter, State.store, Counter.Reset]
  · intro i hi
    simp [State.emit, State.resetCounter, State.store, Function.update_noteq hi]
  · simp [State.emit, State.resetCounter, State.store]
  · intro l hl
    exact listFrom_congr s.heap _ l _ (fun a _ => resetCounter_next s n a) hl

theorem ping_resets_and_pulses_once_witness :
    demoStopped.m_automaticEnabled = false ∧ (demoStopped.heap 2).m_pingChannel = some 20 ∧
      ∃ s1, Ultrasonic.Ping 2 demoStopped = .ok s1 ∧ Ultrasonic.IsRangeValid 2 s1 = false ∧
        s1.events = demoStopped.events ++ [Event.pulse 20 kPingTime] ∧
        (∀ i, i ≠ 2 → s1.heap i = demoStopped.heap i) ∧
        ((s1.heap 2).m_nextSensor = (demoStopped.heap 2).m_nextSensor ∧
          (s1.heap 2).m_enabled = (demoStopped.heap 2).m_enabled ∧
          (s1.heap 2).m_units = (demoStopped.heap 2).m_units ∧
          (s1.heap 2).m_pingChannel = (demoStopped.heap 2).m_pingChannel ∧
          (s1.heap 2).m_echoChannel = (demoStopped.heap 2).m_echoChannel) ∧
        s1.m_firstSensor = demoStopped.m_firstSensor ∧
        (∀ l, Registry demoStopped l → Registry s1 l) ∧
        s1.m_automaticEnabled = demoStopped.m_automaticEnabled ∧
        s1.m_task = demoStopped.m_task ∧ s1.detached = demoStopped.detached ∧
        s1.failedAsserts = demoStopped.failedAsserts :=
  ⟨rfl, rfl, ping_resets_and_pulses_once 2 20 demoStopped rfl rfl⟩

/-! ## Claims on the assertion of Ping and on the range accessors -/

/-- C11: for every call of `Ping()` on a sensor with a valid ping channel,
the call returns, and the assertion `!m_automaticEnabled` is logged as
failed by this call exactly when the automatic-mode flag is true at the
call: with the flag true the log grows by that one failure, with the flag
false the log is unchanged. -/
theorem ping_assertion_fails_iff_automatic (n c : Nat) (s : State)
    (hping : (s.heap n).m_pingChannel = some c) :
    ∃ s1, Ultrasonic.Ping n s = .ok s1 ∧
      (s.m_automaticEnabled = true →
        s1.failedAsserts = s.failedAsserts ++ [AssertSite.pingNotAutomatic]) ∧
      (s.m_automaticEnabled = false → s1.failedAsserts = s.failedAsserts) ∧
      (s1.failedAsserts ≠ s.failedAsserts ↔ s.m_automaticEnabled = true) := by
  refine ⟨_, Ping_eq n c s hping, ?_⟩
  cases hflag : s.m_automaticEnabled with
  | false =>
    refine ⟨fun h => (by cases h), fun _ => rfl, ?_⟩
    simp [wpi_assert, State.emit, State.resetCounter, State.store]
  | true =>
    refine ⟨fun _ => rfl, fun h => (by cases h), ?_⟩
    simp [wpi_assert, State.emit, State.resetCounter, State.store]

theorem ping_assertion_fails_iff_automatic_witness :
    (demoRunning.heap 2).m_pingChannel = some 20 ∧
      ∃ s1, Ultrasonic.Ping 2 demoRunning = .ok s1 ∧
        (demoRunning.m_automaticEnabled = true →
          s1.failedAsserts = demoRunning.failedAsserts ++ [AssertSite.pingNotAutomatic]) ∧
        (demoRunning.m_automaticEnabled = false →
          s1.failedAsserts = demoRunning.failedAsserts) ∧
        (s1.failedAsserts ≠ demoRunning.failedAsserts ↔
          demoRunning.m_automaticEnabled = true) :=
  ⟨rfl, ping_assertion_fails_iff_automatic 2 20 demoRunning rfl⟩

/-- C12: for every sensor and every counter state, `IsRangeValid()` is true
exactly when the edge count of the counter is greater than 1: it is false
for the counts 0 and 1 and true for every count from 2 on. -/
theorem isRangeValid_iff_count_gt_one (n : Nat) (s : State) :
    (Ultrasonic.IsRangeValid n s = true ↔ 1 < (s.heap n).m_counter.count) ∧
      ((s.heap n).m_counter.count = 0 → Ultrasonic.IsRangeValid n s = false) ∧
      ((s.heap n).m_counter.count = 1 → Ultrasonic.IsRangeValid n s = false) ∧
      (2 ≤ (s.heap n).m_counter.count → Ultrasonic.IsRangeValid n s = true) := by
  refine ⟨?_, ?_, ?_, ?_⟩
  · simp [Ultrasonic.IsRangeValid, Counter.Get]
  · intro h; simp [Ultrasonic.IsRangeValid, Counter.Get, h]
  · intro h; simp [Ultrasonic.IsRangeValid, Counter.Get, h]
  · intro h
    simp only [Ultrasonic.IsRangeValid, Counter.Get, decide_eq_true_eq]
    omega

theorem isRangeValid_iff_count_gt_one_witness :
    (Ultrasonic.IsRangeValid 2 demoStopped = true ↔ 1 < (demoStopped.heap 2).m_counter.count) ∧
      ((demoStopped.heap 2).m_counter.count = 0 →
        Ultrasonic.IsRangeValid 2 demoStopped = false) ∧
      ((demoStopped.heap 2).m_counter.count = 1 →
        Ultrasonic.IsRangeValid 2 demoStopped = false) ∧
      (2 ≤ (demoStopped.heap 2).m_counter.count →
        Ultrasonic.IsRangeValid 2 demoStopped = true) :=
  isRangeValid_iff_count_gt_one 2 demoStopped

/-- C13: for every counter state with edge count `n` and period `p`,
`GetRangeInches()` is `p * kSpeedOfSoundInchesPerSec / 2` when `n > 1` and
is 0 when `n <= 1`, whatever `p` is. -/
theorem getRangeInches_eq (k : Rat) (n : Nat) (s : State) :
    (1 < (s.heap n).m_counter.count →
        Ultrasonic.GetRangeInches k n s = (s.heap n).m_counter.period * k / 2) ∧
      ((s.heap n).m_counter.count ≤ 1 → Ultrasonic.GetRangeInches k n s = 0) := by
  constructor
  · intro h
    simp [Ultrasonic.GetRangeInches, Ultrasonic.IsRangeValid, Counter.Get, Counter.GetPeriod, h]
  · intro h
    have h2 : ¬ 1 < (s.heap n).m_counter.count := by omega
    simp [Ultrasonic.GetRangeInches, Ultrasonic.IsRangeValid, Counter.Get, h2]

theorem getRangeInches_eq_witness :
    (1 < (demoStopped.heap 2).m_counter.count →
        Ultrasonic.GetRangeInches 13560 2 demoStopped =
          (demoStopped.heap 2).m_counter.period * 13560 / 2) ∧
      ((demoStopped.heap 2).m_counter.count ≤ 1 →
        Ultrasonic.GetRangeInches 13560 2 demoStopped = 0) :=
  getRangeInches_eq 13560 2 demoStopped

/-- C14: for every sensor state, valid or not, `GetRangeMM()` is
`GetRangeInches() * 25.4`, and it is 0 whenever the range is invalid. -/
theorem getRangeMM_eq (k : Rat) (n : Nat) (s : State) :
    Ultrasonic.GetRangeMM k n s = Ultrasonic.GetRangeInches k n s * 25.4 ∧
      (Ultrasonic.IsRangeValid n s = false → Ultrasonic.GetRangeMM k n s = 0) := by
  refine ⟨rfl, ?_⟩
  intro h
  simp [Ultrasonic.GetRangeMM, Ultrasonic.GetRangeInches, h]

theorem getRangeMM_eq_witness :
    Ultrasonic.GetRangeMM 13560 2 demoStopped =
        Ultrasonic.GetRangeInches 13560 2 demoStopped * 25.4 ∧
      (Ultrasonic.IsRangeValid 2 demoStopped = false →
        Ultrasonic.GetRangeMM 13560 2 demoStopped = 0) :=
  getRangeMM_eq 13560 2 demoStopped

/-! ## Claims on the poll loop -/

theorem checkerIter_turn (s : State)
    (hping : ∀ x, (s.heap x).m_enabled = true → (s.heap x).m_pingChannel ≠ none) :
    ∃ s1 blk, checkerIter s = .ok s1 ∧ s1.events = s.events ++ blk ∧ s1.heap = s.heap ∧
      (blk = [] ∨ blk = [Event.wait (1 / 10)] ∨
        ∃ ch, blk = [Event.pulse ch kPingTime, Event.wait (1 / 10)]) := by
  unfold checkerIter
  cases htask : s.m_task with
  | none => exact ⟨s, [], rfl, by simp, rfl, Or.inl rfl⟩
  | some u =>
    simp only
    cases hflag : s.m_automaticEnabled with
    | false => exact ⟨_, [], rfl, by simp, rfl, Or.inl rfl⟩
    | true =>
      simp only [if_true]
      cases hu : (if u = none then s.m_firstSensor else u) with
      | none => exact ⟨_, [], rfl, by simp, rfl, Or.inl rfl⟩
      | some p =>
        simp only
        cases hen : (s.heap p).m_enabled with
        | false =>
          refine ⟨_, [Event.wait (1 / 10)], rfl, rfl, rfl, Or.inr (Or.inl rfl)⟩
        | true =>
          cases hch : (s.heap p).m_pingChannel with
          | none => exact absurd hch (hping p hen)
          | some ch =>
            have hp : pulsePing p s = .ok (s.emit (Event.pulse ch kPingTime)) := by
              simp [pulsePing, hch]
            simp only [if_true, hp]
            refine ⟨_, [Event.pulse ch kPingTime, Event.wait (1 / 10)], rfl, ?_, rfl,
              Or.inr (Or.inr ⟨ch, rfl⟩)⟩
            simp [State.emit]

theorem pollTurns_pulse_followed :
    ∀ (tr pre post : List Event) (ch : Nat) (d : Rat),
      pollTurns tr = true → tr = pre ++ Event.pulse ch d :: post →
      ∃ rest, post = Event.wait (1 / 10) :: rest
  | [], pre, post, ch, d, _, heq => by
    cases pre <;> simp at heq
  | Event.wait w :: tr, pre, post, ch, d, h, heq => by
    cases pre with
    | nil => simp at heq
    | cons x pre =>
      simp only [List.cons_append, List.cons.injEq] at heq
      simp only [pollTurns, Bool.and_eq_true] at h
      exact pollTurns_pulse_followed tr pre post ch d h.2 heq.2
  | [Event.pulse c e], pre, post, ch, d, h, _ => by
    simp [pollTurns] at h
  | Event.pulse c e :: Event.pulse c2 e2 :: tr, pre, post, ch, d, h, _ => by
    simp [pollTurns] at h
  | Event.pulse c e :: Event.wait w :: tr, pre, post, ch, d, h, heq => by
    simp only [pollTurns, Bool.and_eq_true, decide_eq_true_eq] at h
    cases pre with
    | nil =>
      simp only [List.nil_append, List.cons.injEq] at heq
      exact ⟨tr, by rw [← heq.2, h.1.2]⟩
    | cons x pre =>
      cases pre with
      | nil => simp at heq
      | cons y pre =>
        simp only [List.cons_append, List.cons.injEq] at heq
        exact pollTurns_pulse_followed tr pre post ch d h.2 heq.2.2

theorem checkerIter_block (s : State)
    (hping : ∀ x, (s.heap x).m_enabled = true → (s.heap x).m_pingChannel ≠ none) :
    ∃ s1, checkerIter s = .ok s1 ∧ s1.heap = s.heap ∧
      s1.m_automaticEnabled = s.m_automaticEnabled ∧ s1.m_firstSensor = s.m_firstSensor ∧
      ((s1.m_task = none ∧ s1.events = s.events) ∨
        (s1.m_task ≠ none ∧ ∃ b, IsTurn b ∧ s1.events = s.events ++ b)) ∧
      (s.m_task ≠ none → s.m_automaticEnabled = true → s.m_firstSensor ≠ none →
        s1.m_task ≠ none) := by
  unfold checkerIter
  cases htask : s.m_task with
  | none => exact ⟨s, rfl, rfl, rfl, rfl, Or.inl ⟨htask, rfl⟩, fun h => absurd rfl h⟩
  | some u =>
    simp only
    cases hflag : s.m_automaticEnabled with
    | false =>
      exact ⟨_, rfl, rfl, rfl, rfl, Or.inl ⟨rfl, rfl⟩, fun _ h => by cases h⟩
    | true =>
      simp only [if_true]
      cases hu : (if u = none then s.m_firstSensor else u) with
      | none =>
        refine ⟨_, rfl, rfl, rfl, rfl, Or.inl ⟨rfl, rfl⟩, fun _ _ hfirst => ?_⟩
        exfalso
        by_cases hun : u = none
        · rw [if_pos hun] at hu
          exact hfirst hu
        · rw [if_neg hun] at hu
          exact hun hu
      | some p =>
        simp only
        cases hen : (s.heap p).m_enabled with
        | false =>
          refine ⟨_, rfl, rfl, hflag, rfl,
            Or.inr ⟨by simp [State.emit], [Event.wait (1 / 10)], Or.inl rfl, rfl⟩,
            fun _ _ _ => by simp [State.emit]⟩
        | true =>
          cases hch : (s.heap p).m_pingChannel with
          | none => exact absurd hch (hping p hen)
          | some ch =>
            have hp : pulsePing p s = .ok (s.emit (Event.pulse ch kPingTime)) := by
              simp [pulsePing, hch]
            simp only [if_true, hp]
            refine ⟨_, rfl, rfl, hflag, rfl,
              Or.inr ⟨by simp [State.emit],
                [Event.pulse ch kPingTime, Event.wait (1 / 10)], Or.inr ⟨ch, rfl⟩, ?_⟩,
              fun _ _ _ => by simp [State.emit]⟩
            simp [State.emit]

theorem UltrasonicChecker_idle :
    ∀ (k : Nat) (s : State), s.m_task = none → UltrasonicChecker k s = .ok s
  | 0, _, _ => rfl
  | k + 1, s, h => by
    have hc : checkerIter s = .ok s := by simp [checkerIter, h]
    simp only [UltrasonicChecker, hc]
    exact UltrasonicChecker_idle k s h

theorem isTurn_pollTurns (b tr : List Event) (hb : IsTurn b) (htr : pollTurns tr = true) :
    pollTurns (b ++ tr) = true := by
  rcases hb with rfl | ⟨ch, rfl⟩
  · simp [pollTurns, htr]
  · simp [pollTurns, htr]

theorem UltrasonicChecker_blocks :
    ∀ (k : Nat) (s : State),
      (∀ x, (s.heap x).m_enabled = true → (s.heap x).m_pingChannel ≠ none) →
      ∃ (sk : State) (blocks : List (List Event)), UltrasonicChecker k s = .ok sk ∧
        sk.events = s.events ++ blocks.flatten ∧ (∀ b ∈ blocks, IsTurn b) ∧
        blocks.length ≤ k ∧ (sk.m_task ≠ none → blocks.length = k) ∧
        (s.m_task ≠ none → s.m_automaticEnabled = true → s.m_firstSensor ≠ none →
          sk.m_task ≠ none) ∧
        pollTurns blocks.flatten = true
  | 0, s, _ => ⟨s, [], rfl, by simp, by simp, by simp, fun _ => rfl, fun h _ _ => h, rfl⟩
  | k + 1, s, hp => by
    obtain ⟨s1, hrun, hheap, hflag, hfirst, hcase, hkeep⟩ := checkerIter_block s hp
    rcases hcase with ⟨hnone, hev⟩ | ⟨hsome, b, hb, hev⟩
    · refine ⟨s1, [], ?_, by simpa using hev, by simp, by simp, fun h => absurd hnone h,
        fun h1 h2 h3 _ => hkeep h1 h2 h3 hnone, rfl⟩
      simp only [UltrasonicChecker, hrun]
      exact UltrasonicChecker_idle k s1 hnone
    · obtain ⟨sk, blocks, hrun2, hev2, hall, hle, hlen, hkeep2, hpoll⟩ :=
        UltrasonicChecker_blocks k s1 (by rw [hheap]; exact hp)
      refine ⟨sk, b :: blocks, ?_, ?_, ?_, ?_, ?_, ?_, ?_⟩
      · simp only [UltrasonicChecker, hrun]
        exact hrun2
      · rw [hev2, hev, List.flatten_cons, List.append_assoc]
      · intro c hc
        rcases List.mem_cons.1 hc with rfl | hc
        · exact hb
        · exact hall c hc
      · simp only [List.length_cons]; omega
      · intro h
        simp only [List.length_cons]
        rw [hlen h]
      · intro _ h2 h3
        exact hkeep2 hsome (by rw [hflag]; exact h2) (by rw [hfirst]; exact h3)
      · rw [List.flatten_cons]
        exact isTurn_pollTurns b _ hb hpoll

/-- C16: for every state, whatever the list and the enabled flags (an enabled
sensor has a ping channel), any number `k` of turns of the poll loop returns,
and the events it adds to the trace are the blocks of the turns that ran the
loop body, one block per such turn and in order, each block being at most one
pulse of `kPingTime` and then one `Wait(0.1)`.  While the poller thread has
not left the loop there is one block for every turn, and it never leaves the
loop while the flag is set and the list is not empty.  Hence every pulse in
the added trace is directly followed by a `Wait(0.1)`, so that two
consecutive pulses always have a `Wait(0.1)` between them. -/
theorem poller_waits_after_each_pulse (k : Nat) (s : State)
    (hping : ∀ x, (s.heap x).m_enabled = true → (s.heap x).m_pingChannel ≠ none) :
    ∃ (sk : State) (blocks : List (List Event)), UltrasonicChecker k s = .ok sk ∧
      sk.events = s.events ++ blocks.flatten ∧
      (∀ b ∈ blocks, b = [Event.wait (1 / 10)] ∨
        ∃ ch, b = [Event.pulse ch kPingTime, Event.wait (1 / 10)]) ∧
      blocks.length ≤ k ∧ (sk.m_task ≠ none → blocks.length = k) ∧
      (s.m_task ≠ none → s.m_automaticEnabled = true → s.m_firstSensor ≠ none →
        sk.m_task ≠ none ∧ blocks.length = k) ∧
      pollTurns blocks.flatten = true ∧
      ∀ pre post ch d, blocks.flatten = pre ++ Event.pulse ch d :: post →
        ∃ rest, post = Event.wait (1 / 10) :: rest := by
  obtain ⟨sk, blocks, h1, h2, h3, h4, h5, h6, h7⟩ := UltrasonicChecker_blocks k s hping
  exact ⟨sk, blocks, h1, h2, h3, h4, h5, fun a b c => ⟨h6 a b c, h5 (h6 a b c)⟩, h7,
    fun pre post ch d heq => pollTurns_pulse_followed blocks.flatten pre post ch d h7 heq⟩

theorem poller_waits_after_each_pulse_witness :
    (∀ x, (demoRunning.heap x).m_enabled = true →
        (demoRunning.heap x).m_pingChannel ≠ none) ∧
      ∃ (sk : State) (blocks : List (List Event)), UltrasonicChecker 4 demoRunning = .ok sk ∧
        sk.events = demoRunning.events ++ blocks.flatten ∧
        (∀ b ∈ blocks, b = [Event.wait (1 / 10)] ∨
          ∃ ch, b = [Event.pulse ch kPingTime, Event.wait (1 / 10)]) ∧
        sk.m_task ≠ none ∧ blocks.length = 4 ∧
        ∀ pre post ch d, blocks.flatten = pre ++ Event.pulse ch d :: post →
          ∃ rest, post = Event.wait (1 / 10) :: rest := by
  have hping : ∀ x, (demoRunning.heap x).m_enabled = true →
      (demoRunning.heap x).m_pingChannel ≠ none := fun x _ => by
    simp only [demoRunning, demoHeap, demoSensor]; split_ifs <;> simp
  obtain ⟨sk, blocks, h1, h2, h3, _, _, h6, _, h8⟩ :=
    poller_waits_after_each_pulse 4 demoRunning hping
  have h := h6 (by simp [demoRunning]) rfl (by simp [demoRunning])
  exact ⟨hping, sk, blocks, h1, h2, h3, h.1, h.2, h8⟩

theorem listFrom_head (h : Nat → Ultrasonic) :
    ∀ (l : List Nat) (p : Option Nat), ListFrom h p l → p = l[0]?
  | [], _, hl => hl
  | _ :: _, _, hl => by simpa using hl.1

theorem listFrom_next (h : Nat → Ultrasonic) :
    ∀ (l : List Nat) (p : Option Nat) (i x : Nat), ListFrom h p l → l[i]? = some x →
      (h x).m_nextSensor = l[i + 1]?
  | [], _, i, x, _, hx => by simp at hx
  | a :: l, _, 0, x, hl, hx => by
    simp only [List.getElem?_cons_zero, Option.some.injEq] at hx
    subst hx
    simpa using listFrom_head h l _ hl.2
  | a :: l, _, i + 1, x, hl, hx => by
    simp only [List.getElem?_cons_succ] at hx ⊢
    exact listFrom_next h l _ i x hl.2 hx

theorem UltrasonicChecker_succ :
    ∀ (k : Nat) (s sk : State), UltrasonicChecker k s = .ok sk →
      UltrasonicChecker (k + 1) s = checkerIter sk
  | 0, s, sk, h => by
    simp only [UltrasonicChecker] at h
    cases h
    simp only [UltrasonicChecker]
    cases checkerIter s <;> rfl
  | k + 1, s, sk, h => by
    simp only [UltrasonicChecker] at h
    cases hc : checkerIter s with
    | error e => rw [hc] at h; cases h
    | ok s1 =>
      rw [hc] at h
      have ih := UltrasonicChecker_succ k s1 sk h
      show (match checkerIter s with
        | .error e => .error e
        | .ok s1 => UltrasonicChecker (k + 1) s1) = checkerIter sk
      rw [hc]
      exact ih

theorem checkerIter_visit (s : State) (c : Option Nat) (p : Nat)
    (htask : s.m_task = some c) (hflag : s.m_automaticEnabled = true)
    (hvisit : (if c = none then s.m_firstSensor else c) = some p)
    (hping : (s.heap p).m_enabled = true → (s.heap p).m_pingChannel ≠ none) :
    ∃ s1, checkerIter s = .ok s1 ∧ s1.heap = s.heap ∧ s1.m_firstSensor = s.m_firstSensor ∧
      s1.m_automaticEnabled = true ∧ s1.m_task = some (s.heap p).m_nextSensor ∧
      s1.events = s.events ++ turnEvents (s.heap p) := by
  unfold checkerIter
  simp only [htask, hflag, if_true, hvisit]
  cases hen : (s.heap p).m_enabled with
  | false =>
    refine ⟨_, rfl, rfl, rfl, hflag, rfl, ?_⟩
    simp [State.emit, turnEvents, hen]
  | true =>
    cases hch : (s.heap p).m_pingChannel with
    | none => exact absurd hch (hping hen)
    | some ch =>
      have hp : pulsePing p s = .ok (s.emit (Event.pulse ch kPingTime)) := by
        simp [pulsePing, hch]
      simp only [if_true, hp]
      refine ⟨_, rfl, rfl, rfl, hflag, rfl, ?_⟩
      simp [State.emit, turnEvents, hen, hch]

theorem checker_cursor (s : State) (l : List Nat) (hreg : Registry s l) (hne : l ≠ [])
    (hflag : s.m_automaticEnabled = true) (htask : s.m_task = some none)
    (hping : ∀ x, x ∈ l → (s.heap x).m_enabled = true → (s.heap x).m_pingChannel ≠ none) :
    ∀ k, ∃ sk c, UltrasonicChecker k s = .ok sk ∧ sk.heap = s.heap ∧
      sk.m_firstSensor = s.m_firstSensor ∧ sk.m_automaticEnabled = true ∧
      sk.m_task = some c ∧
      (if c = none then s.m_firstSensor else c) = l[k % l.length]? := by
  have hlen : 0 < l.length := List.length_pos.mpr hne
  intro k
  induction k with
  | zero =>
    refine ⟨s, none, rfl, rfl, rfl, hflag, htask, ?_⟩
    simp only [if_true, Nat.zero_mod]
    exact listFrom_head s.heap l _ hreg
  | succ k ih =>
    obtain ⟨sk, c, hrun, hheap, hfirst, hfl, htk, hcur⟩ := ih
    have hlt : k % l.length < l.length := Nat.mod_lt _ hlen
    have hx : l[k % l.length]? = some l[k % l.length] := List.getElem?_eq_getElem hlt
    have hmem : l[k % l.length] ∈ l := List.getElem_mem hlt
    obtain ⟨s1, hit, h1, h2, h3, h4, _⟩ := checkerIter_visit sk c l[k % l.length] htk hfl
      (by rw [hfirst, hcur, hx]) (by rw [hheap]; exact hping _ hmem)
    refine ⟨s1, _, ?_, h1.trans hheap, h2.trans hfirst, h3, h4, ?_⟩
    · rw [UltrasonicChecker_succ k s sk hrun]
      exact hit
    · rw [hheap, listFrom_next s.heap l _ (k % l.length) _ hreg hx]
      have hmod : (k + 1) % l.length = (k % l.length + 1) % l.length :=
        (Nat.mod_add_mod k l.length 1).symm
      by_cases hlast : k % l.length + 1 < l.length
      · rw [hmod, Nat.mod_eq_of_lt hlast]
        have : l[k % l.length + 1]? ≠ none := by
          rw [List.getElem?_eq_getElem hlast]; simp
        simp [this]
      · have heq : k % l.length + 1 = l.length := by omega
        rw [hmod, heq, Nat.mod_self]
        have : l[l.length]? = none := List.getElem?_eq_none (le_refl _)
        simp only [this, if_true]
        exact listFrom_head s.heap l _ hreg

/-- C15: for every state with the flag true whose registry is a list `l` of
one or more sensors (enabled ones with a ping channel) and whose poller task
is at the entry of `UltrasonicChecker`, turn number `k` of the loop handles
the sensor at index `k mod n` of `l`, where `n` is the length of `l`: the
first turn handles the head, turn `k` adds the events of that sensor to the
trace, and the sensors handled in any `n` consecutive turns are `l` rotated,
so each sensor of `l` is handled exactly once in them. -/
theorem poller_round_robin (s : State) (l : List Nat) (hreg : Registry s l) (hne : l ≠ [])
    (hflag : s.m_automaticEnabled = true) (htask : s.m_task = some none)
    (hping : ∀ x, x ∈ l → (s.heap x).m_enabled = true → (s.heap x).m_pingChannel ≠ none) :
    (∀ k, visitAt k s = l[k % l.length]?) ∧
      visitAt 0 s = s.m_firstSensor ∧
      (∀ k x, l[k % l.length]? = some x →
        ∃ sk sk1, UltrasonicChecker k s = .ok sk ∧ UltrasonicChecker (k + 1) s = .ok sk1 ∧
          sk1.events = sk.events ++ turnEvents (s.heap x)) ∧
      (∀ k, (List.range l.length).map (fun i => visitAt (k + i) s) = (l.rotate k).map some) ∧
      (∀ k, (l.rotate k).Perm l ∧ (l.rotate k).Nodup) := by
  have hlen : 0 < l.length := List.length_pos.mpr hne
  have hcur := checker_cursor s l hreg hne hflag htask hping
  have hvisit : ∀ k, visitAt k s = l[k % l.length]? := by
    intro k
    obtain ⟨sk, c, hrun, _, hfirst, hfl, htk, hc⟩ := hcur k
    simp only [visitAt, hrun, checkerVisit, htk, hfl, if_true, hfirst]
    exact hc
  refine ⟨hvisit, ?_, ?_, ?_, ?_⟩
  · rw [hvisit 0, Nat.zero_mod]
    exact (listFrom_head s.heap l _ hreg).symm
  · intro k x hx
    obtain ⟨sk, c, hrun, hheap, hfirst, hfl, htk, hc⟩ := hcur k
    have hlt : k % l.length < l.length := Nat.mod_lt _ hlen
    have hmem : x ∈ l := List.getElem?_mem hx
    obtain ⟨s1, hit, _, _, _, _, hev⟩ := checkerIter_visit sk c x htk hfl
      (by rw [hfirst, hc, hx]) (by rw [hheap]; exact hping _ hmem)
    refine ⟨sk, s1, hrun, ?_, ?_⟩
    · rw [UltrasonicChecker_succ k s sk hrun]
      exact hit
    · rw [hev, hheap]
  · intro k
    apply List.ext_getElem?
    intro i
    by_cases hi : i < l.length
    · rw [List.getElem?_map, List.getElem?_map, List.getElem?_range hi,
        List.getElem?_rotate hi]
      simp only [Option.map_some']
      rw [hvisit, Nat.add_comm k i]
      have hlt : (i + k) % l.length < l.length := Nat.mod_lt _ hlen
      rw [List.getElem?_eq_getElem hlt]
      rfl
    · have h1 : l.length ≤ i := Nat.le_of_not_lt hi
      rw [List.getElem?_eq_none (by simpa using h1),
        List.getElem?_eq_none (by simpa using h1)]
  · intro k
    have hnd : l.Nodup := listFrom_nodup s.heap l _ hreg
    exact ⟨List.rotate_perm l k, List.nodup_rotate.mpr hnd⟩

theorem demoFresh_registry : Registry demoFresh [3, 2, 1] := by
  simp [Registry, ListFrom, demoFresh, demoHeap, demoSensor]

theorem demoHeap_ping (x : Nat) : (demoHeap x).m_pingChannel ≠ none := by
  simp only [demoHeap, demoSensor]
  split_ifs <;> simp

theorem poller_round_robin_witness :
    Registry demoFresh [3, 2, 1] ∧ [3, 2, 1] ≠ [] ∧ demoFresh.m_automaticEnabled = true ∧
      demoFresh.m_task = some none ∧
      (∀ x, x ∈ [3, 2, 1] → (demoFresh.heap x).m_enabled = true →
        (demoFresh.heap x).m_pingChannel ≠ none) ∧
      (∀ k, visitAt k demoFresh = [3, 2, 1][k % [3, 2, 1].length]?) ∧
      visitAt 0 demoFresh = demoFresh.m_firstSensor ∧
      (∀ k x, [3, 2, 1][k % [3, 2, 1].length]? = some x →
        ∃ sk sk1, UltrasonicChecker k demoFresh = .ok sk ∧
          UltrasonicChecker (k + 1) demoFresh = .ok sk1 ∧
          sk1.events = sk.events ++ turnEvents (demoFresh.heap x)) ∧
      (∀ k, (List.range [3, 2, 1].length).map (fun i => visitAt (k + i) demoFresh) =
        ([3, 2, 1].rotate k).map some) ∧
      (∀ k, ([3, 2, 1].rotate k).Perm [3, 2, 1] ∧ ([3, 2, 1].rotate k).Nodup) :=
  ⟨demoFresh_registry, by decide, rfl, rfl, fun x _ _ => demoHeap_ping x,
    poller_round_robin demoFresh [3, 2, 1] demoFresh_registry (by decide) rfl rfl
      (fun x _ _ => demoHeap_ping x)⟩

/-! ## Claim on when the list is changed -/

theorem removeScan_frame (this : Nat) :
    ∀ (f : Nat) (p : Option Nat) (st st1 : State), removeScan f this p st = .ok st1 →
      st1.m_automaticEnabled = st.m_automaticEnabled ∧ st1.m_task = st.m_task ∧
        st1.detached = st.detached ∧ st1.failedAsserts = st.failedAsserts
  | 0, _, _, _, h => by simp [removeScan] at h
  | _ + 1, none, _, _, h => by
    simp only [removeScan] at h
    cases h
    exact ⟨rfl, rfl, rfl, rfl⟩
  | f + 1, some p, st, st1, h => by
    simp only [removeScan] at h
    by_cases hc : (st.heap p).m_nextSensor = some this
    · simp only [hc, if_true] at h
      cases h
      exact ⟨rfl, rfl, rfl, rfl⟩
    · simp only [hc, if_false] at h
      exact removeScan_frame this f _ st st1 h

theorem wpi_assert_task (c : Bool) (site : AssertSite) (s : State) :
    (wpi_assert c site s).m_task = s.m_task := by
  cases c <;> rfl

theorem wpi_assert_detached (c : Bool) (site : AssertSite) (s : State) :
    (wpi_assert c site s).detached = s.detached := by
  cases c <;> rfl

theorem wpi_assert_heap (c : Bool) (site : AssertSite) (s : State) :
    (wpi_assert c site s).heap = s.heap := by
  cases c <;> rfl

theorem wpi_assert_first (c : Bool) (site : AssertSite) (s : State) :
    (wpi_assert c site s).m_firstSensor = s.m_firstSensor := by
  cases c <;> rfl

theorem unlinkLocked_frame (fuel n : Nat) (s s3 : State)
    (hflag : s.m_automaticEnabled = false) (h : unlinkLocked fuel n s = .ok s3) :
    s3.m_automaticEnabled = false ∧ s3.m_task = s.m_task ∧ s3.detached = s.detached := by
  unfold unlinkLocked at h
  by_cases hh : s.m_firstSensor = some n
  · simp only [hh, if_true] at h
    by_cases hnil : (s.heap n).m_nextSensor = none
    · simp only [hnil, if_true] at h
      rw [SetAutomaticMode_same fuel false
        { s with m_firstSensor := none } hflag] at h
      cases h
      exact ⟨hflag, rfl, rfl⟩
    · simp only [hnil, if_false] at h
      cases h
      exact ⟨hflag, rfl, rfl⟩
  · simp only [hh, if_false] at h
    cases hfirst : s.m_firstSensor with
    | none => rw [hfirst] at h; cases h
    | some a =>
      rw [hfirst] at h
      obtain ⟨h1, h2, h3, _⟩ := removeScan_frame n fuel _ _ s3 h
      exact ⟨h1.trans ((wpi_assert_flag _ _ s).trans hflag),
        h2.trans (wpi_assert_task _ _ s), h3.trans (wpi_assert_detached _ _ s)⟩

theorem SetAutomaticMode_false_spec (fuel : Nat) (s : State) (l : List Nat)
    (hreg : Registry s l) (hf : l.length + 2 ≤ fuel)
    (hstopped : s.m_automaticEnabled = false → s.m_task = none) (hdet : s.detached = 0) :
    ∃ s1, Ultrasonic.SetAutomaticMode fuel false s = .ok s1 ∧
      s1.m_automaticEnabled = false ∧ s1.m_task = none ∧ s1.detached = 0 := by
  cases hflag : s.m_automaticEnabled with
  | false => exact ⟨s, SetAutomaticMode_same fuel false s hflag, hflag, hstopped hflag, hdet⟩
  | true =>
    exact ⟨_, SetAutomaticMode_stop fuel s l hflag hreg hf, stopped_flag s l,
      stopped_task s l, (stopped_detached s l).trans hdet⟩

/-! ## Claim on destroying a sensor that is not in the list -/

theorem removeScan_absent (n : Nat) :
    ∀ (l : List Nat) (fuel : Nat) (p : Option Nat) (st : State),
      ListFrom st.heap p l → n ∉ l → l.length < fuel → removeScan fuel n p st = .ok st
  | _, 0, _, _, _, _, hf => by simp at hf
  | [], fuel + 1, p, st, hl, _, _ => by
    have hp : p = none := hl
    subst hp
    simp [removeScan]
  | a :: rest, fuel + 1, p, st, hl, hn, hf => by
    have hp : p = some a := hl.1
    subst hp
    have hnext : (st.heap a).m_nextSensor ≠ some n := by
      intro e
      have h2 := hl.2
      rw [e] at h2
      cases rest with
      | nil => cases h2
      | cons b r =>
        have hb : some n = some b := h2.1
        cases hb
        exact hn (by simp)
    simp only [removeScan, hnext, if_false]
    exact removeScan_absent n rest fuel _ st hl.2
      (fun h => hn (List.mem_cons_of_mem _ h)) (by simpa using hf)

theorem wpi_assert_false (site : AssertSite) (s : State) :
    wpi_assert false site s = { s with failedAsserts := s.failedAsserts ++ [site] } := rfl

theorem wpi_assert_failedAsserts (c : Bool) (site : AssertSite) (s : State) :
    (wpi_assert c site s).failedAsserts = s.failedAsserts ++ (if c then [] else [site]) := by
  cases c <;> simp [wpi_assert]

theorem registry_wpi_assert (c : Bool) (site : AssertSite) (s : State) (l : List Nat)
    (h : Registry s l) : Registry (wpi_assert c site s) l := by
  cases c
  · exact h
  · exact h

theorem unlinkLocked_absent (fuel n a : Nat) (s : State) (rest : List Nat)
    (hreg : Registry s (a :: rest)) (hn : n ∉ a :: rest) (hf : rest.length + 1 < fuel) :
    unlinkLocked fuel n s =
      .ok (wpi_assert (decide (rest ≠ [])) AssertSite.dtorHeadHasNext s) := by
  have hfirst : s.m_firstSensor = some a := hreg.1
  have hne : ¬ (some a = some n) := by
    intro e
    cases e
    exact hn (by simp)
  have hcond : ((s.heap a).m_nextSensor != none) = decide (rest ≠ []) := by
    cases rest with
    | nil =>
      have : (s.heap a).m_nextSensor = none := hreg.2
      simp [this]
    | cons b r =>
      have : (s.heap a).m_nextSensor = some b := hreg.2.1
      simp [this]
  unfold unlinkLocked
  simp only [hfirst, hne, if_false, hcond]
  have hreg2 : ListFrom (wpi_assert (decide (rest ≠ [])) AssertSite.dtorHeadHasNext s).heap
      (some a) (a :: rest) := by
    rw [wpi_assert_heap]
    exact ⟨rfl, hreg.2⟩
  exact removeScan_absent n (a :: rest) fuel _ _ hreg2 hn (by simpa using hf)

theorem destroy_absent_off (fuel n a : Nat) (s : State) (rest : List Nat)
    (hreg : Registry s (a :: rest)) (hn : n ∉ a :: rest) (hf : rest.length + 1 < fuel)
    (hflag : s.m_automaticEnabled = false) :
    Ultrasonic.destroy fuel n s =
      .ok (wpi_assert (decide (rest ≠ [])) AssertSite.dtorHeadHasNext s) := by
  have hassert : (s.m_firstSensor != none) = true := by
    have : s.m_firstSensor = some a := hreg.1
    simp [this]
  unfold Ultrasonic.destroy
  simp only [SetAutomaticMode_same fuel false s hflag, hassert, wpi_assert_true,
    unlinkLocked_absent fuel n a s rest hreg hn hf, hflag, Bool.and_false,
    Bool.false_eq_true, if_false]

theorem destroy_absent_on (fuel n a : Nat) (s : State) (rest : List Nat)
    (hreg : Registry s (a :: rest)) (hn : n ∉ a :: rest) (hf : rest.length + 3 ≤ fuel)
    (hflag : s.m_automaticEnabled = true) :
    Ultrasonic.destroy fuel n s =
      .ok ((wpi_assert (decide (rest ≠ [])) AssertSite.dtorHeadHasNext
        (s.stopped (a :: rest))).started (a :: rest)) := by
  have hreg0 : Registry (s.stopped (a :: rest)) (a :: rest) := registry_stopped s _ _ hreg
  have hassert : ((s.stopped (a :: rest)).m_firstSensor != none) = true := by
    have : (s.stopped (a :: rest)).m_firstSensor = some a := hreg0.1
    simp [this]
  have hfirst2 : ((wpi_assert (decide (rest ≠ [])) AssertSite.dtorHeadHasNext
      (s.stopped (a :: rest))).m_firstSensor != none) = true := by
    rw [wpi_assert_first]
    exact hassert
  unfold Ultrasonic.destroy
  simp only [SetAutomaticMode_stop fuel s (a :: rest) hflag hreg (by simpa using hf), hassert,
    wpi_assert_true, unlinkLocked_absent fuel n a _ rest hreg0 hn (by omega), hflag,
    Bool.and_true, hfirst2, if_true]
  exact SetAutomaticMode_start fuel _ (a :: rest)
    ((wpi_assert_flag _ _ _).trans (stopped_flag s _))
    ((wpi_assert_task _ _ _).trans (stopped_task s _))
    (registry_wpi_assert _ _ _ _ hreg0) (by simp; omega)

theorem destroy_empty (fuel n : Nat) (s : State) (hreg : Registry s []) (hf : 2 ≤ fuel) :
    ∃ s0, Ultrasonic.SetAutomaticMode fuel false s = .ok s0 ∧ s0.m_firstSensor = none ∧
      Ultrasonic.destroy fuel n s = .error Fault.nullDeref := by
  have key : ∀ s0 : State, Ultrasonic.SetAutomaticMode fuel false s = .ok s0 →
      s0.m_firstSensor = none → Ultrasonic.destroy fuel n s = .error Fault.nullDeref := by
    intro s0 hrun hnone
    have hne : ¬ (none = some n) := by simp
    unfold Ultrasonic.destroy
    simp only [hrun]
    unfold unlinkLocked
    simp only [wpi_assert_first, hnone, hne, if_false]
  cases hflag : s.m_automaticEnabled with
  | false =>
    have hrun := SetAutomaticMode_same fuel false s hflag
    exact ⟨s, hrun, hreg, key s hrun hreg⟩
  | true =>
    have hrun := SetAutomaticMode_stop fuel s [] hflag hreg (by simpa using hf)
    have hnone : (s.stopped []).m_firstSensor = none := registry_stopped s [] [] hreg
    exact ⟨_, hrun, hnone, key _ hrun hnone⟩

/-- C19, amended: for every state whose registry is `l` and every object `n`
that is not in `l`, the destructor of `n` fails the assertion
`m_firstSensor != nullptr` when `l` is empty (and then dereferences the null
head pointer), fails the assertion `m_firstSensor->m_nextSensor != nullptr`
when `l` has exactly one sensor, and fails no assertion when `l` has two or
more sensors; whenever it returns it leaves the registry as it was. -/
theorem destroy_of_absent_sensor (fuel n : Nat) (s : State) (l : List Nat)
    (hreg : Registry s l) (hn : n ∉ l) (hf : l.length + 2 ≤ fuel) :
    (l = [] → ∃ s0, Ultrasonic.SetAutomaticMode fuel false s = .ok s0 ∧
        (wpi_assert (s0.m_firstSensor != none) AssertSite.dtorFirstSensorNotNull
            s0).failedAsserts = s0.failedAsserts ++ [AssertSite.dtorFirstSensorNotNull] ∧
        Ultrasonic.destroy fuel n s = .error Fault.nullDeref) ∧
      (l.length = 1 → ∃ s1, Ultrasonic.destroy fuel n s = .ok s1 ∧
        s1.failedAsserts = s.failedAsserts ++ [AssertSite.dtorHeadHasNext] ∧
        Registry s1 l) ∧
      (2 ≤ l.length → ∃ s1, Ultrasonic.destroy fuel n s = .ok s1 ∧
        s1.failedAsserts = s.failedAsserts ∧ Registry s1 l) := by
  refine ⟨?_, ?_, ?_⟩
  · intro hnil
    subst hnil
    obtain ⟨s0, hrun, hnone, hd⟩ := destroy_empty fuel n s hreg (by simpa using hf)
    refine ⟨s0, hrun, ?_, hd⟩
    simp [hnone, wpi_assert]
  · intro hlen
    match l, hreg, hn, hf, hlen with
    | [a], hreg, hn, hf, _ =>
      cases hflag : s.m_automaticEnabled with
      | false =>
        refine ⟨_, destroy_absent_off fuel n a s [] hreg hn (by simp at hf ⊢; omega) hflag,
          ?_, ?_⟩
        · simp [wpi_assert]
        · exact registry_wpi_assert _ _ _ _ hreg
      | true =>
        refine ⟨_, destroy_absent_on fuel n a s [] hreg hn (by simp at hf ⊢; omega) hflag,
          ?_, ?_⟩
        · rw [started_failedAsserts, wpi_assert_failedAsserts, stopped_failedAsserts]
          simp
        · exact registry_started _ _ _ (registry_wpi_assert _ _ _ _
            (registry_stopped s _ _ hreg))
  · intro hlen
    match l, hreg, hn, hf, hlen with
    | a :: b :: r, hreg, hn, hf, _ =>
      cases hflag : s.m_automaticEnabled with
      | false =>
        refine ⟨_, destroy_absent_off fuel n a s (b :: r) hreg hn
          (by simp at hf ⊢; omega) hflag, ?_, ?_⟩
        · simp [wpi_assert]
        · exact registry_wpi_assert _ _ _ _ hreg
      | true =>
        refine ⟨_, destroy_absent_on fuel n a s (b :: r) hreg hn
          (by simp at hf ⊢; omega) hflag, ?_, ?_⟩
        · rw [started_failedAsserts, wpi_assert_failedAsserts, stopped_failedAsserts]
          simp
        · exact registry_started _ _ _ (registry_wpi_assert _ _ _ _
            (registry_stopped s _ _ hreg))

theorem destroy_of_absent_sensor_witness :
    Registry demoStopped [3, 2, 1] ∧ 7 ∉ [3, 2, 1] ∧ [3, 2, 1].length + 2 ≤ 5 ∧
      ([3, 2, 1] = [] → ∃ s0, Ultrasonic.SetAutomaticMode 5 false demoStopped = .ok s0 ∧
          (wpi_assert (s0.m_firstSensor != none) AssertSite.dtorFirstSensorNotNull
              s0).failedAsserts = s0.failedAsserts ++ [AssertSite.dtorFirstSensorNotNull] ∧
          Ultrasonic.destroy 5 7 demoStopped = .error Fault.nullDeref) ∧
        ([3, 2, 1].length = 1 → ∃ s1, Ultrasonic.destroy 5 7 demoStopped = .ok s1 ∧
          s1.failedAsserts = demoStopped.failedAsserts ++ [AssertSite.dtorHeadHasNext] ∧
          Registry s1 [3, 2, 1]) ∧
        (2 ≤ [3, 2, 1].length → ∃ s1, Ultrasonic.destroy 5 7 demoStopped = .ok s1 ∧
          s1.failedAsserts = demoStopped.failedAsserts ∧ Registry s1 [3, 2, 1]) :=
  ⟨demoStopped_registry, by decide, by decide,
    destroy_of_absent_sensor 5 7 demoStopped [3, 2, 1] demoStopped_registry (by decide)
      (by decide)⟩

/-- C19 fails as stated: the registry of `demoStopped` holds the three
sensors 3, 2, 1 and not the object 7, yet the destructor of 7 returns with
the state unchanged and with no failed assertion in the log. -/
theorem destroy_of_absent_sensor_counterexample :
    Registry demoStopped [3, 2, 1] ∧ 7 ∉ [3, 2, 1] ∧
      Ultrasonic.destroy 5 7 demoStopped = .ok demoStopped ∧
      demoStopped.failedAsserts = [] :=
  ⟨demoStopped_registry, by decide,
    destroy_absent_off 5 7 3 demoStopped [2, 1] demoStopped_registry (by decide) (by decide)
      rfl,
    rfl⟩

/-! ## Claim on which sensors are linked -/

theorem core_stopped {regs : List Nat} {s : State} (l : List Nat) (h : InvCore regs s) :
    InvCore regs (s.stopped l) :=
  { registry := registry_stopped s l regs h.registry
    detached := (stopped_detached s l).trans h.detached
    stopped := fun _ => stopped_task s l }

theorem core_started {regs : List Nat} {s : State} (l : List Nat) (h : InvCore regs s)
    (htask : s.m_task = none) : InvCore regs (s.started l) :=
  { registry := registry_started s l regs h.registry
    detached := (started_detached s l htask).trans h.detached
    stopped := fun hf => by simp [started_flag] at hf }

theorem core_setAutomaticMode {regs : List Nat} {s s1 : State} (fuel : Nat) (b : Bool)
    (h : InvCore regs s) (hrun : Ultrasonic.SetAutomaticMode fuel b s = .ok s1) :
    InvCore regs s1 := by
  have hbig := SetAutomaticMode_mono fuel (max fuel (regs.length + 2)) b s s1
    (le_max_left _ _) hrun
  by_cases hb : s.m_automaticEnabled = b
  · rw [SetAutomaticMode_same _ _ _ hb] at hbig
    cases hbig
    exact h
  · cases b with
    | true =>
      have hflag : s.m_automaticEnabled = false := by simpa using hb
      rw [SetAutomaticMode_start _ s regs hflag (h.stopped hflag) h.registry
        (by have := le_max_right fuel (regs.length + 2); omega)] at hbig
      cases hbig
      exact core_started regs h (h.stopped hflag)
    | false =>
      have hflag : s.m_automaticEnabled = true := by simpa using hb
      rw [SetAutomaticMode_stop _ s regs hflag h.registry (le_max_right _ _)] at hbig
      cases hbig
      exact core_stopped regs h

theorem core_linkFirst {regs : List Nat} {s : State} (n : Nat) (h : InvCore regs s)
    (hn : n ∉ regs) : InvCore (n :: regs) (s.linkFirst n) :=
  { registry := registry_linkFirst s regs n h.registry hn
    detached := h.detached
    stopped := h.stopped }

theorem core_initializeStep {regs : List Nat} {s s1 : State} (fuel n : Nat) (h : InvCore regs s)
    (hn : n ∉ regs) (hrun : Ultrasonic.Initialize fuel n s = .ok s1) :
    InvCore (n :: regs) s1 := by
  rw [Initialize_eq] at hrun
  cases h1 : Ultrasonic.SetAutomaticMode fuel false s with
  | error e => rw [h1] at hrun; cases hrun
  | ok sa =>
    rw [h1] at hrun
    simp only at hrun
    have ha : InvCore (n :: regs) (sa.linkFirst n) :=
      core_linkFirst n (core_setAutomaticMode fuel false h h1) hn
    cases h2 : Ultrasonic.SetAutomaticMode fuel s.m_automaticEnabled (sa.linkFirst n) with
    | error e => rw [h2] at hrun; cases hrun
    | ok s6 =>
      rw [h2] at hrun
      simp only at hrun
      have h6 : InvCore (n :: regs) s6 := core_setAutomaticMode fuel _ ha h2
      cases he : (s6.heap n).m_echoChannel with
      | none => rw [he] at hrun; cases hrun
      | some e =>
        rw [he] at hrun
        cases hrun
        exact ⟨h6.registry, h6.detached, h6.stopped⟩

theorem core_store_links {regs : List Nat} {s : State} (n : Nat) (u : Ultrasonic)
    (h : InvCore regs s) (hu : u.m_nextSensor = (s.heap n).m_nextSensor) :
    InvCore regs (s.store n u) :=
  { registry := by
      refine listFrom_congr s.heap _ regs _ (fun a _ => ?_) h.registry
      by_cases ha : a = n
      · subst ha; simp [State.store, hu]
      · simp [State.store, Function.update_noteq ha]
    detached := h.detached
    stopped := h.stopped }

theorem core_memberInit {regs : List Nat} {s : State} (n : Nat) (p e : Option Nat)
    (u : DistanceUnit) (h : InvCore regs s) : InvCore regs (s.memberInit n p e u) :=
  core_store_links n _ (core_store_links n _ h rfl) rfl

theorem core_unlinked {regs l : List Nat} {s t : State} {n : Nat} (h : InvCore regs s)
    (hun : Unlinked s t n) (hreg : Registry t l) : InvCore l t :=
  { registry := hreg
    detached := hun.detached.trans h.detached
    stopped := fun hf => hun.task.trans (h.stopped (hun.flag.symm.trans hf)) }

theorem core_destroy {regs : List Nat} {s s1 : State} (fuel n : Nat) (h : InvCore regs s)
    (hn : n ∈ regs) (hrun : Ultrasonic.destroy fuel n s = .ok s1) :
    InvCore (regs.erase n) s1 := by
  have hbig := destroy_mono fuel (max fuel (regs.length + 2)) n s s1 (le_max_left _ _) hrun
  cases hflag : s.m_automaticEnabled with
  | false =>
    obtain ⟨t, ht, hun, hreg⟩ :=
      destroy_off (max fuel (regs.length + 2)) n s regs h.registry hn hflag (le_max_right _ _)
    rw [ht] at hbig
    cases hbig
    exact core_unlinked h hun hreg
  | true =>
    obtain ⟨t, hun, hreg, ht⟩ :=
      destroy_on (max fuel (regs.length + 2)) n s regs h.registry hn hflag (le_max_right _ _)
    rw [ht] at hbig
    cases hbig
    have hinv : InvCore (regs.erase n) t := core_unlinked (core_stopped regs h) hun hreg
    split
    · exact hinv
    · exact core_started _ hinv (hun.task.trans (stopped_task s regs))

theorem core_wpi_assert {regs : List Nat} {s : State} (c : Bool) (site : AssertSite)
    (h : InvCore regs s) : InvCore regs (wpi_assert c site s) := by
  cases c
  · exact ⟨h.registry, h.detached, h.stopped⟩
  · exact h

theorem core_destroy_absent {regs : List Nat} {s s1 : State} (fuel n : Nat)
    (h : InvCore regs s) (hn : n ∉ regs) (hrun : Ultrasonic.destroy fuel n s = .ok s1) :
    InvCore regs s1 := by
  have hbig := destroy_mono fuel (max fuel (regs.length + 2)) n s s1 (le_max_left _ _) hrun
  have hF : regs.length + 2 ≤ max fuel (regs.length + 2) := le_max_right _ _
  cases regs with
  | nil =>
    obtain ⟨_, _, _, hd⟩ := destroy_empty (max fuel 2) n s h.registry (le_max_right _ _)
    have hbig2 : Ultrasonic.destroy (max fuel 2) n s = .ok s1 := by simpa using hbig
    rw [hd] at hbig2
    cases hbig2
  | cons a rest =>
    cases hflag : s.m_automaticEnabled with
    | false =>
      rw [destroy_absent_off _ n a s rest h.registry hn
        (by simp only [List.length_cons] at hF ⊢; omega) hflag] at hbig
      cases hbig
      exact core_wpi_assert _ _ h
    | true =>
      rw [destroy_absent_on _ n a s rest h.registry hn
        (by simp only [List.length_cons] at hF ⊢; omega) hflag] at hbig
      cases hbig
      exact core_started _ (core_wpi_assert _ _ (core_stopped _ h))
        ((wpi_assert_task _ _ _).trans (stopped_task s _))

theorem core_ping {regs : List Nat} {s s1 : State} (n : Nat) (h : InvCore regs s)
    (hrun : Ultrasonic.Ping n s = .ok s1) : InvCore regs s1 := by
  cases hping : (s.heap n).m_pingChannel with
  | none => rw [Ping_null n s hping] at hrun; cases hrun
  | some c =>
    rw [Ping_eq n c s hping] at hrun
    cases hrun
    have h1 : InvCore regs (wpi_assert (!s.m_automaticEnabled) AssertSite.pingNotAutomatic s) :=
      core_wpi_assert _ _ h
    have h2 := core_store_links n
      { (wpi_assert (!s.m_automaticEnabled) AssertSite.pingNotAutomatic s).heap n with
        m_counter := ((wpi_assert (!s.m_automaticEnabled) AssertSite.pingNotAutomatic s).heap
          n).m_counter.Reset } h1 rfl
    exact ⟨h2.registry, h2.detached, h2.stopped⟩

theorem core_poll {regs : List Nat} {s s1 : State} (h : InvCore regs s)
    (hrun : checkerIter s = .ok s1) : InvCore regs s1 := by
  obtain ⟨h1, h2, h3, h4, _, _, h7⟩ := checkerIter_frame s s1 hrun
  refine ⟨?_, h4.trans h.detached, ?_⟩
  · unfold Registry
    rw [h1, h2]
    exact h.registry
  · intro hf
    have hf2 : s.m_automaticEnabled = false := h3.symm.trans hf
    exact h7 hf2 (h.stopped hf2)

theorem constructPtr_null (fuel n : Nat) (p e : Option Nat) (u : DistanceUnit) (s : State)
    (hnull : p = none ∨ e = none) :
    Ultrasonic.constructPtr fuel n p e u s = .ok (s.initList n p e) := by
  simp [Ultrasonic.constructPtr, hnull]

theorem constructPtr_valid (fuel n p e : Nat) (u : DistanceUnit) (s : State) :
    Ultrasonic.constructPtr fuel n (some p) (some e) u s =
      Ultrasonic.Initialize fuel n (s.memberInit n (some p) (some e) u) := by
  simp [Ultrasonic.constructPtr, State.memberInit, State.initList]

theorem reachAll_core {regs unregs : List Nat} {s : State} (h : ReachAll regs unregs s) :
    InvCore regs s ∧ ∀ x, x ∈ unregs → x ∉ regs := by
  induction h with
  | init h => exact ⟨⟨rfl, rfl, fun _ => rfl⟩, fun x hx => by simp at hx⟩
  | construct fuel n p e u _ hn hn2 hrun ih =>
    refine ⟨core_initializeStep fuel n (core_memberInit n _ _ u ih.1) hn hrun, ?_⟩
    intro x hx hmem
    rcases List.mem_cons.mp hmem with rfl | h2
    · exact hn2 hx
    · exact ih.2 x hx h2
  | constructPtr fuel n p e u _ hn hn2 hrun ih =>
    rw [constructPtr_valid] at hrun
    refine ⟨core_initializeStep fuel n (core_memberInit n _ _ u ih.1) hn hrun, ?_⟩
    intro x hx hmem
    rcases List.mem_cons.mp hmem with rfl | h2
    · exact hn2 hx
    · exact ih.2 x hx h2
  | constructPtrNull fuel n p e u _ hn hn2 hnull hrun ih =>
    rw [constructPtr_null fuel n p e u _ hnull] at hrun
    cases hrun
    refine ⟨core_store_links n _ ih.1 rfl, ?_⟩
    intro x hx
    rcases List.mem_cons.mp hx with rfl | h2
    · exact hn
    · exact ih.2 x h2
  | constructRef fuel n p e u _ hn hn2 hrun ih =>
    refine ⟨core_initializeStep fuel n (core_memberInit n _ _ u ih.1) hn hrun, ?_⟩
    intro x hx hmem
    rcases List.mem_cons.mp hmem with rfl | h2
    · exact hn2 hx
    · exact ih.2 x hx h2
  | constructShared fuel n p e u _ hn hn2 hrun ih =>
    refine ⟨core_initializeStep fuel n (core_memberInit n _ _ u ih.1) hn hrun, ?_⟩
    intro x hx hmem
    rcases List.mem_cons.mp hmem with rfl | h2
    · exact hn2 hx
    · exact ih.2 x hx h2
  | destroy fuel n _ hn hrun ih =>
    exact ⟨core_destroy fuel n ih.1 hn hrun,
      fun x hx hmem => ih.2 x hx (List.mem_of_mem_erase hmem)⟩
  | destroyUnregistered fuel n _ hn hrun ih =>
    exact ⟨core_destroy_absent fuel n ih.1 (ih.2 n hn) hrun,
      fun x hx => ih.2 x (List.mem_of_mem_erase hx)⟩
  | setAutomaticMode fuel b _ hrun ih => exact ⟨core_setAutomaticMode fuel b ih.1 hrun, ih.2⟩
  | ping n _ _ hrun ih => exact ⟨core_ping n ih.1 hrun, ih.2⟩
  | poll _ hrun ih => exact ⟨core_poll ih.1 hrun, ih.2⟩

theorem linked_iff_registry (s : State) (l : List Nat) (h : Registry s l) (x : Nat) :
    Linked s x ↔ x ∈ l := by
  constructor
  · rintro ⟨l2, h2, hx⟩
    rw [listFrom_unique s.heap l l2 _ h h2]
    exact hx
  · intro hx
    exact ⟨l, h, hx⟩

theorem demoNull_reach : ReachAll [] [1] demoNull :=
  ReachAll.constructPtrNull 0 1 none (some 11) DistanceUnit.kInches
    (ReachAll.init demoHeap) (by decide) (by decide) (Or.inl rfl)
    (constructPtr_null 0 1 none (some 11) DistanceUnit.kInches _ (Or.inl rfl))

theorem demoMixed_reach : ReachAll [1] [2] demoMixed :=
  ReachAll.constructPtrNull 0 2 none (some 21) DistanceUnit.kInches
    (ReachAll.construct 2 1 10 11 DistanceUnit.kInches (ReachAll.init demoHeap)
      (by decide) (by decide) (Initialize_off 2 1 _ 11 rfl (by rfl)))
    (by decide) (by decide) (Or.inl rfl)
    (constructPtr_null 0 2 none (some 21) DistanceUnit.kInches _ (Or.inl rfl))

/-- C18, amended: in every state reached from program start by constructions
with any of the four constructors, destructions of live sensors,
`SetAutomaticMode` calls, pings and poller turns, a sensor is reachable from
the registry head if and only if it is live and its constructor ran
`Initialize`; a live sensor built by the raw-pointer constructor with a null
ping or echo channel is not reachable from the head. -/
theorem linked_iff_registered (regs unregs : List Nat) (s : State)
    (h : ReachAll regs unregs s) :
    (∀ x, Linked s x ↔ x ∈ regs) ∧ (∀ x, x ∈ unregs → ¬ Linked s x) ∧
      regs.Nodup := by
  obtain ⟨hcore, hdisj⟩ := reachAll_core h
  refine ⟨linked_iff_registry s regs hcore.registry, ?_,
    listFrom_nodup s.heap regs _ hcore.registry⟩
  intro x hx hl
  exact hdisj x hx ((linked_iff_registry s regs hcore.registry x).mp hl)

theorem linked_iff_registered_witness :
    ReachAll [1] [2] demoMixed ∧
      (∀ x, Linked demoMixed x ↔ x ∈ [1]) ∧ (∀ x, x ∈ [2] → ¬ Linked demoMixed x) ∧
      [1].Nodup :=
  ⟨demoMixed_reach, linked_iff_registered [1] [2] demoMixed demoMixed_reach⟩

/-- C18 fails as stated: after the raw-pointer constructor has been called
at program start for the object 1 with a null ping channel, the sensor 1 is
live in a reachable state and is not reachable from the registry head. -/
theorem linked_iff_live_counterexample :
    ReachAll [] [1] demoNull ∧ 1 ∈ ([] : List Nat) ++ [1] ∧ ¬ Linked demoNull 1 := by
  refine ⟨demoNull_reach, by decide, ?_⟩
  rintro ⟨l, hreg, hmem⟩
  have hnil : l = [] := (registry_nil_iff demoNull l hreg).mp rfl
  subst hnil
  simp at hmem

/-! ## Claim on the global error -/

/-- C20: for `SetError` with a nonzero code, `SetWPIError`, `SetErrnoError`
and `SetImaqError` with `success <= 0`, on every object and in every error
state: if the code of the global error is nonzero before the call the global
error is unchanged by the call, and if it is zero the global error after the
call equals the error that the call has set on the object. -/
theorem global_error_keeps_first (st : ErrorState) (this : Nat) (code success errNo : Int)
    (describe : Int → String → String) (errorMessage contextMessage filename function : String)
    (lineNumber : Nat) :
    (code ≠ 0 →
      (st._globalError.GetCode ≠ 0 →
        (ErrorBase.SetError this code contextMessage filename function lineNumber
          st)._globalError = st._globalError) ∧
      (st._globalError.GetCode = 0 →
        (ErrorBase.SetError this code contextMessage filename function lineNumber
          st)._globalError =
        (ErrorBase.SetError this code contextMessage filename function lineNumber
          st).m_error this)) ∧
    ((st._globalError.GetCode ≠ 0 →
        (ErrorBase.SetWPIError this errorMessage code contextMessage filename function
          lineNumber st)._globalError = st._globalError) ∧
      (st._globalError.GetCode = 0 →
        (ErrorBase.SetWPIError this errorMessage code contextMessage filename function
          lineNumber st)._globalError =
        (ErrorBase.SetWPIError this errorMessage code contextMessage filename function
          lineNumber st).m_error this)) ∧
    ((st._globalError.GetCode ≠ 0 →
        (ErrorBase.SetErrnoError errNo describe this contextMessage filename function
          lineNumber st)._globalError = st._globalError) ∧
      (st._globalError.GetCode = 0 →
        (ErrorBase.SetErrnoError errNo describe this contextMessage filename function
          lineNumber st)._globalError =
        (ErrorBase.SetErrnoError errNo describe this contextMessage filename function
          lineNumber st).m_error this)) ∧
    (success ≤ 0 →
      (st._globalError.GetCode ≠ 0 →
        (ErrorBase.SetImaqError this success contextMessage filename function lineNumber
          st)._globalError = st._globalError) ∧
      (st._globalError.GetCode = 0 →
        (ErrorBase.SetImaqError this success contextMessage filename function lineNumber
          st)._globalError =
        (ErrorBase.SetImaqError this success contextMessage filename function lineNumber
          st).m_error this)) := by
  refine ⟨?_, ?_, ?_, ?_⟩
  · intro hc
    constructor <;> intro hg <;> simp [ErrorBase.SetError, hc, hg, Error.Clone]
  · constructor <;> intro hg <;> simp [ErrorBase.SetWPIError, hg, Error.Clone]
  · constructor <;> intro hg <;> simp [ErrorBase.SetErrnoError, hg, Error.Clone]
  · intro hs
    constructor <;> intro hg <;> simp [ErrorBase.SetImaqError, hs, hg, Error.Clone]

theorem global_error_keeps_first_witness :
    (-5 : Int) ≠ 0 ∧ demoNoError._globalError.GetCode = 0 ∧
      (ErrorBase.SetError 1 (-5) "context" "Sensor.cpp" "Get" 10 demoNoError)._globalError =
        (ErrorBase.SetError 1 (-5) "context" "Sensor.cpp" "Get" 10 demoNoError).m_error 1 :=
  ⟨by decide, rfl,
    ((global_error_keeps_first demoNoError 1 (-5) 0 0 (fun _ m => m) "NullParameter"
      "context" "Sensor.cpp" "Get" 10).1 (by decide)).2 rfl⟩

/-! ## Claims on what the poll loop changes and pulses -/

theorem UltrasonicChecker_frame :
    ∀ (k : Nat) (s sk : State), UltrasonicChecker k s = .ok sk →
      sk.heap = s.heap ∧ sk.m_firstSensor = s.m_firstSensor ∧
        sk.m_automaticEnabled = s.m_automaticEnabled ∧ sk.detached = s.detached ∧
        sk.failedAsserts = s.failedAsserts ∧ sk.instances = s.instances
  | 0, s, sk, h => by
    simp only [UltrasonicChecker] at h
    cases h
    exact ⟨rfl, rfl, rfl, rfl, rfl, rfl⟩
  | k + 1, s, sk, h => by
    simp only [UltrasonicChecker] at h
    cases hc : checkerIter s with
    | error e => rw [hc] at h; cases h
    | ok s1 =>
      rw [hc] at h
      obtain ⟨a1, a2, a3, a4, a5, a6, _⟩ := checkerIter_frame s s1 hc
      obtain ⟨b1, b2, b3, b4, b5, b6⟩ := UltrasonicChecker_frame k s1 sk h
      exact ⟨b1.trans a1, b2.trans a2, b3.trans a3, b4.trans a4, b5.trans a5, b6.trans a6⟩

theorem UltrasonicChecker_trace :
    ∀ (k : Nat) (s : State),
      (∀ x, (s.heap x).m_enabled = true → (s.heap x).m_pingChannel ≠ none) →
      ∃ sk tr, UltrasonicChecker k s = .ok sk ∧ sk.events = s.events ++ tr ∧
        pollTurns tr = true
  | 0, s, _ => ⟨s, [], rfl, by simp, rfl⟩
  | k + 1, s, hp => by
    obtain ⟨s1, blk, hrun, hev, hheap, hblk⟩ := checkerIter_turn s hp
    obtain ⟨sk, tr, hrun2, hev2, htr⟩ := UltrasonicChecker_trace k s1 (by rw [hheap]; exact hp)
    refine ⟨sk, blk ++ tr, ?_, ?_, ?_⟩
    · simp only [UltrasonicChecker, hrun]
      exact hrun2
    · rw [hev2, hev, List.append_assoc]
    · rcases hblk with rfl | rfl | ⟨ch, rfl⟩
      · simpa using htr
      · simp [pollTurns, htr]
      · simp [pollTurns, htr]

/-- C24: for every state, whatever the list (an enabled sensor has a ping
channel), any number of turns of the poll loop returns and leaves the whole
object heap, the head pointer and the automatic-mode flag as they were, and
with them the registry, every `m_nextSensor` link and every enabled flag and
units; the task count, the assertion log and the instance counter are
unchanged too, and the events added to the trace are pulses each followed by
`Wait(0.1)`, and waits.  Whenever a run of the loop returns, with or without
ping channels, the same fields are unchanged. -/
theorem poll_loop_never_mutates_registry (k : Nat) (s : State)
    (hping : ∀ x, (s.heap x).m_enabled = true → (s.heap x).m_pingChannel ≠ none) :
    (∃ sk tr, UltrasonicChecker k s = .ok sk ∧
        sk.heap = s.heap ∧ sk.m_firstSensor = s.m_firstSensor ∧
        sk.m_automaticEnabled = s.m_automaticEnabled ∧
        (∀ l, Registry s l → Registry sk l) ∧
        (∀ i, (sk.heap i).m_nextSensor = (s.heap i).m_nextSensor ∧
          (sk.heap i).m_enabled = (s.heap i).m_enabled ∧
          (sk.heap i).m_units = (s.heap i).m_units) ∧
        sk.detached = s.detached ∧ sk.failedAsserts = s.failedAsserts ∧
        sk.instances = s.instances ∧
        sk.events = s.events ++ tr ∧ pollTurns tr = true) ∧
      ∀ j t sj, UltrasonicChecker j t = .ok sj →
        sj.heap = t.heap ∧ sj.m_firstSensor = t.m_firstSensor ∧
          sj.m_automaticEnabled = t.m_automaticEnabled := by
  constructor
  · obtain ⟨sk, tr, hrun, hev, htr⟩ := UltrasonicChecker_trace k s hping
    obtain ⟨h1, h2, h3, h4, h5, h6⟩ := UltrasonicChecker_frame k s sk hrun
    refine ⟨sk, tr, hrun, h1, h2, h3, ?_, ?_, h4, h5, h6, hev, htr⟩
    · intro l hl
      unfold Registry
      rw [h1, h2]
      exact hl
    · intro i
      rw [h1]
      exact ⟨rfl, rfl, rfl⟩
  · intro j t sj h
    obtain ⟨h1, h2, h3, _⟩ := UltrasonicChecker_frame j t sj h
    exact ⟨h1, h2, h3⟩

theorem poll_loop_never_mutates_registry_witness :
    (∀ x, (demoRunning.heap x).m_enabled = true →
        (demoRunning.heap x).m_pingChannel ≠ none) ∧
      ∃ sk tr, UltrasonicChecker 5 demoRunning = .ok sk ∧
        sk.heap = demoRunning.heap ∧ sk.m_firstSensor = demoRunning.m_firstSensor ∧
        sk.m_automaticEnabled = demoRunning.m_automaticEnabled ∧
        (∀ l, Registry demoRunning l → Registry sk l) ∧
        (∀ i, (sk.heap i).m_nextSensor = (demoRunning.heap i).m_nextSensor ∧
          (sk.heap i).m_enabled = (demoRunning.heap i).m_enabled ∧
          (sk.heap i).m_units = (demoRunning.heap i).m_units) ∧
        sk.detached = demoRunning.detached ∧ sk.failedAsserts = demoRunning.failedAsserts ∧
        sk.instances = demoRunning.instances ∧
        sk.events = demoRunning.events ++ tr ∧ pollTurns tr = true :=
  ⟨fun x _ => demoHeap_ping x,
    (poll_loop_never_mutates_registry 5 demoRunning (fun x _ => demoHeap_ping x)).1⟩

theorem linkFirst_enabled (s : State) (n : Nat) : ((s.linkFirst n).heap n).m_enabled = true := by
  simp [State.linkFirst]

theorem started_enabled (s : State) (l : List Nat) (i : Nat) :
    ((s.started l).heap i).m_enabled = (s.heap i).m_enabled :=
  resetAll_enabled ({ s with m_automaticEnabled := true } : State) l i

theorem Initialize_enabled (fuel n e : Nat) (s : State) (l : List Nat)
    (hreg : Registry s l) (hn : n ∉ l) (hecho : (s.heap n).m_echoChannel = some e)
    (hf : l.length + 2 ≤ fuel) :
    ∃ s1, Ultrasonic.Initialize fuel n s = .ok s1 ∧ (s1.heap n).m_enabled = true := by
  cases hflag : s.m_automaticEnabled with
  | false => exact ⟨_, Initialize_off fuel n s e hflag hecho, linkFirst_enabled s n⟩
  | true =>
    refine ⟨_, Initialize_on fuel n s l e hflag hreg hn hf hecho, ?_⟩
    exact (started_enabled _ _ n).trans (linkFirst_enabled _ n)

/-- C25: for every state in which the poller thread is in its loop (flag
true) and about to handle the sensor `p`, the turn returns and adds to the
trace a pulse of `kPingTime` on the ping channel of `p` followed by
`Wait(0.1)` when `p` is enabled, and only `Wait(0.1)` when `p` is disabled;
so a pulse is added exactly when `p` is enabled.  And every sensor that
`Initialize` has been run on is enabled when `Initialize` returns. -/
theorem poller_pulses_iff_enabled (s : State) (c : Option Nat) (p ch : Nat)
    (htask : s.m_task = some c) (hflag : s.m_automaticEnabled = true)
    (hvisit : (if c = none then s.m_firstSensor else c) = some p)
    (hch : (s.heap p).m_enabled = true → (s.heap p).m_pingChannel = some ch) :
    (∃ s1 added, checkerIter s = .ok s1 ∧ s1.events = s.events ++ added ∧
        ((s.heap p).m_enabled = true →
          added = [Event.pulse ch kPingTime, Event.wait (1 / 10)]) ∧
        ((s.heap p).m_enabled = false → added = [Event.wait (1 / 10)]) ∧
        ((∃ c2 d, Event.pulse c2 d ∈ added) ↔ (s.heap p).m_enabled = true)) ∧
      ∀ (fuel n e : Nat) (s0 : State) (l : List Nat), Registry s0 l → n ∉ l →
        (s0.heap n).m_echoChannel = some e → l.length + 2 ≤ fuel →
        ∃ s1, Ultrasonic.Initialize fuel n s0 = .ok s1 ∧ (s1.heap n).m_enabled = true := by
  constructor
  · obtain ⟨s1, hrun, _, _, _, _, hev⟩ := checkerIter_visit s c p htask hflag hvisit
      (fun hen => by rw [hch hen]; simp)
    refine ⟨s1, turnEvents (s.heap p), hrun, hev, ?_, ?_, ?_⟩
    · intro hen
      simp [turnEvents, hen, hch hen]
    · intro hen
      simp [turnEvents, hen]
    · cases hen : (s.heap p).m_enabled with
      | false => simp [turnEvents, hen]
      | true => simp [turnEvents, hen, hch hen]
  · intro fuel n e s0 l hreg hn hecho hf
    exact Initialize_enabled fuel n e s0 l hreg hn hecho hf

theorem poller_pulses_iff_enabled_witness :
    demoRunning.m_task = some (some 2) ∧ demoRunning.m_automaticEnabled = true ∧
      (if some 2 = none then demoRunning.m_firstSensor else some 2) = some 2 ∧
      ((demoRunning.heap 2).m_enabled = true → (demoRunning.heap 2).m_pingChannel = some 20) ∧
      ∃ s1 added, checkerIter demoRunning = .ok s1 ∧ s1.events = demoRunning.events ++ added ∧
        ((demoRunning.heap 2).m_enabled = true →
          added = [Event.pulse 20 kPingTime, Event.wait (1 / 10)]) ∧
        ((demoRunning.heap 2).m_enabled = false → added = [Event.wait (1 / 10)]) ∧
        ((∃ c2 d, Event.pulse c2 d ∈ added) ↔ (demoRunning.heap 2).m_enabled = true) :=
  ⟨rfl, rfl, rfl, fun _ => rfl,
    (poller_pulses_iff_enabled demoRunning (some 2) 2 20 rfl rfl rfl (fun _ => rfl)).1⟩

/-! ## Claims on the unit selector and on the assertions of the destructor -/

/-- C26: for every sensor `n`, state and unit `u`, `SetDistanceUnits(u)`
changes nothing but the unit selector of `n`: `GetDistanceUnits()` then
returns `u`, while `IsRangeValid()`, `GetRangeInches()`, `GetRangeMM()`, the
counter, links, channels and enabled flag of `n`, every other object, the
head pointer, the registry, the flag, the task, the trace and the assertion
log are as before; and `PIDGet()` is `GetRangeInches()` when the selector is
`kInches` and `GetRangeMM()` when it is `kMilliMeters`. -/
theorem setDistanceUnits_changes_only_selector (k : Rat) (n : Nat) (u : DistanceUnit)
    (s : State) :
    Ultrasonic.GetDistanceUnits n (Ultrasonic.SetDistanceUnits n u s) = u ∧
      Ultrasonic.IsRangeValid n (Ultrasonic.SetDistanceUnits n u s) =
        Ultrasonic.IsRangeValid n s ∧
      Ultrasonic.GetRangeInches k n (Ultrasonic.SetDistanceUnits n u s) =
        Ultrasonic.GetRangeInches k n s ∧
      Ultrasonic.GetRangeMM k n (Ultrasonic.SetDistanceUnits n u s) =
        Ultrasonic.GetRangeMM k n s ∧
      ((Ultrasonic.SetDistanceUnits n u s).heap n).m_counter = (s.heap n).m_counter ∧
      ((Ultrasonic.SetDistanceUnits n u s).heap n).m_nextSensor = (s.heap n).m_nextSensor ∧
      ((Ultrasonic.SetDistanceUnits n u s).heap n).m_enabled = (s.heap n).m_enabled ∧
      ((Ultrasonic.SetDistanceUnits n u s).heap n).m_pingChannel = (s.heap n).m_pingChannel ∧
      ((Ultrasonic.SetDistanceUnits n u s).heap n).m_echoChannel = (s.heap n).m_echoChannel ∧
      (∀ i, i ≠ n → (Ultrasonic.SetDistanceUnits n u s).heap i = s.heap i) ∧
      (Ultrasonic.SetDistanceUnits n u s).m_firstSensor = s.m_firstSensor ∧
      (∀ l, Registry s l → Registry (Ultrasonic.SetDistanceUnits n u s) l) ∧
      (Ultrasonic.SetDistanceUnits n u s).m_automaticEnabled = s.m_automaticEnabled ∧
      (Ultrasonic.SetDistanceUnits n u s).m_task = s.m_task ∧
      (Ultrasonic.SetDistanceUnits n u s).events = s.events ∧
      (Ultrasonic.SetDistanceUnits n u s).failedAsserts = s.failedAsserts ∧
      ((s.heap n).m_units = DistanceUnit.kInches →
        Ultrasonic.PIDGet k n s = Ultrasonic.GetRangeInches k n s) ∧
      ((s.heap n).m_units = DistanceUnit.kMilliMeters →
        Ultrasonic.PIDGet k n s = Ultrasonic.GetRangeMM k n s) := by
  have hvalid : Ultrasonic.IsRangeValid n (Ultrasonic.SetDistanceUnits n u s) =
      Ultrasonic.IsRangeValid n s := by
    simp [Ultrasonic.IsRangeValid, Ultrasonic.SetDistanceUnits, State.store]
  have hinch : Ultrasonic.GetRangeInches k n (Ultrasonic.SetDistanceUnits n u s) =
      Ultrasonic.GetRangeInches k n s := by
    unfold Ultrasonic.GetRangeInches
    rw [hvalid]
    simp [Ultrasonic.SetDistanceUnits, State.store]
  refine ⟨?_, hvalid, hinch, ?_, ?_, ?_, ?_, ?_, ?_, ?_, rfl, ?_, rfl, rfl, rfl, rfl, ?_, ?_⟩
  · simp [Ultrasonic.GetDistanceUnits, Ultrasonic.SetDistanceUnits, State.store]
  · unfold Ultrasonic.GetRangeMM
    rw [hinch]
  · simp [Ultrasonic.SetDistanceUnits, State.store]
  · simp [Ultrasonic.SetDistanceUnits, State.store]
  · simp [Ultrasonic.SetDistanceUnits, State.store]
  · simp [Ultrasonic.SetDistanceUnits, State.store]
  · simp [Ultrasonic.SetDistanceUnits, State.store]
  · intro i hi
    simp [Ultrasonic.SetDistanceUnits, State.store, Function.update_noteq hi]
  · intro l hl
    refine listFrom_congr s.heap _ l _ (fun a _ => ?_) hl
    by_cases ha : a = n
    · subst ha; simp [Ultrasonic.SetDistanceUnits, State.store]
    · simp [Ultrasonic.SetDistanceUnits, State.store, Function.update_noteq ha]
  · intro hu
    simp [Ultrasonic.PIDGet, hu]
  · intro hu
    simp [Ultrasonic.PIDGet, hu]

theorem setDistanceUnits_changes_only_selector_witness :
    Ultrasonic.GetDistanceUnits 2
        (Ultrasonic.SetDistanceUnits 2 DistanceUnit.kMilliMeters demoStopped) =
        DistanceUnit.kMilliMeters ∧
      Ultrasonic.GetRangeInches 13560 2
          (Ultrasonic.SetDistanceUnits 2 DistanceUnit.kMilliMeters demoStopped) =
        Ultrasonic.GetRangeInches 13560 2 demoStopped ∧
      Ultrasonic.PIDGet 13560 2 demoStopped = Ultrasonic.GetRangeInches 13560 2 demoStopped :=
  ⟨(setDistanceUnits_changes_only_selector 13560 2 DistanceUnit.kMilliMeters demoStopped).1,
    (setDistanceUnits_changes_only_selector 13560 2 DistanceUnit.kMilliMeters
      demoStopped).2.2.1,
    (setDistanceUnits_changes_only_selector 13560 2 DistanceUnit.kMilliMeters
      demoStopped).2.2.2.2.2.2.2.2.2.2.2.2.2.2.2.2.1 rfl⟩

/-- C27: for every state whose registry `l` contains the sensor `n`, neither
assertion of the destructor of `n` fails: in the state left by the leading
`SetAutomaticMode(false)` the head pointer is not null, and when `n` is not
the head the head has a successor; the destructor returns with the assertion
log as it was, and the scan has unlinked `n`, the registry afterwards being
`l` without `n`. -/
theorem destructor_assertions_hold (fuel n : Nat) (s : State) (l : List Nat)
    (hreg : Registry s l) (hn : n ∈ l) (hf : l.length + 2 ≤ fuel) :
    ∃ s0 s1, Ultrasonic.SetAutomaticMode fuel false s = .ok s0 ∧
      s0.m_firstSensor ≠ none ∧
      (∀ f, s0.m_firstSensor = some f → f ≠ n → (s0.heap f).m_nextSensor ≠ none) ∧
      Ultrasonic.destroy fuel n s = .ok s1 ∧ s1.failedAsserts = s.failedAsserts ∧
      Registry s1 (l.erase n) ∧ n ∉ l.erase n := by
  have hnd : l.Nodup := listFrom_nodup s.heap l _ hreg
  have hgone : n ∉ l.erase n := (erase_facts l n hnd hn).1
  have key : ∀ s0 : State, Registry s0 l →
      s0.m_firstSensor ≠ none ∧
        ∀ f, s0.m_firstSensor = some f → f ≠ n → (s0.heap f).m_nextSensor ≠ none := by
    intro s0 h0
    cases l with
    | nil => simp at hn
    | cons a rest =>
      have hfirst : s0.m_firstSensor = some a := h0.1
      refine ⟨by simp [hfirst], ?_⟩
      intro f hf2 hfn
      rw [hfirst] at hf2
      cases hf2
      cases rest with
      | nil =>
        rcases List.mem_cons.mp hn with e | e
        · exact absurd e.symm hfn
        · simp at e
      | cons b r =>
        have : (s0.heap a).m_nextSensor = some b := h0.2.1
        simp [this]
  cases hflag : s.m_automaticEnabled with
  | false =>
    obtain ⟨t, hrun, hun, hregt⟩ := destroy_off fuel n s l hreg hn hflag hf
    obtain ⟨k1, k2⟩ := key s hreg
    exact ⟨s, t, SetAutomaticMode_same fuel false s hflag, k1, k2, hrun, hun.failedAsserts,
      hregt, hgone⟩
  | true =>
    obtain ⟨t, hun, hregt, hrun⟩ := destroy_on fuel n s l hreg hn hflag hf
    obtain ⟨k1, k2⟩ := key (s.stopped l) (registry_stopped s l l hreg)
    refine ⟨s.stopped l, _, SetAutomaticMode_stop fuel s l hflag hreg hf, k1, k2, hrun, ?_, ?_,
      hgone⟩
    · split
      · exact hun.failedAsserts.trans (stopped_failedAsserts s l)
      · exact (started_failedAsserts t _).trans
          (hun.failedAsserts.trans (stopped_failedAsserts s l))
    · split
      · exact hregt
      · exact registry_started _ _ _ hregt

theorem destructor_assertions_hold_witness :
    Registry demoRunning [3, 2, 1] ∧ 1 ∈ [3, 2, 1] ∧ [3, 2, 1].length + 2 ≤ 5 ∧
      ∃ s0 s1, Ultrasonic.SetAutomaticMode 5 false demoRunning = .ok s0 ∧
        s0.m_firstSensor ≠ none ∧
        (∀ f, s0.m_firstSensor = some f → f ≠ 1 → (s0.heap f).m_nextSensor ≠ none) ∧
        Ultrasonic.destroy 5 1 demoRunning = .ok s1 ∧
        s1.failedAsserts = demoRunning.failedAsserts ∧
        Registry s1 ([3, 2, 1].erase 1) ∧ 1 ∉ [3, 2, 1].erase 1 :=
  ⟨demoRunning_registry, by decide, by decide,
    destructor_assertions_hold 5 1 demoRunning [3, 2, 1] demoRunning_registry (by decide)
      (by decide)⟩

/-! ## Claims on a true flag without a task and on Ping ignoring its assertion -/

theorem started_nil_heap (s : State) : (s.started []).heap = s.heap := by
  show (({ s with m_automaticEnabled := true } : State).resetAll []).heap = s.heap
  rw [resetAll_nil]

theorem checkerIter_empty (s : State) (htask : s.m_task = some none)
    (hflag : s.m_automaticEnabled = true) (hfirst : s.m_firstSensor = none) :
    checkerIter s = .ok { s with m_task := none } := by
  simp [checkerIter, htask, hflag, hfirst]

/-- C28: from a stopped state with an empty registry (no task, no stray
poller thread), `SetAutomaticMode(true)` returns, and the first turn of the
poller thread it has started ends the thread without any event: the flag is
then true and no poller task is alive.  `Initialize` run in that state on a
new sensor with a valid echo channel returns with the flag true, a poller
task started and the registry made of that sensor.  Conversely, in every
reachable state in which the flag is false no poller task is alive. -/
theorem flag_true_without_task (fuel n e : Nat) (s : State) (hreg : Registry s [])
    (hflag : s.m_automaticEnabled = false) (htask : s.m_task = none) (hdet : s.detached = 0)
    (hecho : (s.heap n).m_echoChannel = some e) (hf : 2 ≤ fuel) :
    (∃ s1 s2 s3, Ultrasonic.SetAutomaticMode fuel true s = .ok s1 ∧
        checkerIter s1 = .ok s2 ∧ s2.m_automaticEnabled = true ∧ Task.Verify s2 = false ∧
        s2.aliveTasks = 0 ∧ s2.events = s.events ∧
        Ultrasonic.Initialize fuel n s2 = .ok s3 ∧ s3.m_automaticEnabled = true ∧
        s3.m_task = some none ∧ Registry s3 [n]) ∧
      ∀ regs unregs t, ReachAll regs unregs t → t.m_automaticEnabled = false →
        Task.Verify t = false ∧ t.aliveTasks = 0 := by
  constructor
  · have h1 := SetAutomaticMode_start fuel s [] hflag htask hreg (by simp; omega)
    have hfirst : (s.started []).m_firstSensor = none := hreg
    have h2 := checkerIter_empty (s.started []) rfl rfl hfirst
    have hreg2 : Registry ({ s.started [] with m_task := none } : State) [] := hfirst
    have hecho2 : (({ s.started [] with m_task := none } : State).heap n).m_echoChannel
        = some e := by
      show ((s.started []).heap n).m_echoChannel = some e
      rw [started_nil_heap]
      exact hecho
    have h3 := Initialize_on fuel n ({ s.started [] with m_task := none } : State) [] e rfl
      hreg2 (by simp) (by simpa using hf) hecho2
    refine ⟨_, _, _, h1, h2, rfl, rfl, ?_, rfl, h3, rfl, rfl, ?_⟩
    · simp [State.aliveTasks, State.started, Task.start, htask, hdet]
    · exact registry_started _ _ _
        (registry_linkFirst _ [] n (registry_stopped _ [] [] hreg2) (by simp))
  · intro regs unregs t hreach hf2
    have hcore := (reachAll_core hreach).1
    have ht : t.m_task = none := hcore.stopped hf2
    simp [Task.Verify, State.aliveTasks, ht, hcore.detached]

theorem flag_true_without_task_witness :
    Registry (State.initial demoHeap) [] ∧
      (State.initial demoHeap).m_automaticEnabled = false ∧
      (State.initial demoHeap).m_task = none ∧ (State.initial demoHeap).detached = 0 ∧
      ((State.initial demoHeap).heap 1).m_echoChannel = some 11 ∧ 2 ≤ 3 ∧
      ∃ s1 s2 s3, Ultrasonic.SetAutomaticMode 3 true (State.initial demoHeap) = .ok s1 ∧
        checkerIter s1 = .ok s2 ∧ s2.m_automaticEnabled = true ∧ Task.Verify s2 = false ∧
        s2.aliveTasks = 0 ∧ s2.events = (State.initial demoHeap).events ∧
        Ultrasonic.Initialize 3 1 s2 = .ok s3 ∧ s3.m_automaticEnabled = true ∧
        s3.m_task = some none ∧ Registry s3 [1] :=
  ⟨rfl, rfl, rfl, rfl, rfl, by decide,
    (flag_true_without_task 3 1 11 (State.initial demoHeap) rfl rfl rfl rfl rfl
      (by decide)).1⟩

/-- C29: for every sensor `n` with a valid ping channel `c`, a call of
`Ping()` made while the flag is true logs the failed assertion and then goes
on as a call made while the flag is false does: it returns with the counter
of `n` reset (`IsRangeValid()` false) and one pulse of `kPingTime` on `c`
added to the trace, and its result has the same heap, trace, head pointer
and task as the result of the same call with the flag false; the state is
not left as it was. -/
theorem ping_ignores_assertion_outcome (n c : Nat) (s : State)
    (hflag : s.m_automaticEnabled = true) (hping : (s.heap n).m_pingChannel = some c) :
    ∃ s1 t1, Ultrasonic.Ping n s = .ok s1 ∧
      Ultrasonic.Ping n { s with m_automaticEnabled := false } = .ok t1 ∧
      s1.failedAsserts = s.failedAsserts ++ [AssertSite.pingNotAutomatic] ∧
      t1.failedAsserts = s.failedAsserts ∧
      Ultrasonic.IsRangeValid n s1 = false ∧
      s1.events = s.events ++ [Event.pulse c kPingTime] ∧
      s1.heap = t1.heap ∧ s1.events = t1.events ∧ s1.m_firstSensor = t1.m_firstSensor ∧
      s1.m_task = t1.m_task ∧ s1.events ≠ s.events := by
  refine ⟨_, _, Ping_eq n c s hping,
    Ping_eq n c { s with m_automaticEnabled := false } hping, ?_⟩
  simp only [hflag, Bool.not_true, Bool.not_false, wpi_assert_true, wpi_assert_false]
  refine ⟨rfl, rfl, ?_, rfl, rfl, rfl, rfl, rfl, ?_⟩
  · apply isRangeValid_of_count_zero
    simp [State.emit, State.resetCounter, State.store, Counter.Reset]
  · simp [State.emit, State.resetCounter, State.store]

theorem ping_ignores_assertion_outcome_witness :
    demoRunning.m_automaticEnabled = true ∧ (demoRunning.heap 2).m_pingChannel = some 20 ∧
      ∃ s1 t1, Ultrasonic.Ping 2 demoRunning = .ok s1 ∧
        Ultrasonic.Ping 2 { demoRunning with m_automaticEnabled := false } = .ok t1 ∧
        s1.failedAsserts = demoRunning.failedAsserts ++ [AssertSite.pingNotAutomatic] ∧
        t1.failedAsserts = demoRunning.failedAsserts ∧
        Ultrasonic.IsRangeValid 2 s1 = false ∧
        s1.events = demoRunning.events ++ [Event.pulse 20 kPingTime] ∧
        s1.heap = t1.heap ∧ s1.events = t1.events ∧ s1.m_firstSensor = t1.m_firstSensor ∧
        s1.m_task = t1.m_task ∧ s1.events ≠ demoRunning.events :=
  ⟨rfl, rfl, ping_ignores_assertion_outcome 2 20 demoRunning rfl rfl⟩

/-! ## Claims on the fatal status and on the potentiometer -/

/-- C30: for every object and error state, `StatusIsFatal()` is true exactly
when the error code of the object is negative; `SetErrnoError` stores the
code -1 for every value of `errno`, 0 included (the message then starts with
"OK: "), so `StatusIsFatal()` is true right after it; and `SetError` with
the code 0 leaves the error state, object error and global error alike, as
it was. -/
theorem statusIsFatal_after_setErrnoError (st : ErrorState) (this : Nat) (errNo : Int)
    (describe : Int → String → String) (contextMessage filename function : String)
    (lineNumber : Nat) :
    (ErrorBase.StatusIsFatal this st = true ↔ (st.m_error this).m_code < 0) ∧
      ((ErrorBase.SetErrnoError errNo describe this contextMessage filename function
        lineNumber st).m_error this).m_code = -1 ∧
      ErrorBase.StatusIsFatal this
        (ErrorBase.SetErrnoError errNo describe this contextMessage filename function
          lineNumber st) = true ∧
      (errNo = 0 →
        ((ErrorBase.SetErrnoError errNo describe this contextMessage filename function
          lineNumber st).m_error this).m_message = "OK: " ++ contextMessage) ∧
      ErrorBase.SetError this 0 contextMessage filename function lineNumber st = st := by
  have hcode : ((ErrorBase.SetErrnoError errNo describe this contextMessage filename function
      lineNumber st).m_error this).m_code = -1 := by
    unfold ErrorBase.SetErrnoError
    simp only
    split <;> simp [Error.Set]
  refine ⟨?_, hcode, ?_, ?_, ?_⟩
  · simp [ErrorBase.StatusIsFatal, Error.GetCode]
  · simp [ErrorBase.StatusIsFatal, Error.GetCode, hcode]
  · intro h0
    unfold ErrorBase.SetErrnoError
    simp only
    split <;> simp [Error.Set, h0]
  · simp [ErrorBase.SetError]

theorem statusIsFatal_after_setErrnoError_witness :
    ErrorBase.StatusIsFatal 1
        (ErrorBase.SetErrnoError 0 (fun _ m => m) 1 "context" "Sensor.cpp" "Get" 10
          demoNoError) = true ∧
      ErrorBase.SetError 1 0 "context" "Sensor.cpp" "Get" 10 demoNoError = demoNoError :=
  ⟨(statusIsFatal_after_setErrnoError demoNoError 1 0 (fun _ m => m) "context" "Sensor.cpp"
      "Get" 10).2.2.1,
    (statusIsFatal_after_setErrnoError demoNoError 1 0 (fun _ m => m) "context" "Sensor.cpp"
      "Get" 10).2.2.2.2⟩

theorem waitWhile_calls (cond : DSData → Bool) :
    ∀ (future : List DSData) (cur : DSData) (c : Call),
      c ∈ (waitWhile cond cur future).1 → c = Call.WaitForData
  | [], cur, c, h => by
    unfold waitWhile at h
    split at h <;> simp at h
    exact h
  | d :: rest, cur, c, h => by
    unfold waitWhile at h
    split at h
    · simp only [List.mem_cons] at h
      rcases h with h | h
      · exact h
      · exact waitWhile_calls cond rest d c h
    · simp at h

theorem waitWhile_filter (cond : DSData → Bool) (cur : DSData) (future : List DSData) :
    (waitWhile cond cur future).1.filter Call.isHandler = [] := by
  rw [List.filter_eq_nil_iff]
  intro c hc
  rw [waitWhile_calls cond future cur c hc]
  simp [Call.isHandler]

theorem loopBody_shape (cur : DSData) (future : List DSData) :
    ∃ pre w, (loopBody cur future).1 = pre ++ bracketedHandler cur ++ w ∧
      (∀ c, c ∈ pre → c = Call.lwSetEnabled true) ∧
      (∀ c, c ∈ w → c = Call.WaitForData ∨ c = Call.lwSetEnabled false) := by
  unfold loopBody bracketedHandler
  by_cases h1 : cur.IsDisabled = true
  · simp only [h1, if_true]
    exact ⟨[], _, rfl, by simp, fun c hc => Or.inl (waitWhile_calls _ future cur c hc)⟩
  · simp only [h1, if_false]
    by_cases h2 : cur.IsAutonomous = true
    · simp only [h2, if_true]
      exact ⟨[], _, rfl, by simp, fun c hc => Or.inl (waitWhile_calls _ future cur c hc)⟩
    · simp only [h2, if_false]
      by_cases h3 : cur.IsTest = true
      · simp only [h3, if_true]
        refine ⟨[Call.lwSetEnabled true], _, by simp [List.append_assoc]; rfl, by simp, ?_⟩
        intro c hc
        rcases List.mem_append.mp hc with h | h
        · exact Or.inl (waitWhile_calls _ future cur c h)
        · split at h
          · simp at h
          · simp only [List.mem_singleton] at h
            exact Or.inr h
      · simp only [h3, if_false]
        exact ⟨[], _, rfl, by simp, fun c hc => Or.inl (waitWhile_calls _ future cur c hc)⟩

theorem filter_handler_of_shape (pre w : List Call) (cur : DSData)
    (hpre : ∀ c, c ∈ pre → c = Call.lwSetEnabled true)
    (hw : ∀ c, c ∈ w → c = Call.WaitForData ∨ c = Call.lwSetEnabled false) :
    (pre ++ bracketedHandler cur ++ w).filter Call.isHandler =
      (bracketedHandler cur).filter Call.isHandler := by
  have h1 : pre.filter Call.isHandler = [] := by
    rw [List.filter_eq_nil_iff]
    intro c hc
    rw [hpre c hc]
    simp [Call.isHandler]
  have h2 : w.filter Call.isHandler = [] := by
    rw [List.filter_eq_nil_iff]
    intro c hc
    rcases hw c hc with h | h <;> rw [h] <;> simp [Call.isHandler]
  rw [List.filter_append, List.filter_append, h1, h2]
  simp

theorem bracketedHandler_one (cur : DSData) :
    ((bracketedHandler cur).filter Call.isHandler).length = 1 := by
  unfold bracketedHandler
  split_ifs <;> simp [Call.isHandler]

theorem loopBody_no_robotInit (cur : DSData) (future : List DSData) :
    Call.RobotInit ∉ (loopBody cur future).1 := by
  obtain ⟨pre, w, heq, hpre, hw⟩ := loopBody_shape cur future
  rw [heq]
  intro hmem
  rcases List.mem_append.mp hmem with h | h
  · rcases List.mem_append.mp h with h | h
    · have := hpre _ h
      cases this
    · unfold bracketedHandler at h
      split_ifs at h <;> simp at h
  · rcases hw _ h with h2 | h2 <;> cases h2

theorem dispatchLoop_no_robotInit :
    ∀ (fuel : Nat) (cur : DSData) (future : List DSData),
      Call.RobotInit ∉ dispatchLoop fuel cur future
  | 0, _, _ => by simp [dispatchLoop]
  | fuel + 1, cur, future => by
    unfold dispatchLoop
    intro hmem
    rcases List.mem_append.mp hmem with h | h
    · exact loopBody_no_robotInit cur future h
    · split at h
      · simp at h
      · exact dispatchLoop_no_robotInit fuel _ _ h

theorem startCompetition_robotInit_count (fuel : Nat) (cur : DSData) (future : List DSData) :
    (SampleRobot.StartCompetition false fuel SampleRobot.new cur future).count
      Call.RobotInit = 1 := by
  have h := List.count_eq_zero_of_not_mem (dispatchLoop_no_robotInit fuel cur future)
  simp [SampleRobot.StartCompetition, SampleRobot.RobotMain, SampleRobot.new,
    List.count_cons, List.count_append, h]

/-- C22 at a failing input: with `RobotMain` not overridden and the driver
station reporting disabled, then operator control, then disabled again, the
dispatch loop enters the disabled branch twice and `RobotInit()` is called
once; with the robot enabled in operator control from the start the loop
never enters the disabled branch and `RobotInit()` is called once; and for
every sequence of driver-station packets `RobotInit()` is called exactly
once, before the loop. -/
theorem robotInit_called_once_not_per_disable :
    (SampleRobot.StartCompetition false 5 SampleRobot.new dsDisabled
        [dsTeleop, dsDisabled]).count Call.RobotInit = 1 ∧
      (SampleRobot.StartCompetition false 5 SampleRobot.new dsDisabled
        [dsTeleop, dsDisabled]).count Call.Disabled = 2 ∧
      (SampleRobot.StartCompetition false 5 SampleRobot.new dsTeleop []).count
        Call.RobotInit = 1 ∧
      (SampleRobot.StartCompetition false 5 SampleRobot.new dsTeleop []).count
        Call.Disabled = 0 ∧
      ∀ fuel cur future,
        (SampleRobot.StartCompetition false fuel SampleRobot.new cur future).count
          Call.RobotInit = 1 :=
  ⟨by decide, by decide, by decide, by decide, startCompetition_robotInit_count⟩

/-- C23: with `RobotMain` not overridden, every pass of the dispatch loop
makes the calls `In<Mode>(true)`, the mode handler, `In<Mode>(false)` of
the mode chosen by the priority Disabled, Autonomous, Test,
OperatorControl, with nothing before them but the LiveWindow switch of test
mode and nothing after them but `WaitForData` calls and the LiveWindow
switch; so the pass runs exactly one handler, and the loop is a sequence of
such passes.  With `RobotMain` overridden, `StartCompetition` calls
`RobotMain` and neither `RobotInit` nor a handler. -/
theorem dispatch_runs_one_bracketed_handler (fuel : Nat) (cur : DSData)
    (future : List DSData) :
    (∃ pre w, (loopBody cur future).1 = pre ++ bracketedHandler cur ++ w ∧
        (∀ c, c ∈ pre → c = Call.lwSetEnabled true) ∧
        (∀ c, c ∈ w → c = Call.WaitForData ∨ c = Call.lwSetEnabled false)) ∧
      (loopBody cur future).1.filter Call.isHandler =
        (bracketedHandler cur).filter Call.isHandler ∧
      ((loopBody cur future).1.filter Call.isHandler).length = 1 ∧
      dispatchLoop (fuel + 1) cur future =
        (loopBody cur future).1 ++
          (match (loopBody cur future).2 with
            | none => []
            | some next => dispatchLoop fuel next.1 next.2) ∧
      SampleRobot.StartCompetition false fuel SampleRobot.new cur future =
        [Call.RobotMain, Call.lwSetEnabled false, Call.RobotInit] ++
          dispatchLoop fuel cur future ∧
      SampleRobot.StartCompetition true fuel SampleRobot.new cur future = [Call.RobotMain] := by
  obtain ⟨pre, w, heq, hpre, hw⟩ := loopBody_shape cur future
  have hfilter : (loopBody cur future).1.filter Call.isHandler =
      (bracketedHandler cur).filter Call.isHandler := by
    rw [heq]
    exact filter_handler_of_shape pre w cur hpre hw
  refine ⟨⟨pre, w, heq, hpre, hw⟩, hfilter, ?_, rfl, rfl, rfl⟩
  rw [hfilter]
  exact bracketedHandler_one cur

theorem dispatch_runs_one_bracketed_handler_witness :
    ((loopBody dsTeleop [dsDisabled]).1.filter Call.isHandler).length = 1 ∧
      SampleRobot.StartCompetition true 3 SampleRobot.new dsTeleop [dsDisabled] =
        [Call.RobotMain] :=
  ⟨(dispatch_runs_one_bracketed_handler 3 dsTeleop [dsDisabled]).2.2.1,
    (dispatch_runs_one_bracketed_handler 3 dsTeleop [dsDisabled]).2.2.2.2.2⟩

/-! ## Link writes happen while the poller is stopped -/

theorem removeScanLogged_fst :
    ∀ (fuel this : Nat) (p : Option Nat) (st : State),
      (removeScanLogged fuel this p st).map Prod.fst = removeScan fuel this p st
  | 0, _, _, _ => rfl
  | _ + 1, _, none, _ => rfl
  | fuel + 1, this, some p, st => by
    simp only [removeScanLogged, removeScan]
    split
    · rfl
    · exact removeScanLogged_fst fuel this _ st

theorem removeScanLogged_log :
    ∀ (fuel this : Nat) (p : Option Nat) (st : State) (r : State × List LinkEvent),
      removeScanLogged fuel this p st = .ok r → r.2 = [] ∨ r.2 = [st.linkWrite]
  | 0, _, _, _, _, h => by cases h
  | _ + 1, _, none, _, _, h => by
    simp only [removeScanLogged] at h
    cases h
    exact Or.inl rfl
  | fuel + 1, this, some p, st, r, h => by
    simp only [removeScanLogged] at h
    split at h
    · cases h
      exact Or.inr rfl
    · exact removeScanLogged_log fuel this _ st r h

theorem removeScanLogged_found (this : Nat) :
    ∀ (rest : List Nat) (a fuel : Nat) (st : State),
      ListFrom st.heap (some a) (a :: rest) → this ∈ rest → rest.length + 1 < fuel →
      ∃ t, removeScanLogged fuel this (some a) st = .ok (t, [st.linkWrite])
  | [], _, _, _, _, hmem, _ => by simp at hmem
  | b :: rest, a, fuel, st, hl, hmem, hf => by
    obtain ⟨f, rfl⟩ : ∃ f, fuel = f + 1 := ⟨fuel - 1, by simp at hf; omega⟩
    have hnext : (st.heap a).m_nextSensor = some b := hl.2.1
    by_cases hb : b = this
    · subst hb
      exact ⟨st.store a { st.heap a with m_nextSensor := (st.heap b).m_nextSensor },
        by simp [removeScanLogged, hnext]⟩
    · have hmem2 : this ∈ rest := by
        rcases List.mem_cons.mp hmem with e | e
        · exact absurd e.symm hb
        · exact e
      have hf2 : rest.length + 1 < f := by simp at hf; omega
      have hl2 : ListFrom st.heap (some b) (b :: rest) := ⟨rfl, hl.2.2⟩
      obtain ⟨t, hrun⟩ := removeScanLogged_found this rest b f st hl2 hmem2 hf2
      refine ⟨t, ?_⟩
      have hne : ¬ (some b = some this) := fun e => hb (Option.some.inj e)
      simp only [removeScanLogged, hnext, hne, if_false]
      exact hrun

theorem except_map_fst_ok {α β : Type} (x : Except Fault (α × β)) (y : Except Fault α)
    (h : x.map Prod.fst = y) :
    (∀ r, x = .ok r → y = .ok r.1) ∧ (∀ a, y = .ok a → ∃ b, x = .ok (a, b)) := by
  subst h
  cases x with
  | error e => exact ⟨fun r h => (by cases h), fun a h => (by cases h)⟩
  | ok r =>
    refine ⟨fun r2 h => (by cases h; rfl), fun a h => ?_⟩
    cases r with
    | mk a2 b2 =>
      simp only [Except.map, Except.ok.injEq] at h
      subst h
      exact ⟨b2, rfl⟩

theorem unlinkLockedLogged_fst (fuel this : Nat) (s1 : State) :
    (unlinkLockedLogged fuel this s1).map Prod.fst = unlinkLocked fuel this s1 := by
  unfold unlinkLockedLogged unlinkLocked
  simp only
  split
  · split
    · cases Ultrasonic.SetAutomaticMode fuel false
        { s1 with m_firstSensor := (s1.heap this).m_nextSensor } <;> rfl
    · rfl
  · split
    · rfl
    · exact removeScanLogged_fst _ _ _ _

theorem destroyLogged_fst (fuel this : Nat) (s : State) :
    (Ultrasonic.destroyLogged fuel this s).map Prod.fst = Ultrasonic.destroy fuel this s := by
  unfold Ultrasonic.destroyLogged Ultrasonic.destroy
  simp only
  cases Ultrasonic.SetAutomaticMode fuel false s with
  | error e => rfl
  | ok s0 =>
    simp only
    rw [← unlinkLockedLogged_fst]
    cases unlinkLockedLogged fuel this
        (wpi_assert (s0.m_firstSensor != none) AssertSite.dtorFirstSensorNotNull s0) with
    | error e => rfl
    | ok r =>
      cases r with
      | mk s3 log =>
        simp only [Except.map]
        by_cases hc : (s3.m_firstSensor != none && s.m_automaticEnabled) = true
        · rw [if_pos hc, if_pos hc]
          cases Ultrasonic.SetAutomaticMode fuel true s3 <;> rfl
        · rw [if_neg hc, if_neg hc]

theorem InitializeLogged_fst (fuel this : Nat) (s : State) :
    (Ultrasonic.InitializeLogged fuel this s).map Prod.fst =
      Ultrasonic.Initialize fuel this s := by
  unfold Ultrasonic.InitializeLogged Ultrasonic.Initialize
  simp only
  cases Ultrasonic.SetAutomaticMode fuel false s with
  | error e => rfl
  | ok s1 =>
    simp only
    split
    · rfl
    · split <;> rfl

theorem linkWrite_stopped (s : State) (hflag : s.m_automaticEnabled = false)
    (htask : s.m_task = none) (hdet : s.detached = 0) :
    s.linkWrite = LinkEvent.linkWrite false 0 := by
  simp [State.linkWrite, State.aliveTasks, hflag, htask, hdet]

theorem wpi_assert_linkWrite (c : Bool) (site : AssertSite) (s : State) :
    (wpi_assert c site s).linkWrite = s.linkWrite := by
  unfold wpi_assert
  split <;> rfl

theorem stoppedWrites_append (tail : List LinkEvent) :
    ∀ (log : List LinkEvent),
      (∀ g ∈ log, g = LinkEvent.linkWrite false 0 ∨ g = LinkEvent.setAutomaticMode false) →
      stoppedWrites (log ++ tail) = stoppedWrites tail
  | [], _ => rfl
  | g :: log, h => by
    have ih := stoppedWrites_append tail log (fun x hx => h x (List.mem_cons_of_mem _ hx))
    rcases h g (List.mem_cons_self _ _) with rfl | rfl
    · simp [stoppedWrites, ih]
    · simp [stoppedWrites, ih]

theorem SetAutomaticMode_false_registry (fuel : Nat) (s : State) (l : List Nat)
    (hreg : Registry s l) (hf : l.length + 2 ≤ fuel)
    (hstopped : s.m_automaticEnabled = false → s.m_task = none) (hdet : s.detached = 0) :
    ∃ s1, Ultrasonic.SetAutomaticMode fuel false s = .ok s1 ∧
      s1.m_automaticEnabled = false ∧ s1.m_task = none ∧ s1.detached = 0 ∧ Registry s1 l := by
  cases hflag : s.m_automaticEnabled with
  | false =>
    exact ⟨s, SetAutomaticMode_same fuel false s hflag, hflag, hstopped hflag, hdet, hreg⟩
  | true =>
    exact ⟨_, SetAutomaticMode_stop fuel s l hflag hreg hf, stopped_flag s l,
      stopped_task s l, (stopped_detached s l).trans hdet, registry_stopped s l l hreg⟩

theorem InitializeLogged_log (fuel n : Nat) (s : State) (l : List Nat)
    (hreg : Registry s l) (hf : l.length + 2 ≤ fuel)
    (hstopped : s.m_automaticEnabled = false → s.m_task = none) (hdet : s.detached = 0)
    (r : State × List LinkEvent) (h : Ultrasonic.InitializeLogged fuel n s = .ok r) :
    r.2 = [LinkEvent.setAutomaticMode false, LinkEvent.linkWrite false 0,
      LinkEvent.linkWrite false 0, LinkEvent.setAutomaticMode s.m_automaticEnabled] := by
  obtain ⟨s1, hrun, h1, h2, h3, _⟩ :=
    SetAutomaticMode_false_registry fuel s l hreg hf hstopped hdet
  have hw := linkWrite_stopped s1 h1 h2 h3
  have hw2 : (s1.store n { s1.heap n with m_nextSensor := s1.m_firstSensor }).linkWrite
      = LinkEvent.linkWrite false 0 := hw
  unfold Ultrasonic.InitializeLogged at h
  simp only [hrun] at h
  split at h
  · cases h
  · split at h
    · cases h
    · cases h
      simp only [hw, hw2, List.cons_append, List.nil_append]

theorem unlinkLockedLogged_log (fuel n : Nat) (s1 : State) (r : State × List LinkEvent)
    (h : unlinkLockedLogged fuel n s1 = .ok r) :
    ∀ g ∈ r.2, g = s1.linkWrite ∨ g = LinkEvent.setAutomaticMode false := by
  unfold unlinkLockedLogged at h
  simp only at h
  split at h
  · split at h
    · split at h
      · cases h
      · cases h
        intro g hg
        simpa using hg
    · cases h
      intro g hg
      simp only [List.mem_singleton] at hg
      exact Or.inl hg
  · split at h
    · cases h
    · intro g hg
      rcases removeScanLogged_log _ _ _ _ r h with e | e
      · rw [e] at hg; cases hg
      · rw [e, wpi_assert_linkWrite] at hg
        simp only [List.mem_singleton] at hg
        exact Or.inl hg

theorem unlinkLockedLogged_found (fuel n : Nat) (s1 : State) (l : List Nat)
    (hreg : Registry s1 l) (hn : n ∈ l) (hflag : s1.m_automaticEnabled = false)
    (hf : l.length + 2 ≤ fuel) :
    ∃ t, unlinkLockedLogged fuel n s1 =
      .ok (t, s1.linkWrite ::
        (if l.erase n = [] then [LinkEvent.setAutomaticMode false] else [])) := by
  cases l with
  | nil => simp at hn
  | cons a rest =>
    have hfirst : s1.m_firstSensor = some a := hreg.1
    by_cases ha : a = n
    · subst ha
      rw [List.erase_cons_head]
      have hrest : ListFrom s1.heap (s1.heap a).m_nextSensor rest := hreg.2
      unfold unlinkLockedLogged
      simp only [hfirst, if_true]
      cases rest with
      | nil =>
        have hnone : (s1.heap a).m_nextSensor = none := hrest
        have hsame := SetAutomaticMode_same fuel false
          { s1 with m_firstSensor := (s1.heap a).m_nextSensor } hflag
        simp only [hnone] at hsame ⊢
        simp only [if_true, hsame]
        exact ⟨_, rfl⟩
      | cons b r =>
        have hsome : (s1.heap a).m_nextSensor = some b := hrest.1
        simp only [hsome]
        exact ⟨{ s1 with m_firstSensor := some b }, by simp⟩
    · have hmem : n ∈ rest := by
        rcases List.mem_cons.mp hn with e | e
        · exact absurd e.symm ha
        · exact e
      have hl : ListFrom s1.heap (some a) (a :: rest) := ⟨rfl, hreg.2⟩
      obtain ⟨t, hrun⟩ :=
        removeScanLogged_found n rest a fuel s1 hl hmem (by simp at hf; omega)
      refine ⟨t, ?_⟩
      have hne : ¬ (some a = some n) := fun e => ha (Option.some.inj e)
      have hnext : (s1.heap a).m_nextSensor ≠ none := by
        cases rest with
        | nil => simp at hmem
        | cons b r =>
          have : (s1.heap a).m_nextSensor = some b := hreg.2.1
          simp [this]
      have h2 : (a :: rest).erase n = a :: rest.erase n := by
        simp [List.erase_cons, ha]
      unfold unlinkLockedLogged
      simp only [hfirst, hne, if_false]
      simp only [wpi_assert, bne_iff_ne, ne_eq, hnext, not_false_eq_true, if_true]
      rw [hrun, h2]
      simp

theorem destroyLogged_safe (fuel n : Nat) (s : State) (l : List Nat)
    (hreg : Registry s l) (hf : l.length + 2 ≤ fuel)
    (hstopped : s.m_automaticEnabled = false → s.m_task = none) (hdet : s.detached = 0)
    (r : State × List LinkEvent) (h : Ultrasonic.destroyLogged fuel n s = .ok r) :
    stoppedWrites r.2 = true := by
  obtain ⟨s0, hrun, h1, h2, h3, _⟩ :=
    SetAutomaticMode_false_registry fuel s l hreg hf hstopped hdet
  have hw := linkWrite_stopped s0 h1 h2 h3
  unfold Ultrasonic.destroyLogged at h
  simp only [hrun] at h
  cases hu : unlinkLockedLogged fuel n
      (wpi_assert (s0.m_firstSensor != none) AssertSite.dtorFirstSensorNotNull s0) with
  | error e => rw [hu] at h; cases h
  | ok r1 =>
    cases r1 with
    | mk s3 log =>
      have hlog := unlinkLockedLogged_log fuel n _ (s3, log) hu
      rw [wpi_assert_linkWrite, hw] at hlog
      have hall : ∀ g ∈ [LinkEvent.setAutomaticMode false] ++ log,
          g = LinkEvent.linkWrite false 0 ∨ g = LinkEvent.setAutomaticMode false := by
        intro g hg
        rcases List.mem_append.1 hg with e | e
        · simp only [List.mem_singleton] at e
          exact Or.inr e
        · exact hlog g e
      rw [hu] at h
      simp only at h
      by_cases hc : (s3.m_firstSensor != none && s.m_automaticEnabled) = true
      · rw [if_pos hc] at h
        cases h4 : Ultrasonic.SetAutomaticMode fuel true s3 with
        | error e => rw [h4] at h; cases h
        | ok s4 =>
          rw [h4] at h
          cases h
          show stoppedWrites (([LinkEvent.setAutomaticMode false] ++ log) ++
            [LinkEvent.setAutomaticMode true]) = true
          rw [stoppedWrites_append _ _ hall]
          rfl
      · rw [if_neg hc] at h
        cases h
        have := stoppedWrites_append [] _ hall
        rw [List.append_nil] at this
        rw [this]
        rfl

theorem destroyLogged_found (fuel n : Nat) (s : State) (l : List Nat)
    (hreg : Registry s l) (hf : l.length + 2 ≤ fuel)
    (hstopped : s.m_automaticEnabled = false → s.m_task = none) (hdet : s.detached = 0)
    (hn : n ∈ l) :
    ∃ s1, Ultrasonic.destroyLogged fuel n s =
      .ok (s1, [LinkEvent.setAutomaticMode false, LinkEvent.linkWrite false 0] ++
        (if l.erase n = [] then [LinkEvent.setAutomaticMode false]
          else if s.m_automaticEnabled then [LinkEvent.setAutomaticMode true] else [])) := by
  obtain ⟨s0, hrun, h1, h2, h3, hreg0⟩ :=
    SetAutomaticMode_false_registry fuel s l hreg hf hstopped hdet
  have hw := linkWrite_stopped s0 h1 h2 h3
  have hne : s0.m_firstSensor ≠ none := by
    rw [Ne, registry_nil_iff s0 l hreg0]
    intro e; subst e; simp at hn
  have hassert : (s0.m_firstSensor != none) = true := by simpa using hne
  obtain ⟨t, hfound⟩ := unlinkLockedLogged_found fuel n s0 l hreg0 hn h1 hf
  obtain ⟨t2, hrun2, hun, hregt⟩ := unlinkLocked_spec fuel n s0 l hreg0 hn h1 hf
  have hproj := (except_map_fst_ok _ _ (unlinkLockedLogged_fst fuel n s0)).1 _ hfound
  rw [hrun2] at hproj
  have ht : t2 = t := by
    simp only [Except.ok.injEq] at hproj
    exact hproj
  subst ht
  have hlen : (l.erase n).length < fuel := by
    have := List.length_erase_of_mem hn
    omega
  unfold Ultrasonic.destroyLogged
  simp only [hrun, hassert, wpi_assert_true, hfound, hw]
  by_cases hnil : l.erase n = []
  · have hfirst : t2.m_firstSensor = none := (registry_nil_iff t2 _ hregt).mpr hnil
    simp [hfirst, hnil]
  · have hfirst : t2.m_firstSensor ≠ none :=
      fun e => hnil ((registry_nil_iff t2 _ hregt).mp e)
    have hb : (t2.m_firstSensor != none) = true := by simpa using hfirst
    cases hflag : s.m_automaticEnabled with
    | false => simp [hb, hnil]
    | true =>
      have hstart := SetAutomaticMode_start fuel t2 _ (hun.flag.trans h1)
        (hun.task.trans h2) hregt hlen
      simp [hb, hnil, hstart]

/-- C17: for every state whose registry is `l`, in either mode (no stray
poller thread, and no task when the flag is false), `Initialize` and the
destructor are run with every call of `SetAutomaticMode` and every write to
`m_firstSensor` or an `m_nextSensor` field recorded in program order, each
write with the flag and the number of running poller threads at that moment.
Whenever `Initialize` returns, its state is that of the plain `Initialize`
and its record is: `SetAutomaticMode(false)`, two link writes made with the
flag false and no poller thread running, then `SetAutomaticMode(originalMode)`;
it does return for a new object with an echo channel.  Whenever the
destructor returns, its state is that of the plain destructor and in its
record every link write was made with the flag false and no poller thread
running and before any call `SetAutomaticMode(true)`; for a sensor of the
list it returns and the record is `SetAutomaticMode(false)`, one such link
write, then `SetAutomaticMode(false)` if the list became empty, else
`SetAutomaticMode(true)` if the mode was automatic. -/
theorem registry_changes_only_while_stopped (fuel n : Nat) (s : State) (l : List Nat)
    (hreg : Registry s l) (hf : l.length + 2 ≤ fuel)
    (hstopped : s.m_automaticEnabled = false → s.m_task = none) (hdet : s.detached = 0) :
    (∀ r, Ultrasonic.InitializeLogged fuel n s = .ok r →
        Ultrasonic.Initialize fuel n s = .ok r.1 ∧
        r.2 = [LinkEvent.setAutomaticMode false, LinkEvent.linkWrite false 0,
          LinkEvent.linkWrite false 0, LinkEvent.setAutomaticMode s.m_automaticEnabled] ∧
        stoppedWrites r.2 = true) ∧
      (∀ e, n ∉ l → (s.heap n).m_echoChannel = some e →
        ∃ r, Ultrasonic.InitializeLogged fuel n s = .ok r) ∧
      (∀ r, Ultrasonic.destroyLogged fuel n s = .ok r →
        Ultrasonic.destroy fuel n s = .ok r.1 ∧ stoppedWrites r.2 = true) ∧
      (n ∈ l → ∃ s1, Ultrasonic.destroyLogged fuel n s =
        .ok (s1, [LinkEvent.setAutomaticMode false, LinkEvent.linkWrite false 0] ++
          (if l.erase n = [] then [LinkEvent.setAutomaticMode false]
            else if s.m_automaticEnabled then [LinkEvent.setAutomaticMode true] else []))) := by
  refine ⟨fun r h => ?_, fun e hn hecho => ?_, fun r h => ?_, fun hn => ?_⟩
  · have hlog := InitializeLogged_log fuel n s l hreg hf hstopped hdet r h
    refine ⟨(except_map_fst_ok _ _ (InitializeLogged_fst fuel n s)).1 r h, hlog, ?_⟩
    rw [hlog]
    cases s.m_automaticEnabled <;> rfl
  · have hinit : ∃ t, Ultrasonic.Initialize fuel n s = .ok t := by
      cases hflag : s.m_automaticEnabled with
      | false => exact ⟨_, Initialize_off fuel n s e hflag hecho⟩
      | true => exact ⟨_, Initialize_on fuel n s l e hflag hreg hn hf hecho⟩
    obtain ⟨t, ht⟩ := hinit
    obtain ⟨b, hb⟩ := (except_map_fst_ok _ _ (InitializeLogged_fst fuel n s)).2 t ht
    exact ⟨_, hb⟩
  · exact ⟨(except_map_fst_ok _ _ (destroyLogged_fst fuel n s)).1 r h,
      destroyLogged_safe fuel n s l hreg hf hstopped hdet r h⟩
  · exact destroyLogged_found fuel n s l hreg hf hstopped hdet hn

theorem registry_changes_only_while_stopped_witness :
    Registry demoRunning [3, 2, 1] ∧ [3, 2, 1].length + 2 ≤ 5 ∧
      (demoRunning.m_automaticEnabled = false → demoRunning.m_task = none) ∧
      demoRunning.detached = 0 ∧
      (∃ r, Ultrasonic.InitializeLogged 5 7 demoRunning = .ok r ∧
        Ultrasonic.Initialize 5 7 demoRunning = .ok r.1 ∧
        r.2 = [LinkEvent.setAutomaticMode false, LinkEvent.linkWrite false 0,
          LinkEvent.linkWrite false 0, LinkEvent.setAutomaticMode true]) ∧
      (∃ s1, Ultrasonic.destroyLogged 5 2 demoRunning =
          .ok (s1, [LinkEvent.setAutomaticMode false, LinkEvent.linkWrite false 0,
            LinkEvent.setAutomaticMode true]) ∧
        Ultrasonic.destroy 5 2 demoRunning = .ok s1) := by
  have h7 := registry_changes_only_while_stopped 5 7 demoRunning [3, 2, 1]
    demoRunning_registry (by decide) (by simp [demoRunning]) rfl
  have h2 := registry_changes_only_while_stopped 5 2 demoRunning [3, 2, 1]
    demoRunning_registry (by decide) (by simp [demoRunning]) rfl
  obtain ⟨r, hr⟩ := h7.2.1 1 (by decide) rfl
  obtain ⟨s1, hs1⟩ := h2.2.2.2 (by decide)
  exact ⟨demoRunning_registry, by decide, by simp [demoRunning], rfl,
    ⟨r, hr, (h7.1 r hr).1, (h7.1 r hr).2.1⟩, ⟨s1, hs1, (h2.2.2.1 _ hs1).1⟩⟩

end WPILib
